import Mathlib

/-!
radioclkd: decoding DCF77 / MSF / WWVB time codes

A shallow embedding of `radioclkd.c` and the properties of it that are settled
against the specification.

Conventions of the embedding

* C `int`, `long` and `time_t` values are mathematical integers (`Int`).  A
  value is narrowed in two places, the argument of `abs` in `ProcessTimeCode`
  and the `(int) sum` of `CalculatePPSAverage`; both are modelled by
  `toInt32`.  The sums that close `UTCtime` and `DecodeWWVB` are formed in
  `Int`, and what is proved of them bounds the result by `2 ^ bits`.
* `time_t` is a signed type with `bits` magnitude bits (31 for a 32-bit
  `time_t`, 63 for a 64-bit one).  `UTCtime` measures that number itself, so it
  is an argument of the embedding.
* `gmtime` belongs to the C library.  It is modelled as the proleptic
  Gregorian conversion on all of `Int`.
* `qsort` belongs to the C library.  It is modelled on memory seen as `int`s:
  `w` is `sizeof(long) / sizeof(int)` on the host, the element size of the call
  in `CalculatePPSAverage`, and `behind` is the memory that follows the array
  `timediff`.
* The arrays `code` and `pulses` are functions of the index; indices outside
  `0 .. 127` lie outside the C arrays.
-/

namespace Radioclk

/-! ## Broken-down time and the `gmtime` oracle -/

/-- The fields of `struct tm` that `UTCtime` reads.  `tm_year` counts from 1900
and `tm_mon` from 0, as in C. -/
structure Tm where
  tm_sec : Int
  tm_min : Int
  tm_hour : Int
  tm_mday : Int
  tm_mon : Int
  tm_year : Int
deriving DecidableEq, Repr

/-- Gregorian leap-year rule. -/
def isLeap (y : Int) : Bool :=
  decide (y % 4 = 0 ∧ (y % 100 ≠ 0 ∨ y % 400 = 0))

/-- Number of days from 1970-01-01 to 1 January of year `y`. -/
def daysBeforeYear (y : Int) : Int :=
  365 * (y - 1970) + ((y - 1) / 4 - (y - 1) / 100 + (y - 1) / 400) - 477

/-- Number of days of the year that precede month `m` (0 = January). -/
def daysBeforeMonth (leap : Bool) (m : Int) : Int :=
  let l : Int := if leap then 1 else 0
  if m ≤ 0 then 0
  else if m = 1 then 31
  else if m = 2 then 59 + l
  else if m = 3 then 90 + l
  else if m = 4 then 120 + l
  else if m = 5 then 151 + l
  else if m = 6 then 181 + l
  else if m = 7 then 212 + l
  else if m = 8 then 243 + l
  else if m = 9 then 273 + l
  else if m = 10 then 304 + l
  else if m = 11 then 334 + l
  else 365 + l

/-- Length of month `m` (0 = January). -/
def daysInMonth (leap : Bool) (m : Int) : Int :=
  daysBeforeMonth leap (m + 1) - daysBeforeMonth leap m

/-- The year that contains day number `n` (days since 1970-01-01): an estimate
from the mean year length, corrected by at most one. -/
def yearOfDays (n : Int) : Int :=
  let y := 1970 + (400 * n) / 146097
  if n < daysBeforeYear y then y - 1
  else if daysBeforeYear (y + 1) ≤ n then y + 1
  else y

/-- The month (0 = January) that contains the 0-based day of the year `yd`. -/
def monthOfYday (leap : Bool) (yd : Int) : Int :=
  let l : Int := if leap then 1 else 0
  if yd < 31 then 0
  else if yd < 59 + l then 1
  else if yd < 90 + l then 2
  else if yd < 120 + l then 3
  else if yd < 151 + l then 4
  else if yd < 181 + l then 5
  else if yd < 212 + l then 6
  else if yd < 243 + l then 7
  else if yd < 273 + l then 8
  else if yd < 304 + l then 9
  else if yd < 334 + l then 10
  else 11

/-- Modelled from the spec: the host's `gmtime`, which is not part of the
repository.  It is the proleptic Gregorian conversion of seconds since the
epoch to broken-down UTC, total on `Int`. -/
def gmtime (t : Int) : Tm :=
  let days := t / 86400
  let rem := t % 86400
  let y := yearOfDays days
  let yd := days - daysBeforeYear y
  let m := monthOfYday (isLeap y) yd
  { tm_sec := rem % 60
    tm_min := rem / 60 % 60
    tm_hour := rem / 3600
    tm_mday := yd - daysBeforeMonth (isLeap y) m + 1
    tm_mon := m
    tm_year := y - 1900 }

/-- Seconds since the epoch of a broken-down UTC time. -/
def tmSeconds (tm : Tm) : Int :=
  (daysBeforeYear (tm.tm_year + 1900)
      + daysBeforeMonth (isLeap (tm.tm_year + 1900)) tm.tm_mon
      + (tm.tm_mday - 1)) * 86400
    + tm.tm_hour * 3600 + tm.tm_min * 60 + tm.tm_sec

/-- A broken-down time names a real instant: month 0..11, day within the month,
hour 0..23, minute and second 0..59. -/
def tmValid (tm : Tm) : Prop :=
  0 ≤ tm.tm_mon ∧ tm.tm_mon ≤ 11 ∧
  1 ≤ tm.tm_mday ∧ tm.tm_mday ≤ daysInMonth (isLeap (tm.tm_year + 1900)) tm.tm_mon ∧
  0 ≤ tm.tm_hour ∧ tm.tm_hour ≤ 23 ∧
  0 ≤ tm.tm_min ∧ tm.tm_min ≤ 59 ∧
  0 ≤ tm.tm_sec ∧ tm.tm_sec ≤ 59

instance (tm : Tm) : Decidable (tmValid tm) := by
  unfold tmValid; infer_instance

/-- The civil date-time `Y-Mo-D h:mi:s` (month 1..12) as a `struct tm`. -/
def civilTm (Y Mo D h mi s : Int) : Tm :=
  { tm_sec := s, tm_min := mi, tm_hour := h, tm_mday := D, tm_mon := Mo - 1, tm_year := Y - 1900 }

/-- A calendar-valid civil date-time. -/
def civilValid (Y Mo D h mi s : Int) : Prop := tmValid (civilTm Y Mo D h mi s)

instance (Y Mo D h mi s : Int) : Decidable (civilValid Y Mo D h mi s) := by
  unfold civilValid; infer_instance

/-- Seconds since 1970-01-01 00:00:00 UTC of the civil date-time `Y-Mo-D h:mi:s`. -/
def epochSeconds (Y Mo D h mi s : Int) : Int := tmSeconds (civilTm Y Mo D h mi s)

/-! ## `UTCtime` -/

/-- The comparison of the probe `search` with the wanted time `timeptr` in
`UTCtime`: the difference of the first field that differs, from the year down
to the second. -/
def direction (search timeptr : Tm) : Int :=
  let d :=
    if search.tm_year - timeptr.tm_year ≠ 0 then search.tm_year - timeptr.tm_year
    else if search.tm_mon - timeptr.tm_mon ≠ 0 then search.tm_mon - timeptr.tm_mon
    else search.tm_mday - timeptr.tm_mday
  if d = 0 then
    if search.tm_hour - timeptr.tm_hour ≠ 0 then search.tm_hour - timeptr.tm_hour
    else if search.tm_min - timeptr.tm_min ≠ 0 then search.tm_min - timeptr.tm_min
    else search.tm_sec - timeptr.tm_sec
  else d

/-- The search loop of `UTCtime`.  The first argument is `bits + 1` for the
value of `bits` at the head of the loop, so `0` is the pass entered with
`bits = -1`, after the last decrement; `timeptr` already has `tm_sec = 0` and
`secs` is the saved second. -/
def UTCloop (timeptr : Tm) (secs : Int) : Nat → Int → Int
  | 0, timep =>
    if direction (gmtime timep) timeptr = 0 then timep + secs else -1
  | k + 1, timep =>
    if direction (gmtime timep) timeptr = 0 then timep + secs
    else if k = 0 then UTCloop timeptr secs k (timep - 1)
    else if direction (gmtime timep) timeptr > 0 then
      UTCloop timeptr secs k (timep - 2 ^ (k - 1))
    else UTCloop timeptr secs k (timep + 2 ^ (k - 1))

/-- `UTCtime` for a signed `time_t` with `bits` magnitude bits: the search
starts at `timep = 0` with the seconds taken out.  The closing `timep + secs`
is formed in the integers where the source forms it in `time_t`: the value is
that of the source as long as it is below `2 ^ bits`. -/
def UTCtime (bits : Nat) (timeptr : Tm) : Int :=
  UTCloop { timeptr with tm_sec := 0 } timeptr.tm_sec (bits + 1) 0


/-! ## The frame decoders -/

/-- The symbols `code[k] .. code[k+n-1]` added up, as the parity loops do
(`sum += code[k]`). -/
def sumCode (code : Int → Int) (k : Int) (n : Nat) : Int :=
  ((List.range n).map fun (j : Nat) => code (k + j)).sum

/-- One BCD segment of `n` symbols from index `k`, least significant bit first:
`sum += ((code[k]==1) ? 1 : 0) << j`. -/
def segLsb (code : Int → Int) (k : Int) (n : Nat) : Int :=
  ((List.range n).map fun (j : Nat) => (if code (k + j) = 1 then 1 else 0) * (2 : Int) ^ j).sum

/-- One BCD segment of `n` symbols from index `k`, most significant bit first,
a symbol counting as 1 when it equals `one`:
`sum += ((code[k]==one) ? 1 : 0) << (bcd[i]-j-1)`. -/
def segMsb (one : Int) (code : Int → Int) (k : Int) (n : Nat) : Int :=
  ((List.range n).map fun (j : Nat) => (if code (k + j) = one then 1 else 0) * (2 : Int) ^ (n - j - 1)).sum

/-- The loop over the `bcd` table: consecutive segments of the given widths,
the running index `k` carried from one segment to the next. -/
def segments (seg : Int → Nat → Int) : Int → List Nat → List Int
  | _, [] => []
  | k, w :: ws => seg k w :: segments seg (k + w) ws

/-- The parity loop of `DecodeDCF77`: every group of the given widths, taken
consecutively from index `k`, has an even sum. -/
def parityDCF77 (code : Int → Int) : Int → List Nat → Bool
  | _, [] => true
  | k, w :: ws =>
    if (sumCode code k w).tmod 2 ≠ 0 then false else parityDCF77 code (k + w) ws

/-- `DecodeDCF77(code, length)`; `-1` on error. -/
def DecodeDCF77 (bits : Nat) (code : Int → Int) (length : Int) : Int :=
  if parityDCF77 code (length - 38) [8, 7, 23] = false then -1
  else
    let segment := segments (segLsb code) (length - 38) [4, 3, 1, 4, 2, 1, 4, 2, 3, 4, 1, 4, 4]
    let tm_year := 100 + segment.getD 11 0 + segment.getD 12 0 * 10
    let tm_mon := segment.getD 9 0 + segment.getD 10 0 * 10 - 1
    let tm_mday := segment.getD 6 0 + segment.getD 7 0 * 10
    let tm_wday := if segment.getD 8 0 = 7 then 0 else segment.getD 8 0
    let tm_hour := segment.getD 3 0 + segment.getD 4 0 * 10
    let tm_min := segment.getD 0 0 + segment.getD 1 0 * 10
    if tm_min > 59 ∨ tm_hour > 23 ∨ tm_wday > 6 ∨ tm_mday > 31 ∨ tm_mon > 11 ∨ tm_year > 199 then
      -1
    else
      UTCtime bits
          { tm_sec := 0, tm_min := tm_min, tm_hour := tm_hour, tm_mday := tm_mday,
            tm_mon := tm_mon, tm_year := tm_year }
        - (if code (length - 42) = 1 then 7200 else 3600)

/-- The parity loop of `DecodeMSF`: group `i` starts from the seed
`(code[length-7+i]==2) ? 1 : 0` and must reach an odd sum (`sum%2 == 1` with
the remainder of C). -/
def parityMSF (code : Int → Int) (length : Int) : Int → Int → List Nat → Bool
  | _, _, [] => true
  | k, i, w :: ws =>
    if ((if code (length - 7 + i) = 2 then 1 else 0) + sumCode code k w).tmod 2 ≠ 1 then false
    else parityMSF code length (k + w) (i + 1) ws

/-- `DecodeMSF(code, length)`; `-1` on error. -/
def DecodeMSF (bits : Nat) (code : Int → Int) (length : Int) : Int :=
  if parityMSF code length (length - 44) 0 [8, 11, 3, 13] = false then -1
  else
    let segment := segments (segMsb 1 code) (length - 44) [4, 4, 1, 4, 2, 4, 3, 2, 4, 3, 4]
    let tm_year := 100 + segment.getD 0 0 * 10 + segment.getD 1 0
    let tm_mon := segment.getD 2 0 * 10 + segment.getD 3 0 - 1
    let tm_mday := segment.getD 4 0 * 10 + segment.getD 5 0
    let tm_wday := segment.getD 6 0
    let tm_hour := segment.getD 7 0 * 10 + segment.getD 8 0
    let tm_min := segment.getD 9 0 * 10 + segment.getD 10 0
    if tm_min > 59 ∨ tm_hour > 23 ∨ tm_wday > 6 ∨ tm_mday > 31 ∨ tm_mon > 11 ∨ tm_year > 199 then
      -1
    else
      UTCtime bits
          { tm_sec := 0, tm_min := tm_min, tm_hour := tm_hour, tm_mday := tm_mday,
            tm_mon := tm_mon, tm_year := tm_year }
        - (if code (length - 3) = 2 then 3600 else 0)

/-- The framing loop of `DecodeWWVB`, `i = 2 .. 59`: the symbol at
`length-i-1` is 5 when `(i-1)%10 == 0` and 1 or 4 otherwise. -/
def framingWWVB (code : Int → Int) (length : Int) : Bool :=
  (List.range 58).all fun n =>
    let i : Int := n + 2
    let j := code (length - i - 1)
    let k := (i - 1) % 10
    !(decide (k = 0 ∧ j ≠ 5) || decide (k ≠ 0 ∧ j ≠ 1 ∧ j ≠ 4))

/-- The table `months` of `DecodeWWVB`. -/
def months : List Int := [0, 31, 59, 90, 120, 151, 181, 212, 243, 273, 304, 334]

/-- The month loop of `DecodeWWVB`, from `i = n - 1` down to 0: the first `i`
with `months[i] <= tm_yday` gives `(tm_mon, tm_mday)`. -/
def monthLoop (tm_yday : Int) : Nat → Option (Int × Int)
  | 0 => none
  | i + 1 =>
    if months.getD i 0 ≤ tm_yday then some ((i : Int), 1 + tm_yday - months.getD i 0)
    else monthLoop tm_yday i

/-- `DecodeWWVB(code, length)`; `-1` on error.  When the month loop finds no
month, `tm_mon` stays `-1` and `tm_mday`, which C leaves unset, is taken as 0.
The closing `+ 60` is formed in the integers where the source forms it in
`time_t`: the value is that of the source as long as it is below `2 ^ bits`. -/
def DecodeWWVB (bits : Nat) (code : Int → Int) (length : Int) : Int :=
  if framingWWVB code length = false then -1
  else
    let segment := segments (segMsb 4 code) (length - 60)
      [3, 1, 4, 3, 2, 1, 4, 3, 2, 1, 4, 1, 4, 11, 4, 1, 4]
    let tm_year := 100 + segment.getD 16 0 + segment.getD 14 0 * 10
    let tm_yday := segment.getD 12 0 + segment.getD 10 0 * 10 + segment.getD 8 0 * 100 - 1
    let tm_hour := segment.getD 6 0 + segment.getD 4 0 * 10
    let tm_min := segment.getD 2 0 + segment.getD 0 0 * 10
    if tm_min > 59 ∨ tm_hour > 23 ∨ tm_yday > 365 ∨ tm_year > 199 then -1
    else
      let found := (monthLoop tm_yday 12).getD (-1, 0)
      let adjusted :=
        if code (length - 6) = 4 then
          if tm_yday > 59 then (found.1, found.2 - 1)
          else if tm_yday = 59 then (1, 29)
          else found
        else found
      if adjusted.1 = -1 then -1
      else
        UTCtime bits
            { tm_sec := 0, tm_min := tm_min, tm_hour := tm_hour, tm_mday := adjusted.2,
              tm_mon := adjusted.1, tm_year := tm_year }
          + 60

/-! ## Channel state, offset estimate and publication -/

/-- A `struct timeval`. -/
structure Timeval where
  tv_sec : Int
  tv_usec : Int
deriving DecidableEq, Repr

/-- The segment `struct shmTime` shared with ntpd. -/
structure ShmTime where
  mode : Int
  count : Int
  clockTimeStampSec : Int
  clockTimeStampUSec : Int
  receiveTimeStampSec : Int
  receiveTimeStampUSec : Int
  leap : Int
  precision : Int
  nsamples : Int
  valid : Int
  dummy : List Int
deriving DecidableEq, Repr

/-- The state `struct clockInfo` of one receiver.  `stamp` is `none` for the
NULL pointer and otherwise holds the contents of the attached segment. -/
structure ClockInfo where
  count : Int
  status : Int
  error : Int
  frame : Int
  correct : Int
  marker : Nat
  start : Timeval
  end_ : Timeval
  unit : Int
  last : Int
  stamp : Option ShmTime
  line : String
  code : Int → Int
  pulses : Int → Timeval

/-- The assignment `a[i] = v`. -/
def update {α : Type} (a : Int → α) (i : Int) (v : α) : Int → α :=
  fun j => if j = i then v else a j

def MSF : Int := 0x01
def DCF77 : Int := 0x02
def WWVB : Int := 0x04
def LEAP_NOWARNING : Int := 0x00
def PRECISION : Int := -10

/-- The macro `timersub` of `<sys/time.h>`. -/
def timersub (a b : Timeval) : Timeval :=
  if a.tv_usec - b.tv_usec < 0 then
    { tv_sec := a.tv_sec - b.tv_sec - 1, tv_usec := a.tv_usec - b.tv_usec + 1000000 }
  else { tv_sec := a.tv_sec - b.tv_sec, tv_usec := a.tv_usec - b.tv_usec }

/-- Conversion to the 32-bit `int`, two's complement. -/
def toInt32 (x : Int) : Int := (x + 2147483648) % 4294967296 - 2147483648

/-- The library function `int abs(int)`: its argument is converted to `int`,
and the negation of the least `int` wraps to itself. -/
def abs32 (x : Int) : Int :=
  if toInt32 x < 0 then toInt32 (-(toInt32 x)) else toInt32 x

/-- One store of `PutTimeStamp` into the segment. -/
inductive ShmStore where
  | mode (v : Int)
  | valid (v : Int)
  | leap (v : Int)
  | precision (v : Int)
  | clockTimeStampSec (v : Int)
  | clockTimeStampUSec (v : Int)
  | receiveTimeStampSec (v : Int)
  | receiveTimeStampUSec (v : Int)
  | countIncr
deriving DecidableEq, Repr

/-- The effect of one store on the segment. -/
def ShmStore.apply (shm : ShmTime) : ShmStore → ShmTime
  | .mode v => { shm with mode := v }
  | .valid v => { shm with valid := v }
  | .leap v => { shm with leap := v }
  | .precision v => { shm with precision := v }
  | .clockTimeStampSec v => { shm with clockTimeStampSec := v }
  | .clockTimeStampUSec v => { shm with clockTimeStampUSec := v }
  | .receiveTimeStampSec v => { shm with receiveTimeStampSec := v }
  | .receiveTimeStampUSec v => { shm with receiveTimeStampUSec := v }
  | .countIncr => { shm with count := shm.count + 1 }

/-- The stores of `PutTimeStamp`, in program order. -/
def PutTimeStampStores (loc radio : Timeval) (leap : Int) : List ShmStore :=
  [ .mode 1, .valid 0,
    .leap leap, .precision PRECISION,
    .clockTimeStampSec radio.tv_sec, .clockTimeStampUSec radio.tv_usec,
    .receiveTimeStampSec loc.tv_sec, .receiveTimeStampUSec loc.tv_usec,
    .countIncr, .valid 1 ]

/-- `PutTimeStamp(local, radio, shm, leap)`: the segment after all its stores. -/
def PutTimeStamp (loc radio : Timeval) (shm : ShmTime) (leap : Int) : ShmTime :=
  (PutTimeStampStores loc radio leap).foldl ShmStore.apply shm

/-- `TimeCompare(a, b)`: it reads one `int` at the start of each element and
answers `-1`, `+1` or `0`. -/
def TimeCompare (a b : List Int) : Int :=
  if a.headD 0 < b.headD 0 then -1
  else if a.headD 0 > b.headD 0 then 1
  else 0

/-- Memory, seen as `int`s, cut into `n` elements of `w` `int`s each. -/
def elements (w : Nat) : Nat → List Int → List (List Int)
  | 0, _ => []
  | n + 1, mem => mem.take w :: elements w n (mem.drop w)

/-- Modelled from the spec: the library call
`qsort(timediff, 59, sizeof(long), TimeCompare)`.  `mem` is the memory from
`timediff[0]` on, seen as `int`s, and `w` is `sizeof(long) / sizeof(int)`: the
first `59 * w` `int`s are taken as 59 elements of `w` `int`s each and put in
ascending order of `TimeCompare`; what follows them is left as it is.  With
`w = 1` these are the 59 values of `timediff`; with `w = 2` (an 8-byte `long`)
they are 59 pairs that reach 59 `int`s beyond the array.  Elements that compare
equal keep their order, which the library leaves open. -/
def qsort (w : Nat) (mem : List Int) : List Int :=
  ((elements w 59 mem).insertionSort (fun a b => TimeCompare a b ≤ 0)).flatten
    ++ mem.drop (59 * w)

/-- The measured offset of pulse `i` before the range test:
`err = pulses[count-i-1].tv_usec; if (err>500000) err -= 1000000`. -/
def pulseErr (c : ClockInfo) (i : Nat) : Int :=
  let err := (c.pulses (c.count - i - 1)).tv_usec
  if err > 500000 then err - 1000000 else err

/-- `CalculatePPSAverage(c, &average)`: `none` for the return value `-1`,
`some average` for the return value 0.  `w` is `sizeof(long) / sizeof(int)` on
the host and `behind` is the memory that follows `timediff[58]`, seen as
`int`s: `qsort` is called with the element size `sizeof(long)`, so with `w = 2`
it sorts across the end of the array.  The sum is a `long` and is converted to
`int` before the division (`(int) sum/count`). -/
def CalculatePPSAverage (w : Nat) (behind : List Int) (c : ClockInfo) : Option Int :=
  if c.count < 59 then none
  else
    let timediff := (List.range 59).map (pulseErr c)
    if timediff.any (fun err => decide (|err| > 128000)) then none
    else
      let sorted := qsort w (timediff ++ behind)
      let sum := ((List.range 30).map fun i => sorted.getD (i + 15) 0).sum
      some ((toInt32 sum).tdiv 30)

/-- The four assignments `count = 1; marker = 0x00; frame = 0; correct = 0`. -/
def resetClock (c : ClockInfo) : ClockInfo :=
  { c with count := 1, marker := 0, frame := 0, correct := 0 }

/-- The `switch (radio)` of `ProcessTimeCode`: the value of the decoder that is
called, `none` in the `default` case. -/
def decodeRadio (bits : Nat) (c : ClockInfo) (radio : Int) : Option Int :=
  if radio = DCF77 then some (DecodeDCF77 bits c.code c.count)
  else if radio = MSF then some (DecodeMSF bits c.code c.count)
  else if radio = WWVB then some (DecodeWWVB bits c.code c.count)
  else none

/-- `ProcessTimeCode(c, radio)`.  `test` is the global flag, `w` and `behind`
are the host's `sizeof(long) / sizeof(int)` and the memory behind `timediff`
that `CalculatePPSAverage` meets, and `attach` is what `AttachSharedMemory`
returns if it is called: `none` for a failure, otherwise the attached segment.
Messages to syslog and stdout are left out. -/
def ProcessTimeCode (test : Int) (bits w : Nat) (behind : List Int) (attach : Option ShmTime)
    (c : ClockInfo) (radio : Int) : ClockInfo :=
  match decodeRadio bits c radio with
  | none => resetClock c
  | some decoded =>
    if test = 0 then
      if abs32 (c.start.tv_sec - decoded) > 1000 then resetClock c
      else
        match (if c.stamp = none then attach else c.stamp) with
        | none => c
        | some shm =>
          let computer : Timeval :=
            match CalculatePPSAverage w behind c with
            | none => { tv_sec := c.start.tv_sec, tv_usec := c.start.tv_usec }
            | some average =>
              if average < 0 then { tv_sec := decoded - 1, tv_usec := average + 1000000 }
              else { tv_sec := decoded, tv_usec := average }
          let received : Timeval := { tv_sec := decoded, tv_usec := 0 }
          { resetClock c with
            stamp := some (PutTimeStamp computer received shm LEAP_NOWARNING)
            error := 0
            last := decoded }
    else { resetClock c with error := 0, last := decoded }

/-- The closing test of `ProcessStatusChange`: `if (c->count==128)` reset. -/
def missingMarker (c : ClockInfo) : ClockInfo :=
  if c.count = 128 then resetClock c else c

/-- A classified pulse: `code[count] = sym; pulses[count] = start; count++`. -/
def storePulse (c : ClockInfo) (sym : Int) : ClockInfo :=
  { c with
    code := update c.code c.count sym
    pulses := update c.pulses c.count c.start
    count := c.count + 1 }

/-- `ProcessStatusChange(c, arg, tv)`, with the environment of
`ProcessTimeCode`. -/
def ProcessStatusChange (test : Int) (bits w : Nat) (behind : List Int)
    (attach : Option ShmTime) (c : ClockInfo) (arg : Int) (tv : Timeval) : ClockInfo :=
  if arg = 0 ∧ c.status = 1 then
    let c : ClockInfo := { c with status := 0, start := tv }
    let length := timersub c.start c.end_
    if length.tv_sec = 1 ∧ length.tv_usec ≥ 760000 ∧ length.tv_usec ≤ 950000 ∧ c.count > 44 then
      ProcessTimeCode test bits w behind attach
        { c with pulses := update c.pulses c.count c.start } DCF77
    else if length.tv_usec ≥ 60000 ∧ length.tv_usec ≤ 150000 then
      missingMarker { c with code := update c.code (c.count - 1) 3, correct := 1 }
    else missingMarker c
  else if arg ≠ 0 ∧ c.status = 0 then
    let c : ClockInfo := { c with status := 1, end_ := tv }
    let length := timersub c.end_ c.start
    if c.correct = 1 then { c with correct := 0 }
    else if length.tv_usec ≥ 60000 ∧ length.tv_usec < 150000 then
      missingMarker { storePulse c 0 with frame := 0, marker := (c.marker <<< 1) % 256 }
    else if length.tv_usec ≥ 160000 ∧ length.tv_usec < 250000 then
      missingMarker { storePulse c 1 with frame := 0, marker := (c.marker <<< 1 ||| 1) % 256 }
    else if length.tv_usec ≥ 260000 ∧ length.tv_usec < 350000 then
      missingMarker { storePulse c 2 with frame := 0, marker := (c.marker <<< 1 ||| 1) % 256 }
    else if length.tv_usec ≥ 460000 ∧ length.tv_usec < 550000 then
      let c : ClockInfo := { storePulse c 4 with frame := 0 }
      if c.marker = 0x7e ∧ c.count > 42 then ProcessTimeCode test bits w behind attach c MSF
      else missingMarker c
    else if length.tv_usec ≥ 760000 ∧ length.tv_usec < 850000 then
      let c : ClockInfo := { storePulse c 5 with frame := c.frame + 1 }
      if c.frame = 2 ∧ c.count > 60 then ProcessTimeCode test bits w behind attach c WWVB
      else missingMarker c
    else missingMarker (resetClock c)
  else missingMarker c

/-- The three channels as `main` initialises them: all zero, `count = 1`,
`last = -1`. -/
def initClock (unit : Int) (line : String) : ClockInfo :=
  { count := 1, status := 0, error := 0, frame := 0, correct := 0, marker := 0
    start := ⟨0, 0⟩, end_ := ⟨0, 0⟩, unit := unit, last := -1, stamp := none
    line := line, code := fun _ => 0, pulses := fun _ => ⟨0, 0⟩ }

/-- One pass of the channel through the main loop: the edge seen (`arg`,
`tv`) and the outcome of `AttachSharedMemory` should it be called. -/
structure Event where
  arg : Int
  tv : Timeval
  attach : Option ShmTime

/-- The channel after a sequence of `ProcessStatusChange` calls. -/
def run (test : Int) (bits w : Nat) (behind : List Int) (c : ClockInfo)
    (events : List Event) : ClockInfo :=
  events.foldl (fun c e => ProcessStatusChange test bits w behind e.attach c e.arg e.tv) c

/-- Lexicographic order on the six fields, year first. -/
def tmLexLt (a b : Tm) : Prop :=
  a.tm_year < b.tm_year ∨ (a.tm_year = b.tm_year ∧ (a.tm_mon < b.tm_mon ∨
    (a.tm_mon = b.tm_mon ∧ (a.tm_mday < b.tm_mday ∨ (a.tm_mday = b.tm_mday ∧
      (a.tm_hour < b.tm_hour ∨ (a.tm_hour = b.tm_hour ∧ (a.tm_min < b.tm_min ∨
        (a.tm_min = b.tm_min ∧ a.tm_sec < b.tm_sec)))))))))

/-! ## The premises of the decoding claims -/

/-- The symbol buffer whose first symbols are those of `l`. -/
def bufferOf (l : List Int) : Int → Int :=
  fun i => if i < 0 then 0 else l.getD i.toNat 0

/-- The premises of the DCF77 decoding claim: the 38 symbols before
`length` are 0 or 1, the three groups of 8, 7 and 23 symbols have even parity,
and the BCD fields (least significant bit first) encode the calendar-valid
civil time `Y-Mo-D h:mi` with `2000 ≤ Y ≤ 2099`. -/
def DCF77Frame (code : Int → Int) (length Y Mo D h mi : Int) : Prop :=
  42 ≤ length ∧ length ≤ 128 ∧
  (∀ j : Nat, j < 38 → code (length - 38 + j) = 0 ∨ code (length - 38 + j) = 1) ∧
  sumCode code (length - 38) 8 % 2 = 0 ∧
  sumCode code (length - 30) 7 % 2 = 0 ∧
  sumCode code (length - 23) 23 % 2 = 0 ∧
  mi = segLsb code (length - 38) 4 + 10 * segLsb code (length - 34) 3 ∧
  h = segLsb code (length - 30) 4 + 10 * segLsb code (length - 26) 2 ∧
  D = segLsb code (length - 23) 4 + 10 * segLsb code (length - 19) 2 ∧
  Mo = segLsb code (length - 14) 4 + 10 * segLsb code (length - 10) 1 ∧
  Y = 2000 + segLsb code (length - 9) 4 + 10 * segLsb code (length - 5) 4 ∧
  civilValid Y Mo D h mi 0 ∧ 2000 ≤ Y ∧ Y ≤ 2099

instance (code : Int → Int) (length Y Mo D h mi : Int) :
    Decidable (DCF77Frame code length Y Mo D h mi) := by
  unfold DCF77Frame; infer_instance

/-- The 42 symbols that end the DCF77 minute of 2002-03-31 01:59 CET:
the zone bits Z1 = 0, Z2 = 1, the leap-second bit, the start bit, and the 38
time bits with their three parity bits. -/
def frameDCF77_2002 : List Int :=
  [0, 1, 0, 1,
   1, 0, 0, 1, 1, 0, 1, 0,
   1, 0, 0, 0, 0, 0, 1,
   1, 0, 0, 0, 1, 1, 1, 1, 1, 1, 1, 0, 0, 0, 0, 1, 0, 0, 0, 0, 0, 0, 1]

/-- The same minute of 2040-03-31 (a Saturday), year bits 0000 / 0010. -/
def frameDCF77_2040 : List Int :=
  [0, 1, 0, 1,
   1, 0, 0, 1, 1, 0, 1, 0,
   1, 0, 0, 0, 0, 0, 1,
   1, 0, 0, 0, 1, 1, 0, 1, 1, 1, 1, 0, 0, 0, 0, 0, 0, 0, 0, 0, 1, 0, 0]

/-- The premises of the MSF decoding claim: the 35 symbols from `length-44`
are 0 or 1, the four groups of 8, 11, 3 and 13 symbols have odd parity when
seeded by `code[length-7+i] == 2`, and the BCD fields (most significant bit
first) encode the calendar-valid civil time `Y-Mo-D h:mi` with
`2000 ≤ Y ≤ 2099` and the weekday `wd ≤ 6`. -/
def MSFFrame (code : Int → Int) (length Y Mo D wd h mi : Int) : Prop :=
  44 ≤ length ∧ length ≤ 128 ∧
  (∀ j : Nat, j < 35 → code (length - 44 + j) = 0 ∨ code (length - 44 + j) = 1) ∧
  ((if code (length - 7) = 2 then 1 else 0) + sumCode code (length - 44) 8) % 2 = 1 ∧
  ((if code (length - 6) = 2 then 1 else 0) + sumCode code (length - 36) 11) % 2 = 1 ∧
  ((if code (length - 5) = 2 then 1 else 0) + sumCode code (length - 25) 3) % 2 = 1 ∧
  ((if code (length - 4) = 2 then 1 else 0) + sumCode code (length - 22) 13) % 2 = 1 ∧
  Y = 2000 + 10 * segMsb 1 code (length - 44) 4 + segMsb 1 code (length - 40) 4 ∧
  Mo = 10 * segMsb 1 code (length - 36) 1 + segMsb 1 code (length - 35) 4 ∧
  D = 10 * segMsb 1 code (length - 31) 2 + segMsb 1 code (length - 29) 4 ∧
  wd = segMsb 1 code (length - 25) 3 ∧
  h = 10 * segMsb 1 code (length - 22) 2 + segMsb 1 code (length - 20) 4 ∧
  mi = 10 * segMsb 1 code (length - 16) 3 + segMsb 1 code (length - 13) 4 ∧
  civilValid Y Mo D h mi 0 ∧ 2000 ≤ Y ∧ Y ≤ 2099 ∧ wd ≤ 6

instance (code : Int → Int) (length Y Mo D wd h mi : Int) :
    Decidable (MSFFrame code length Y Mo D wd h mi) := by
  unfold MSFFrame; infer_instance

/-- The 44 symbols that end the MSF minute of Sunday 2002-03-31 02:00 BST:
year, month, day, weekday, hour and minute (seconds 17 to 51), then seconds 52
to 59 with the parity bits 54B to 57B and the summer-time bit 58B (symbol 2
where bit B is set), and the minute marker. -/
def frameMSF_2002 : List Int :=
  [0, 0, 0, 0, 0, 0, 1, 0,
   0, 0, 0, 1, 1, 1, 1, 0, 0, 0, 1,
   0, 0, 0,
   0, 0, 0, 0, 1, 0, 0, 0, 0, 0, 0, 0, 0,
   0, 1, 1, 1, 2, 1, 2, 0, 4]

/-- The same minute of Saturday 2040-03-31. -/
def frameMSF_2040 : List Int :=
  [0, 1, 0, 0, 0, 0, 0, 0,
   0, 0, 0, 1, 1, 1, 1, 0, 0, 0, 1,
   1, 1, 0,
   0, 0, 0, 0, 1, 0, 0, 0, 0, 0, 0, 0, 0,
   0, 1, 1, 1, 2, 1, 2, 0, 4]

/-- Epoch second of `h:mi:00` on the `N`-th day of year `Y`. -/
def epochOfYearDay (Y N h mi : Int) : Int :=
  (daysBeforeYear Y + (N - 1)) * 86400 + h * 3600 + mi * 60

/-- The premises of the WWVB decoding claims: the framing rule holds at
`i = 2 .. 59`, and the BCD fields (most significant bit first, symbol 4 for a
set bit) encode year `Y` in 2000..2099, day of the year `N`, hour `h <= 23`
and minute `mi <= 59`. -/
def WWVBFrame (code : Int → Int) (length Y N h mi : Int) : Prop :=
  61 ≤ length ∧ length ≤ 128 ∧
  (∀ n : Nat, n < 58 →
    (((n : Int) + 1) % 10 = 0 → code (length - n - 3) = 5) ∧
    (((n : Int) + 1) % 10 ≠ 0 → code (length - n - 3) = 1 ∨ code (length - n - 3) = 4)) ∧
  Y = 2000 + segMsb 4 code (length - 11) 4 + 10 * segMsb 4 code (length - 16) 4 ∧
  N = segMsb 4 code (length - 31) 4 + 10 * segMsb 4 code (length - 36) 4
        + 100 * segMsb 4 code (length - 39) 2 ∧
  h = segMsb 4 code (length - 46) 4 + 10 * segMsb 4 code (length - 49) 2 ∧
  mi = segMsb 4 code (length - 56) 4 + 10 * segMsb 4 code (length - 60) 3 ∧
  2000 ≤ Y ∧ Y ≤ 2099 ∧ h ≤ 23 ∧ mi ≤ 59

instance (code : Int → Int) (length Y N h mi : Int) :
    Decidable (WWVBFrame code length Y N h mi) := by
  unfold WWVBFrame; infer_instance

/-- A WWVB buffer of 61 symbols (slot 0 unused, seconds 1 to 59, and the
marker of second 0): 12:34 on day 91 of 2001, leap-year bit clear. -/
def frameWWVB_2001_091 : List Int :=
  [0, 1, 4, 4, 1, 1, 4, 1, 1, 5, 1, 1, 1, 4, 1, 1, 1, 4, 1, 5,
   1, 1, 1, 1, 1, 4, 1, 1, 4, 5, 1, 1, 1, 4, 1, 1, 1, 1, 1, 5,
   1, 1, 1, 1, 1, 1, 1, 1, 1, 5, 1, 1, 1, 4, 1, 1, 1, 1, 1, 5, 5]

/-- The same minute on day 91 of 2041. -/
def frameWWVB_2041_091 : List Int :=
  [0, 1, 4, 4, 1, 1, 4, 1, 1, 5, 1, 1, 1, 4, 1, 1, 1, 4, 1, 5,
   1, 1, 1, 1, 1, 4, 1, 1, 4, 5, 1, 1, 1, 4, 1, 1, 1, 1, 1, 5,
   1, 1, 1, 1, 1, 1, 4, 1, 1, 5, 1, 1, 1, 4, 1, 1, 1, 1, 1, 5, 5]

/-- 12:34 on day 60 of 2000, leap-year bit set. -/
def frameWWVB_2000_060 : List Int :=
  [0, 1, 4, 4, 1, 1, 4, 1, 1, 5, 1, 1, 1, 4, 1, 1, 1, 4, 1, 5,
   1, 1, 1, 1, 1, 1, 4, 4, 1, 5, 1, 1, 1, 1, 1, 1, 1, 1, 1, 5,
   1, 1, 1, 1, 1, 1, 1, 1, 1, 5, 1, 1, 1, 1, 1, 4, 1, 1, 1, 5, 5]

/-- 12:34 on day 91 of 2000, leap-year bit set. -/
def frameWWVB_2000_091 : List Int :=
  [0, 1, 4, 4, 1, 1, 4, 1, 1, 5, 1, 1, 1, 4, 1, 1, 1, 4, 1, 5,
   1, 1, 1, 1, 1, 4, 1, 1, 4, 5, 1, 1, 1, 4, 1, 1, 1, 1, 1, 5,
   1, 1, 1, 1, 1, 1, 1, 1, 1, 5, 1, 1, 1, 1, 1, 4, 1, 1, 1, 5, 5]

/-! ## Channel states for the publication gate -/

/-- A freshly created segment: all zero. -/
def shmZero : ShmTime :=
  { mode := 0, count := 0, clockTimeStampSec := 0, clockTimeStampUSec := 0
    receiveTimeStampSec := 0, receiveTimeStampUSec := 0, leap := 0, precision := 0
    nsamples := 0, valid := 0, dummy := List.replicate 10 0 }

/-- A channel whose 59 symbols are all 0 but the last, which is 1, so that the
third DCF77 parity fails; the last falling edge was stamped 500 s after the
epoch and the segment is attached. -/
def failedFrameClock : ClockInfo :=
  { initClock 0 "DCD" with
    count := 60
    code := bufferOf (List.replicate 59 0 ++ [1])
    start := ⟨500, 0⟩
    stamp := some shmZero }

/-- A channel that holds the DCF77 minute of 2002-03-31 01:59 CET in its 59
symbols, on a host whose clock reads 5312503636 (the year 2138),
`2 ^ 32` seconds after the decoded time; the segment is attached. -/
def skewedClock : ClockInfo :=
  { initClock 0 "DCD" with
    count := 60
    code := bufferOf (List.replicate 18 0 ++ frameDCF77_2002)
    start := ⟨5312503636, 0⟩
    stamp := some shmZero }

/-! ## The premises of the offset claim -/

/-- The `i`-th sample of the offset estimate in the words of the
specification: the microsecond part of `pulses[count-1-i]`, less 1000000 when
it is above 500000. -/
def sampleOffset (c : ClockInfo) (i : Nat) : Int :=
  let usec := (c.pulses (c.count - 1 - i)).tv_usec
  if 500000 < usec then usec - 1000000 else usec

/-- A channel with 59 pulses, falling 1.0 to 1.6 ms after the second at the odd
indices and 0.4 to 1.0 ms before it at the even ones. -/
def ppsClock : ClockInfo :=
  { initClock 0 "DCD" with
    count := 60
    pulses := fun i => ⟨i, if i % 2 = 0 then 999000 + 10 * i else 1000 + 10 * i⟩ }

/-- The 59 samples of `ppsClock` in ascending order. -/
def ppsSorted : List Int :=
  ((List.range 29).map fun (k : Nat) => (-980 + 20 * k : Int))
    ++ (List.range 30).map fun (k : Nat) => (1010 + 20 * k : Int)

/-! ## A run that leaves the symbol buffer -/

/-- A falling edge at `sec` s + `usec` µs; `AttachSharedMemory` fails. -/
def fallAt (sec usec : Int) : Event := { arg := 0, tv := ⟨sec, usec⟩, attach := none }

/-- A rising edge at `sec` s + `usec` µs; `AttachSharedMemory` fails. -/
def riseAt (sec usec : Int) : Event := { arg := 1, tv := ⟨sec, usec⟩, attach := none }

/-- One pulse per second for seconds 1 to 126, each low for 100 ms (symbol 0)
or, in seconds 100 and 120 to 125, for 200 ms (symbol 1); then a 500 ms pulse
in second 127, a falling edge 1.8 s after its end, and a 100 ms pulse.  The
local clock runs from 1 s to 130 s after the epoch and the shared memory
cannot be attached. -/
def overrunEvents : List Event :=
  ((List.range 126).map fun (k : Nat) =>
      [fallAt (k + 1) 0,
       riseAt (k + 1) (if k + 1 = 100 ∨ (120 ≤ k + 1 ∧ k + 1 ≤ 125) then 200000 else 100000)]).flatten
    ++ [fallAt 127 0, riseAt 127 500000, fallAt 129 300000, riseAt 129 400000]

/-! ## The no-signal warning and the edges, for the claims on the supervisor -/

/-- `LogNoSignalWarning(c, now)`: the channel afterwards, and whether the
warning was written to syslog. -/
def LogNoSignalWarning (c : ClockInfo) (now : Int) : ClockInfo × Bool :=
  if now - c.last > 300 ∧ c.last > -1 ∧ c.error = 0 then
    ({ c with error := c.error + 1 }, true)
  else (c, false)

/-- A sequence of `LogNoSignalWarning` calls at the times `nows` with no call
of `ProcessTimeCode` in between: the channel afterwards and, call by call,
whether a warning was written. -/
def noSignalRun (c : ClockInfo) : List Int → ClockInfo × List Bool
  | [] => (c, [])
  | now :: rest =>
    let r := noSignalRun (LogNoSignalWarning c now).1 rest
    (r.1, (LogNoSignalWarning c now).2 :: r.2)

/-- A time stamp in microseconds. -/
def micros (t : Timeval) : Int := t.tv_sec * 1000000 + t.tv_usec

/-- A time stamp as `gettimeofday` returns it: `0 <= tv_usec < 1000000`. -/
def Timeval.wf (t : Timeval) : Prop := 0 ≤ t.tv_usec ∧ t.tv_usec < 1000000

instance (t : Timeval) : Decidable t.wf := by
  unfold Timeval.wf; infer_instance

/-- The bands of the specification: the symbol of a low duration given in
microseconds, `none` outside every band. -/
def classify (usec : Int) : Option Int :=
  if 60000 ≤ usec ∧ usec < 150000 then some 0
  else if 160000 ≤ usec ∧ usec < 250000 then some 1
  else if 260000 ≤ usec ∧ usec < 350000 then some 2
  else if 460000 ≤ usec ∧ usec < 550000 then some 4
  else if 760000 ≤ usec ∧ usec < 850000 then some 5
  else none

/-- The call of `ProcessTimeCode` that `ProcessStatusChange(c, arg, tv)` makes,
if it makes one: the channel as it is passed and the radio. -/
def decoderCall (c : ClockInfo) (arg : Int) (tv : Timeval) : Option (ClockInfo × Int) :=
  if arg = 0 ∧ c.status = 1 then
    let c : ClockInfo := { c with status := 0, start := tv }
    let length := timersub c.start c.end_
    if length.tv_sec = 1 ∧ length.tv_usec ≥ 760000 ∧ length.tv_usec ≤ 950000 ∧ c.count > 44 then
      some ({ c with pulses := update c.pulses c.count c.start }, DCF77)
    else none
  else if arg ≠ 0 ∧ c.status = 0 then
    let c : ClockInfo := { c with status := 1, end_ := tv }
    let length := timersub c.end_ c.start
    if c.correct = 1 then none
    else if length.tv_usec ≥ 60000 ∧ length.tv_usec < 150000 then none
    else if length.tv_usec ≥ 160000 ∧ length.tv_usec < 250000 then none
    else if length.tv_usec ≥ 260000 ∧ length.tv_usec < 350000 then none
    else if length.tv_usec ≥ 460000 ∧ length.tv_usec < 550000 then
      let c : ClockInfo := { storePulse c 4 with frame := 0 }
      if c.marker = 0x7e ∧ c.count > 42 then some (c, MSF) else none
    else if length.tv_usec ≥ 760000 ∧ length.tv_usec < 850000 then
      let c : ClockInfo := { storePulse c 5 with frame := c.frame + 1 }
      if c.frame = 2 ∧ c.count > 60 then some (c, WWVB) else none
    else none
  else none

/-- The payload of a sample: the six fields between the two barriers of
`PutTimeStamp`. -/
def ShmStore.isPayload : ShmStore → Bool
  | .leap _ => true
  | .precision _ => true
  | .clockTimeStampSec _ => true
  | .clockTimeStampUSec _ => true
  | .receiveTimeStampSec _ => true
  | .receiveTimeStampUSec _ => true
  | _ => false

/-- The segment after the first `k` stores of `PutTimeStamp`. -/
def segmentAfter (loc radio : Timeval) (shm : ShmTime) (leap : Int) (k : Nat) : ShmTime :=
  ((PutTimeStampStores loc radio leap).take k).foldl ShmStore.apply shm

/-- A channel that holds the DCF77 minute of 2002-03-31 01:59 CET in its 59
symbols, with the local clock at the decoded second and no segment attached. -/
def unboundClock : ClockInfo :=
  { initClock 0 "DCD" with
    count := 60
    code := bufferOf (List.replicate 18 0 ++ frameDCF77_2002)
    start := ⟨1017536340, 0⟩ }

/-- A channel that decoded at second 1000 and has no warning latched. -/
def decodedClock : ClockInfo := { initClock 0 "DCD" with last := 1000 }

/-- A channel in mid-minute: 49 symbols held, the last rising edge at 10 s,
line high. -/
def highClock : ClockInfo :=
  { initClock 0 "DCD" with count := 50, status := 1, start := ⟨9, 0⟩, end_ := ⟨10, 0⟩ }

/-- A parity-valid DCF77 frame whose fields read 30 February 2002, 01:59 CET. -/
def frameDCF77_feb30 : List Int :=
  [0, 1, 0, 1,
   1, 0, 0, 1, 1, 0, 1, 0,
   1, 0, 0, 0, 0, 0, 1,
   0, 0, 0, 0, 1, 1, 0, 1, 1, 0, 1, 0, 0, 0, 0, 1, 0, 0, 0, 0, 0, 0, 0]

/-- A parity-valid MSF frame whose fields read 30 February 2002, 02:00, with
the summer-time symbol set. -/
def frameMSF_feb30 : List Int :=
  [0, 0, 0, 0, 0, 0, 1, 0,
   0, 0, 0, 1, 0, 1, 1, 0, 0, 0, 0,
   1, 1, 0,
   0, 0, 0, 0, 1, 0, 0, 0, 0, 0, 0, 0, 0,
   0, 1, 1, 1, 2, 1, 2, 0, 4]

/-- A well-framed WWVB buffer of 61 symbols: 12:34 on day 91, the year digits
10 and 0, that is the year 2100. -/
def frameWWVB_2100_091 : List Int :=
  [0, 1, 4, 4, 1, 1, 4, 1, 1, 5, 1, 1, 1, 4, 1, 1, 1, 4, 1, 5,
   1, 1, 1, 1, 1, 4, 1, 1, 4, 5, 1, 1, 1, 4, 1, 1, 1, 1, 1, 5,
   1, 1, 1, 1, 1, 4, 1, 4, 1, 5, 1, 1, 1, 1, 1, 1, 1, 1, 1, 5, 5]

/-- The minute that a WWVB buffer encodes. -/
def wwvbMinute (code : Int → Int) (length : Int) : Int :=
  segMsb 4 code (length - 56) 4 + 10 * segMsb 4 code (length - 60) 3

/-- The hour that a WWVB buffer encodes. -/
def wwvbHour (code : Int → Int) (length : Int) : Int :=
  segMsb 4 code (length - 46) 4 + 10 * segMsb 4 code (length - 49) 2

/-- The `day_of_year` of the specification: the transmitted day of the year
less one. -/
def wwvbYday (code : Int → Int) (length : Int) : Int :=
  segMsb 4 code (length - 31) 4 + 10 * segMsb 4 code (length - 36) 4
    + 100 * segMsb 4 code (length - 39) 2 - 1

/-- The year that a WWVB buffer encodes. -/
def wwvbYear (code : Int → Int) (length : Int) : Int :=
  2000 + segMsb 4 code (length - 11) 4 + 10 * segMsb 4 code (length - 16) 4

/-- The channel once a falling edge at `tv` is noted: `status = 0; start = tv`. -/
def fallState (c : ClockInfo) (tv : Timeval) : ClockInfo := { c with status := 0, start := tv }

/-- The channel once a rising edge at `tv` is noted: `status = 1; end = tv`. -/
def riseState (c : ClockInfo) (tv : Timeval) : ClockInfo := { c with status := 1, end_ := tv }

/-! ## Parity counts, the probes of the search and a short minute -/

/-- The number of symbols among `code[k] .. code[k+n-1]` that satisfy `p`. -/
def countSymbols (p : Int → Bool) (code : Int → Int) (k : Int) (n : Nat) : Nat :=
  ((List.range n).map fun (j : Nat) => if p (code (k + j)) then 1 else 0).sum

/-- The number of symbols equal to 1 among `code[k] .. code[k+n-1]`: the bits
of a group as the specification counts them. -/
def onesIn (code : Int → Int) (k : Int) (n : Nat) : Nat :=
  countSymbols (fun s => decide (s = 1)) code k n

/-- The instants that the search loop of `UTCtime` hands to `gmtime`, in the
order of the calls; the arguments are those of `UTCloop`. -/
def UTCprobes (timeptr : Tm) : Nat → Int → List Int
  | 0, timep => [timep]
  | k + 1, timep =>
    if direction (gmtime timep) timeptr = 0 then [timep]
    else if k = 0 then timep :: UTCprobes timeptr k (timep - 1)
    else if direction (gmtime timep) timeptr > 0 then
      timep :: UTCprobes timeptr k (timep - 2 ^ (k - 1))
    else timep :: UTCprobes timeptr k (timep + 2 ^ (k - 1))

/-- The civil fields of 30 February 2002, 01:59:00. -/
def tmFeb30 : Tm :=
  { tm_sec := 0, tm_min := 59, tm_hour := 1, tm_mday := 30, tm_mon := 1, tm_year := 102 }

/-- The low duration, in microseconds, of the pulse of second `k` in
`shortMinuteEvents`. -/
def shortMinuteLow (k : Nat) : Int :=
  if k = 11 ∨ k = 20 ∨ k = 33 ∨ (35 ≤ k ∧ k ≤ 39) then 200000
  else if k = 40 then 300000
  else 100000

/-- One pulse per second for seconds 1 to 41 (low for 100 ms, 200 ms or
300 ms as `shortMinuteLow` says; the last eight give the marker register
`0x7e`) and the falling edge of second 42. -/
def shortMinuteEvents : List Event :=
  ((List.range 41).map fun (k : Nat) =>
      [fallAt (k + 1) 0, riseAt (k + 1) (shortMinuteLow (k + 1))]).flatten
    ++ [fallAt 42 0]

/-- The channel, started as `main` starts it, after `shortMinuteEvents`. -/
def shortMinuteClock : ClockInfo :=
  run 0 31 1 [] (initClock 0 "DCD") shortMinuteEvents

/-! ## Channels for the sort across the end of `timediff` -/

/-- The 59 pulses of `longSortClock`: in the order of `timediff` the samples
are 1000, 1010, .. , 1570 microseconds, and the last one, `timediff[58]`, is
1205. -/
def longSortPulses : Int → Timeval :=
  fun j => ⟨j, if j = 1 then 1205 else 1590 - 10 * j⟩

/-- A channel that holds the DCF77 minute of 2002-03-31 01:59 CET, its last
falling edge stamped at the decoded second, with the pulses `longSortPulses`;
no segment is attached yet. -/
def longSortClock : ClockInfo := { unboundClock with pulses := longSortPulses }

/-- The channel `failedFrameClock` (parity fails, clock 500 s after the epoch,
segment attached) with the pulses `longSortPulses`. -/
def failedLongSortClock : ClockInfo := { failedFrameClock with pulses := longSortPulses }

/-! # Theorems -/

/-! ## The calendar: `gmtime` and `tmSeconds` are inverse to each other -/

theorem daysBeforeYear_succ (y : Int) :
    daysBeforeYear (y + 1) = daysBeforeYear y + 365 + (if isLeap y = true then 1 else 0) := by
  unfold daysBeforeYear isLeap
  simp only [decide_eq_true_eq]
  split_ifs <;> omega

theorem daysBeforeYear_lt_succ (y : Int) : daysBeforeYear y < daysBeforeYear (y + 1) := by
  rw [daysBeforeYear_succ]; split_ifs <;> omega

theorem daysBeforeYear_add_nat (y : Int) (k : Nat) :
    daysBeforeYear y ≤ daysBeforeYear (y + k) := by
  induction k with
  | zero => simp
  | succ k ih =>
    have h := daysBeforeYear_lt_succ (y + k)
    have e : y + ((k + 1 : Nat) : Int) = y + k + 1 := by push_cast; ring
    rw [e]; omega

theorem daysBeforeYear_mono {y z : Int} (h : y ≤ z) : daysBeforeYear y ≤ daysBeforeYear z := by
  have h1 := daysBeforeYear_add_nat y (z - y).toNat
  have e : y + ((z - y).toNat : Int) = z := by omega
  rwa [e] at h1

theorem yearEstimate_lower (n : Int) :
    daysBeforeYear (1970 + (400 * n) / 146097 - 1) ≤ n := by
  unfold daysBeforeYear; omega

theorem yearEstimate_upper (n : Int) :
    n < daysBeforeYear (1970 + (400 * n) / 146097 + 1 + 1) := by
  unfold daysBeforeYear; omega

theorem yearOfDays_le (n : Int) : daysBeforeYear (yearOfDays n) ≤ n := by
  unfold yearOfDays
  simp only
  split_ifs with h1 h2
  · exact yearEstimate_lower n
  · exact h2
  · omega

theorem yearOfDays_lt (n : Int) : n < daysBeforeYear (yearOfDays n + 1) := by
  unfold yearOfDays
  simp only
  split_ifs with h1 h2
  · rw [sub_add_cancel]; exact h1
  · exact yearEstimate_upper n
  · omega

theorem year_unique (n y z : Int) (h1 : daysBeforeYear y ≤ n) (h2 : n < daysBeforeYear (y + 1))
    (h3 : daysBeforeYear z ≤ n) (h4 : n < daysBeforeYear (z + 1)) : y = z := by
  by_contra hne
  rcases lt_or_gt_of_ne hne with h | h
  · have := daysBeforeYear_mono (show y + 1 ≤ z by omega); omega
  · have := daysBeforeYear_mono (show z + 1 ≤ y by omega); omega

theorem yearOfDays_unique (n y : Int) (h1 : daysBeforeYear y ≤ n)
    (h2 : n < daysBeforeYear (y + 1)) : yearOfDays n = y :=
  year_unique n _ _ (yearOfDays_le n) (yearOfDays_lt n) h1 h2

theorem leapDay_cases (leap : Bool) :
    (if leap = true then (1 : Int) else 0) = 0 ∨ (if leap = true then (1 : Int) else 0) = 1 := by
  cases leap <;> simp

theorem daysInMonth_bounds (leap : Bool) (m : Int) (hm0 : 0 ≤ m) (hm1 : m ≤ 11) :
    28 ≤ daysInMonth leap m ∧ daysInMonth leap m ≤ 31 := by
  interval_cases m <;> cases leap <;> simp [daysInMonth, daysBeforeMonth]

theorem daysBeforeMonth_zero (leap : Bool) : daysBeforeMonth leap 0 = 0 := by
  simp [daysBeforeMonth]

theorem daysBeforeMonth_twelve (leap : Bool) :
    daysBeforeMonth leap 12 = 365 + (if leap = true then 1 else 0) := by
  simp [daysBeforeMonth]

theorem daysBeforeMonth_add_nat (leap : Bool) (m : Int) (k : Nat) (hm0 : 0 ≤ m)
    (hk : m + k ≤ 12) : daysBeforeMonth leap m ≤ daysBeforeMonth leap (m + k) := by
  induction k with
  | zero => simp
  | succ k ih =>
    have e : m + ((k + 1 : Nat) : Int) = m + k + 1 := by push_cast; ring
    rw [e] at hk ⊢
    have h := daysInMonth_bounds leap (m + k) (by omega) (by omega)
    unfold daysInMonth at h
    have := ih (by omega)
    omega

theorem daysBeforeMonth_mono (leap : Bool) {a b : Int} (h0 : 0 ≤ a) (h : a ≤ b)
    (h1 : b ≤ 12) : daysBeforeMonth leap a ≤ daysBeforeMonth leap b := by
  have h2 := daysBeforeMonth_add_nat leap a (b - a).toNat h0 (by omega)
  have e : a + ((b - a).toNat : Int) = b := by omega
  rwa [e] at h2

theorem daysBeforeMonth_bounds (leap : Bool) (m : Int) (hm0 : 0 ≤ m) (hm1 : m ≤ 11) :
    0 ≤ daysBeforeMonth leap m ∧
      daysBeforeMonth leap (m + 1) ≤ 365 + (if leap = true then 1 else 0) := by
  have h1 := daysBeforeMonth_mono leap (le_refl 0) hm0 (by omega)
  have h2 := daysBeforeMonth_mono leap (show (0 : Int) ≤ m + 1 by omega)
    (show m + 1 ≤ 12 by omega) (le_refl 12)
  rw [daysBeforeMonth_zero] at h1
  rw [daysBeforeMonth_twelve] at h2
  exact ⟨h1, h2⟩

theorem month_unique (leap : Bool) (yd a b : Int) (ha0 : 0 ≤ a) (ha1 : a ≤ 11)
    (hb0 : 0 ≤ b) (hb1 : b ≤ 11)
    (h1 : daysBeforeMonth leap a ≤ yd) (h2 : yd < daysBeforeMonth leap (a + 1))
    (h3 : daysBeforeMonth leap b ≤ yd) (h4 : yd < daysBeforeMonth leap (b + 1)) : a = b := by
  by_contra hne
  rcases lt_or_gt_of_ne hne with h | h
  · have := daysBeforeMonth_mono leap (show (0 : Int) ≤ a + 1 by omega)
      (show a + 1 ≤ b by omega) (by omega)
    omega
  · have := daysBeforeMonth_mono leap (show (0 : Int) ≤ b + 1 by omega)
      (show b + 1 ≤ a by omega) (by omega)
    omega

theorem monthOfYday_spec (leap : Bool) (yd : Int) (h0 : 0 ≤ yd)
    (h1 : yd < 365 + (if leap = true then 1 else 0)) :
    (0 ≤ monthOfYday leap yd ∧ monthOfYday leap yd ≤ 11) ∧
    daysBeforeMonth leap (monthOfYday leap yd) ≤ yd ∧
      yd < daysBeforeMonth leap (monthOfYday leap yd + 1) := by
  unfold monthOfYday
  dsimp only
  have hl := leapDay_cases leap
  by_cases c1 : yd < 31
  · rw [if_pos c1]; simp [daysBeforeMonth]; omega
  rw [if_neg c1]
  by_cases c2 : yd < 59 + (if leap = true then 1 else 0)
  · rw [if_pos c2]; simp [daysBeforeMonth]; omega
  rw [if_neg c2]
  by_cases c3 : yd < 90 + (if leap = true then 1 else 0)
  · rw [if_pos c3]; simp [daysBeforeMonth]; omega
  rw [if_neg c3]
  by_cases c4 : yd < 120 + (if leap = true then 1 else 0)
  · rw [if_pos c4]; simp [daysBeforeMonth]; omega
  rw [if_neg c4]
  by_cases c5 : yd < 151 + (if leap = true then 1 else 0)
  · rw [if_pos c5]; simp [daysBeforeMonth]; omega
  rw [if_neg c5]
  by_cases c6 : yd < 181 + (if leap = true then 1 else 0)
  · rw [if_pos c6]; simp [daysBeforeMonth]; omega
  rw [if_neg c6]
  by_cases c7 : yd < 212 + (if leap = true then 1 else 0)
  · rw [if_pos c7]; simp [daysBeforeMonth]; omega
  rw [if_neg c7]
  by_cases c8 : yd < 243 + (if leap = true then 1 else 0)
  · rw [if_pos c8]; simp [daysBeforeMonth]; omega
  rw [if_neg c8]
  by_cases c9 : yd < 273 + (if leap = true then 1 else 0)
  · rw [if_pos c9]; simp [daysBeforeMonth]; omega
  rw [if_neg c9]
  by_cases c10 : yd < 304 + (if leap = true then 1 else 0)
  · rw [if_pos c10]; simp [daysBeforeMonth]; omega
  rw [if_neg c10]
  by_cases c11 : yd < 334 + (if leap = true then 1 else 0)
  · rw [if_pos c11]; simp [daysBeforeMonth]; omega
  rw [if_neg c11]
  simp [daysBeforeMonth]; omega

theorem monthOfYday_unique (leap : Bool) (yd m : Int) (hm0 : 0 ≤ m) (hm1 : m ≤ 11)
    (h1 : daysBeforeMonth leap m ≤ yd) (h2 : yd < daysBeforeMonth leap (m + 1)) :
    monthOfYday leap yd = m := by
  have hb := daysBeforeMonth_bounds leap m hm0 hm1
  have hs := monthOfYday_spec leap yd (by omega) (by omega)
  exact month_unique leap yd _ _ hs.1.1 hs.1.2 hm0 hm1 hs.2.1 hs.2.2 h1 h2

theorem yday_bounds (tm : Tm) (hv : tmValid tm) :
    0 ≤ daysBeforeMonth (isLeap (tm.tm_year + 1900)) tm.tm_mon + (tm.tm_mday - 1) ∧
    daysBeforeMonth (isLeap (tm.tm_year + 1900)) tm.tm_mon + (tm.tm_mday - 1)
      < daysBeforeMonth (isLeap (tm.tm_year + 1900)) (tm.tm_mon + 1) := by
  obtain ⟨hm0, hm1, hd0, hd1, _⟩ := hv
  have hb := daysBeforeMonth_bounds (isLeap (tm.tm_year + 1900)) tm.tm_mon hm0 hm1
  unfold daysInMonth at hd1
  omega

/-- `gmtime` inverts `tmSeconds` on every valid broken-down time. -/
theorem gmtime_tmSeconds (tm : Tm) (hv : tmValid tm) : gmtime (tmSeconds tm) = tm := by
  have hy := yday_bounds tm hv
  obtain ⟨hm0, hm1, hd0, hd1, hh0, hh1, hmi0, hmi1, hs0, hs1⟩ := hv
  have hb := daysBeforeMonth_bounds (isLeap (tm.tm_year + 1900)) tm.tm_mon hm0 hm1
  have hsucc := daysBeforeYear_succ (tm.tm_year + 1900)
  obtain ⟨s, mi, h, d, m, y⟩ := tm
  simp only at *
  generalize hleap : isLeap (y + 1900) = leap at *
  generalize hdm : daysBeforeMonth leap m = dm at *
  generalize hdm1 : daysBeforeMonth leap (m + 1) = dm1 at *
  generalize hdy : daysBeforeYear (y + 1900) = dy at *
  have hdays : tmSeconds ⟨s, mi, h, d, m, y⟩ / 86400 = dy + dm + (d - 1) := by
    simp only [tmSeconds, hleap, hdm, hdy]; omega
  have hrem : tmSeconds ⟨s, mi, h, d, m, y⟩ % 86400 = h * 3600 + mi * 60 + s := by
    simp only [tmSeconds, hleap, hdm, hdy]; omega
  have hyear : yearOfDays (dy + dm + (d - 1)) = y + 1900 := by
    apply yearOfDays_unique
    · rw [hdy]; omega
    · rw [hsucc]; omega
  have hmon : monthOfYday leap (dm + (d - 1)) = m := by
    apply monthOfYday_unique leap _ m hm0 hm1
    · rw [hdm]; omega
    · rw [hdm1]; omega
  unfold gmtime
  simp only [hdays, hrem, hyear, hdy, hleap]
  have e : dy + dm + (d - 1) - dy = dm + (d - 1) := by omega
  rw [e, hmon, hdm]
  refine Tm.mk.injEq .. ▸ ⟨?_, ?_, ?_, ?_, ?_, ?_⟩ <;> omega

theorem gmtime_yday (t : Int) :
    0 ≤ t / 86400 - daysBeforeYear (yearOfDays (t / 86400)) ∧
    t / 86400 - daysBeforeYear (yearOfDays (t / 86400))
      < 365 + (if isLeap (yearOfDays (t / 86400)) = true then 1 else 0) := by
  have h1 := yearOfDays_le (t / 86400)
  have h2 := yearOfDays_lt (t / 86400)
  rw [daysBeforeYear_succ] at h2
  omega

/-- Every value of `gmtime` is a valid broken-down time. -/
theorem tmValid_gmtime (t : Int) : tmValid (gmtime t) := by
  have hy := gmtime_yday t
  have hs := monthOfYday_spec _ _ hy.1 hy.2
  unfold tmValid gmtime daysInMonth
  simp only [sub_add_cancel]
  refine ⟨hs.1.1, hs.1.2, ?_, ?_, ?_, ?_, ?_, ?_, ?_, ?_⟩ <;> omega

/-- `tmSeconds` inverts `gmtime`. -/
theorem tmSeconds_gmtime (t : Int) : tmSeconds (gmtime t) = t := by
  unfold tmSeconds gmtime
  simp only [sub_add_cancel]
  omega

/-! ## The search of `UTCtime` -/

theorem direction_neg (a b : Tm) (h : direction a b < 0) : tmLexLt a b := by
  unfold direction at h
  unfold tmLexLt
  dsimp only at h
  split_ifs at h <;> omega

theorem direction_pos (a b : Tm) (h : 0 < direction a b) : tmLexLt b a := by
  unfold direction at h
  unfold tmLexLt
  dsimp only at h
  split_ifs at h <;> omega

theorem direction_zero (a b : Tm) (h : direction a b = 0) : a = b := by
  unfold direction at h
  dsimp only at h
  obtain ⟨s, mi, hh, d, m, y⟩ := a
  obtain ⟨s', mi', hh', d', m', y'⟩ := b
  simp only at h
  simp only [Tm.mk.injEq]
  split_ifs at h <;> omega

theorem direction_self (a : Tm) : direction a a = 0 := by
  simp [direction]

theorem tmSeconds_lt_of_lex (a b : Tm) (ha : tmValid a) (hb : tmValid b) (h : tmLexLt a b) :
    tmSeconds a < tmSeconds b := by
  have hya := yday_bounds a ha
  have hyb := yday_bounds b hb
  obtain ⟨am0, am1, ad0, ad1, ah0, ah1, ami0, ami1, as0, as1⟩ := ha
  obtain ⟨bm0, bm1, bd0, bd1, bh0, bh1, bmi0, bmi1, bs0, bs1⟩ := hb
  have hba := daysBeforeMonth_bounds (isLeap (a.tm_year + 1900)) a.tm_mon am0 am1
  have hbb := daysBeforeMonth_bounds (isLeap (b.tm_year + 1900)) b.tm_mon bm0 bm1
  unfold tmSeconds
  rcases h with h | ⟨hy, h⟩
  · have h1 := daysBeforeYear_mono (show a.tm_year + 1900 + 1 ≤ b.tm_year + 1900 by omega)
    rw [daysBeforeYear_succ] at h1
    omega
  · rw [hy] at hya hba ⊢
    rcases h with h | ⟨hm, h⟩
    · have h1 := daysBeforeMonth_mono (isLeap (b.tm_year + 1900))
        (show (0 : Int) ≤ a.tm_mon + 1 by omega) (show a.tm_mon + 1 ≤ b.tm_mon by omega)
        (by omega)
      omega
    · rw [hm]
      omega

theorem gmtime_lex_of_lt (s t : Int) (h : s < t) : ¬ tmLexLt (gmtime t) (gmtime s) := by
  intro hl
  have := tmSeconds_lt_of_lex _ _ (tmValid_gmtime t) (tmValid_gmtime s) hl
  rw [tmSeconds_gmtime, tmSeconds_gmtime] at this
  omega

/-- The probe at `timep` points down exactly when `timep` lies after the wanted
instant, and up exactly when it lies before. -/
theorem direction_gmtime (tm : Tm) (hv : tmValid tm) (timep : Int) :
    (0 < direction (gmtime timep) tm → tmSeconds tm < timep) ∧
    (direction (gmtime timep) tm < 0 → timep < tmSeconds tm) ∧
    (direction (gmtime timep) tm = 0 → timep = tmSeconds tm) := by
  refine ⟨fun h => ?_, fun h => ?_, fun h => ?_⟩
  · have := tmSeconds_lt_of_lex _ _ hv (tmValid_gmtime timep) (direction_pos _ _ h)
    rwa [tmSeconds_gmtime] at this
  · have := tmSeconds_lt_of_lex _ _ (tmValid_gmtime timep) hv (direction_neg _ _ h)
    rwa [tmSeconds_gmtime] at this
  · have := direction_zero _ _ h
    rw [← this, tmSeconds_gmtime]

theorem UTCloop_found (tm : Tm) (hv : tmValid tm) (secs : Int) (k : Nat) :
    ∀ timep : Int, |timep - tmSeconds tm| < 2 ^ k →
      UTCloop tm secs (k + 1) timep = tmSeconds tm + secs := by
  induction k with
  | zero =>
    intro timep h
    have e : timep = tmSeconds tm := by
      rw [abs_lt] at h; simp at h; omega
    have hd : direction (gmtime timep) tm = 0 := by
      rw [e, gmtime_tmSeconds tm hv]; exact direction_self tm
    unfold UTCloop
    rw [if_pos hd, e]
  | succ k ih =>
    intro timep h
    have hdir := direction_gmtime tm hv timep
    rw [abs_lt] at h
    have hp : (2 : Int) ^ (k + 1) = 2 * 2 ^ k := by ring
    rw [hp] at h
    unfold UTCloop
    by_cases hd : direction (gmtime timep) tm = 0
    · rw [if_pos hd, hdir.2.2 hd]
    · rw [if_neg hd, if_neg (Nat.succ_ne_zero k)]
      simp only [Nat.add_sub_cancel]
      by_cases hpos : direction (gmtime timep) tm > 0
      · rw [if_pos hpos]
        apply ih
        have := hdir.1 hpos
        rw [abs_lt]; omega
      · rw [if_neg hpos]
        apply ih
        have := hdir.2.1 (by omega)
        rw [abs_lt]; omega

/-- `UTCtime` returns the epoch second of every valid broken-down time whose
minute starts at an instant of magnitude below `2 ^ bits`. -/
theorem UTCtime_eq (bits : Nat) (tm : Tm) (hv : tmValid tm)
    (hr : |tmSeconds { tm with tm_sec := 0 }| < 2 ^ bits) :
    UTCtime bits tm = tmSeconds tm := by
  have hv0 : tmValid { tm with tm_sec := 0 } := by
    obtain ⟨h1, h2, h3, h4, h5, h6, h7, h8, _, _⟩ := hv
    exact ⟨h1, h2, h3, h4, h5, h6, h7, h8, le_refl 0, by norm_num⟩
  unfold UTCtime
  rw [UTCloop_found _ hv0 _ bits 0 (by simpa using hr)]
  simp [tmSeconds]

/-! ## C1: the bound on the symbol count -/

set_option maxRecDepth 100000

/-- C1, at the failing input: from the initial state, in daemon mode, the run
`overrunEvents` brings `count` to 128 on the MSF marker of second 127 (the
decoder fails with `-1`, the clock reads 127, the test
`abs(127 - (-1)) > 1000` lets it pass and the attach fails, so
`ProcessTimeCode` returns without the reset), keeps it at 128 through the DCF77
marker that follows, and the next pulse is stored at `code[128]` and `pulses[128]` and
leaves `count = 129`. -/
theorem count_exceeds_buffer :
    (initClock 0 "DCD").count = 1 ∧
    (run 0 31 1 [] (initClock 0 "DCD") (overrunEvents.take 254)).count = 128 ∧
    (run 0 31 1 [] (initClock 0 "DCD") (overrunEvents.take 255)).count = 128 ∧
    (run 0 31 1 [] (initClock 0 "DCD") overrunEvents).count = 129 ∧
    (run 0 31 1 [] (initClock 0 "DCD") overrunEvents).pulses 128 = ⟨129, 300000⟩ ∧
    overrunEvents.length = 256 := by
  decide

/-! ## C2: the calendar round trip -/

theorem tmSeconds_nonneg (tm : Tm) (hv : tmValid tm) (hy : 70 ≤ tm.tm_year) :
    0 ≤ tmSeconds tm := by
  have hyd := yday_bounds tm hv
  have h0 : daysBeforeYear 1970 = 0 := by decide
  have hm := daysBeforeYear_mono (show (1970 : Int) ≤ tm.tm_year + 1900 by omega)
  obtain ⟨_, _, _, _, hh0, _, hmi0, _, hs0, _⟩ := hv
  unfold tmSeconds
  omega

theorem tmValid_zero_sec (tm : Tm) (hv : tmValid tm) : tmValid { tm with tm_sec := 0 } := by
  obtain ⟨h1, h2, h3, h4, h5, h6, h7, h8, _, _⟩ := hv
  exact ⟨h1, h2, h3, h4, h5, h6, h7, h8, le_refl 0, by norm_num⟩

/-- `UTCtime` on a valid time from 1970 on whose minute starts below
`2 ^ bits`. -/
theorem UTCtime_eq_of_lt (bits : Nat) (tm : Tm) (hv : tmValid tm) (hy : 70 ≤ tm.tm_year)
    (hr : tmSeconds { tm with tm_sec := 0 } < 2 ^ bits) : UTCtime bits tm = tmSeconds tm := by
  apply UTCtime_eq bits tm hv
  rw [abs_of_nonneg (tmSeconds_nonneg _ (tmValid_zero_sec tm hv) hy)]
  exact hr

/-- C2 (amended): for every calendar-valid civil tuple with `1970 ≤ Y ≤ 2137`
whose epoch second, seconds included, is below `2 ^ bits`, where `bits` is the
number of magnitude bits of `time_t`, `UTCtime` returns that second, a value
of `time_t`, and `gmtime` of it has exactly the year, month, day, hour, minute
and second of the tuple. -/
theorem UTCtime_round_trip (bits : Nat) (Y Mo D h mi s : Int)
    (hv : civilValid Y Mo D h mi s) (hlo : 1970 ≤ Y) (hhi : Y ≤ 2137)
    (hr : epochSeconds Y Mo D h mi s < 2 ^ bits) :
    UTCtime bits (civilTm Y Mo D h mi s) = epochSeconds Y Mo D h mi s ∧
    0 ≤ UTCtime bits (civilTm Y Mo D h mi s) ∧
    UTCtime bits (civilTm Y Mo D h mi s) < 2 ^ bits ∧
    gmtime (UTCtime bits (civilTm Y Mo D h mi s)) = civilTm Y Mo D h mi s := by
  have hy : 70 ≤ (civilTm Y Mo D h mi s).tm_year := by simp only [civilTm]; omega
  have hs0 : 0 ≤ s := hv.2.2.2.2.2.2.2.2.1
  have hmin : tmSeconds { civilTm Y Mo D h mi s with tm_sec := 0 } < 2 ^ bits := by
    have e : tmSeconds { civilTm Y Mo D h mi s with tm_sec := 0 }
        = epochSeconds Y Mo D h mi s - s := by
      simp only [epochSeconds, tmSeconds, civilTm]
      omega
    rw [e]
    omega
  have h1 : UTCtime bits (civilTm Y Mo D h mi s) = tmSeconds (civilTm Y Mo D h mi s) :=
    UTCtime_eq_of_lt bits _ hv hy hmin
  have h0 := tmSeconds_nonneg _ hv hy
  rw [h1]
  exact ⟨rfl, h0, hr, gmtime_tmSeconds _ hv⟩

/-- Witness of C2: 2137-12-31 23:59:59 with a 64-bit `time_t`, and
2038-01-19 03:14:07, the last second of a 32-bit `time_t`. -/
theorem UTCtime_round_trip_witness :
    gmtime (UTCtime 63 (civilTm 2137 12 31 23 59 59)) = civilTm 2137 12 31 23 59 59 ∧
    UTCtime 31 (civilTm 2038 1 19 3 14 7) = 2147483647 ∧
    gmtime (UTCtime 31 (civilTm 2038 1 19 3 14 7)) = civilTm 2038 1 19 3 14 7 :=
  ⟨(UTCtime_round_trip 63 2137 12 31 23 59 59 (by decide) (by decide) (by decide)
      (by decide)).2.2.2,
   (UTCtime_round_trip 31 2038 1 19 3 14 7 (by decide) (by decide) (by decide)
      (by decide)).1.trans (by decide),
   (UTCtime_round_trip 31 2038 1 19 3 14 7 (by decide) (by decide) (by decide)
      (by decide)).2.2.2⟩

/-- Counterexample to C2 as stated: with a 32-bit `time_t` (31 magnitude bits)
the valid tuple 2100-01-01 00:00:00 lies in `1970 ≤ Y ≤ 2137`, yet `UTCtime`
returns `-1`, and `gmtime (-1)` is 1969-12-31 23:59:59. -/
theorem UTCtime_round_trip_fails_32bit :
    civilValid 2100 1 1 0 0 0 ∧ (1970 : Int) ≤ 2100 ∧ (2100 : Int) ≤ 2137 ∧
    UTCtime 31 (civilTm 2100 1 1 0 0 0) = -1 ∧
    gmtime (UTCtime 31 (civilTm 2100 1 1 0 0 0)) ≠ civilTm 2100 1 1 0 0 0 := by
  decide

/-! ## C3: DCF77 decoding -/


theorem sumCode_succ (code : Int → Int) (k : Int) (n : Nat) :
    sumCode code k (n + 1) = sumCode code k n + code (k + n) := by
  simp [sumCode, List.range_succ]

theorem segLsb_succ (code : Int → Int) (k : Int) (n : Nat) :
    segLsb code k (n + 1) = segLsb code k n + (if code (k + n) = 1 then 1 else 0) * 2 ^ n := by
  simp [segLsb, List.range_succ]

theorem sumCode_nonneg (code : Int → Int) (k : Int) (n : Nat)
    (h : ∀ j : Nat, j < n → 0 ≤ code (k + j)) : 0 ≤ sumCode code k n := by
  induction n with
  | zero => simp [sumCode]
  | succ n ih =>
    rw [sumCode_succ]
    have := ih (fun j hj => h j (by omega))
    have := h n (by omega)
    omega

theorem segLsb_bounds (code : Int → Int) (k : Int) (n : Nat) :
    0 ≤ segLsb code k n ∧ segLsb code k n < 2 ^ n := by
  induction n with
  | zero => simp [segLsb]
  | succ n ih =>
    rw [segLsb_succ, pow_succ]
    have hp : (0 : Int) < 2 ^ n := by positivity
    split_ifs <;> omega
theorem sub_add_lit (a b c : Int) : a - b + c = a - (b - c) := by omega

theorem segments_DCF77 (seg : Int → Nat → Int) (length : Int) :
    segments seg (length - 38) [4, 3, 1, 4, 2, 1, 4, 2, 3, 4, 1, 4, 4] =
      [seg (length - 38) 4, seg (length - 34) 3, seg (length - 31) 1, seg (length - 30) 4,
       seg (length - 26) 2, seg (length - 24) 1, seg (length - 23) 4, seg (length - 19) 2,
       seg (length - 17) 3, seg (length - 14) 4, seg (length - 10) 1, seg (length - 9) 4,
       seg (length - 5) 4] := by
  simp only [segments, Nat.cast_ofNat, Nat.cast_one, sub_add_lit, Int.reduceSub]
theorem civilValid_bounds (Y Mo D h mi s : Int) (hv : civilValid Y Mo D h mi s) :
    1 ≤ Mo ∧ Mo ≤ 12 ∧ 1 ≤ D ∧ D ≤ 31 ∧ 0 ≤ h ∧ h ≤ 23 ∧ 0 ≤ mi ∧ mi ≤ 59 ∧ 0 ≤ s ∧ s ≤ 59 := by
  obtain ⟨h1, h2, h3, h4, h5, h6, h7, h8, h9, h10⟩ := hv
  simp only [civilTm] at *
  have := daysInMonth_bounds (isLeap (Y - 1900 + 1900)) (Mo - 1) h1 h2
  omega

theorem parityDCF77_of_even (code : Int → Int) (length : Int)
    (hsym : ∀ j : Nat, j < 38 → code (length - 38 + j) = 0 ∨ code (length - 38 + j) = 1)
    (hp1 : sumCode code (length - 38) 8 % 2 = 0)
    (hp2 : sumCode code (length - 30) 7 % 2 = 0)
    (hp3 : sumCode code (length - 23) 23 % 2 = 0) :
    parityDCF77 code (length - 38) [8, 7, 23] = true := by
  have n1 : 0 ≤ sumCode code (length - 38) 8 :=
    sumCode_nonneg _ _ _ (fun j hj => by rcases hsym j (by omega) with h | h <;> omega)
  have n2 : 0 ≤ sumCode code (length - 30) 7 :=
    sumCode_nonneg _ _ _ (fun j hj => by
      have e : length - 30 + (j : Int) = length - 38 + ((j + 8 : Nat) : Int) := by
        push_cast; omega
      rw [e]; rcases hsym (j + 8) (by omega) with h | h <;> omega)
  have n3 : 0 ≤ sumCode code (length - 23) 23 :=
    sumCode_nonneg _ _ _ (fun j hj => by
      have e : length - 23 + (j : Int) = length - 38 + ((j + 15 : Nat) : Int) := by
        push_cast; omega
      rw [e]; rcases hsym (j + 15) (by omega) with h | h <;> omega)
  simp only [parityDCF77, Nat.cast_ofNat, sub_add_lit, Int.reduceSub,
    Int.tmod_eq_emod n1 (by norm_num : (0 : Int) ≤ 2),
    Int.tmod_eq_emod n2 (by norm_num : (0 : Int) ≤ 2),
    Int.tmod_eq_emod n3 (by norm_num : (0 : Int) ≤ 2), hp1, hp2, hp3]
  simp

/-- C3 (amended): for every buffer and length that meet the premises of the
DCF77 claim (`DCF77Frame`: `42 ≤ length ≤ 128`, 38 symbols 0 or 1, three even
parities, a calendar-valid date in 2000..2099) and whose decoded instant lies
below `2 ^ bits`, `DecodeDCF77` returns the epoch second of the civil date-time
read as UTC, minus 7200 when `code[length-42] == 1` and minus 3600 otherwise. -/
theorem DecodeDCF77_correct (bits : Nat) (code : Int → Int) (length Y Mo D h mi : Int)
    (hf : DCF77Frame code length Y Mo D h mi)
    (hr : epochSeconds Y Mo D h mi 0 < 2 ^ bits) :
    DecodeDCF77 bits code length =
      epochSeconds Y Mo D h mi 0 - (if code (length - 42) = 1 then 7200 else 3600) := by
  obtain ⟨hl0, hl1, hsym, hp1, hp2, hp3, hmi, hh, hD, hMo, hY, hv, hy0, hy1⟩ := hf
  have hpar := parityDCF77_of_even code length hsym hp1 hp2 hp3
  have hb := civilValid_bounds Y Mo D h mi 0 hv
  have hwd := segLsb_bounds code (length - 17) 3
  have htm : ({ tm_sec := 0
                tm_min := segLsb code (length - 38) 4 + segLsb code (length - 34) 3 * 10
                tm_hour := segLsb code (length - 30) 4 + segLsb code (length - 26) 2 * 10
                tm_mday := segLsb code (length - 23) 4 + segLsb code (length - 19) 2 * 10
                tm_mon := segLsb code (length - 14) 4 + segLsb code (length - 10) 1 * 10 - 1
                tm_year := 100 + segLsb code (length - 9) 4 + segLsb code (length - 5) 4 * 10 }
              : Tm) = civilTm Y Mo D h mi 0 := by
    simp only [civilTm, Tm.mk.injEq, true_and]; omega
  unfold DecodeDCF77
  rw [segments_DCF77]
  simp only [hpar, List.getD_cons_succ, List.getD_cons_zero, htm]
  rw [if_neg (by simp), if_neg]
  · rw [UTCtime_eq_of_lt bits _ hv (by show (70 : Int) ≤ Y - 1900; omega) hr]
    rfl
  · norm_num at hwd
    split_ifs <;> omega

/-- Witness of C3: the frame of 2002-03-31 01:59 CET decodes to 1017536340
(2002-03-31 00:59:00 UTC) already with a 32-bit `time_t`. -/
theorem DecodeDCF77_correct_witness :
    DecodeDCF77 31 (bufferOf frameDCF77_2002) 42 = 1017536340 :=
  (DecodeDCF77_correct 31 (bufferOf frameDCF77_2002) 42 2002 3 31 1 59
    (by decide) (by decide)).trans (by decide)

/-- Counterexample to C3 as stated: the frame of 2040-03-31 01:59 CET meets
every premise of the claim, yet with a 32-bit `time_t` `DecodeDCF77` returns
`-3601`, not the epoch second 2216768340. -/
theorem DecodeDCF77_fails_32bit :
    DCF77Frame (bufferOf frameDCF77_2040) 42 2040 3 31 1 59 ∧
    DecodeDCF77 31 (bufferOf frameDCF77_2040) 42 = -3601 ∧
    epochSeconds 2040 3 31 1 59 0
      - (if bufferOf frameDCF77_2040 (42 - 42) = 1 then 7200 else 3600) = 2216768340 := by
  decide

/-! ## C4: MSF decoding -/

theorem segments_MSF (seg : Int → Nat → Int) (length : Int) :
    segments seg (length - 44) [4, 4, 1, 4, 2, 4, 3, 2, 4, 3, 4] =
      [seg (length - 44) 4, seg (length - 40) 4, seg (length - 36) 1, seg (length - 35) 4,
       seg (length - 31) 2, seg (length - 29) 4, seg (length - 25) 3, seg (length - 22) 2,
       seg (length - 20) 4, seg (length - 16) 3, seg (length - 13) 4] := by
  simp only [segments, Nat.cast_ofNat, Nat.cast_one, sub_add_lit, Int.reduceSub]

theorem parityMSF_of_odd (code : Int → Int) (length : Int)
    (hsym : ∀ j : Nat, j < 35 → code (length - 44 + j) = 0 ∨ code (length - 44 + j) = 1)
    (hp1 : ((if code (length - 7) = 2 then 1 else 0) + sumCode code (length - 44) 8) % 2 = 1)
    (hp2 : ((if code (length - 6) = 2 then 1 else 0) + sumCode code (length - 36) 11) % 2 = 1)
    (hp3 : ((if code (length - 5) = 2 then 1 else 0) + sumCode code (length - 25) 3) % 2 = 1)
    (hp4 : ((if code (length - 4) = 2 then 1 else 0) + sumCode code (length - 22) 13) % 2 = 1) :
    parityMSF code length (length - 44) 0 [8, 11, 3, 13] = true := by
  have n1 : 0 ≤ sumCode code (length - 44) 8 :=
    sumCode_nonneg _ _ _ (fun j hj => by rcases hsym j (by omega) with h | h <;> omega)
  have n2 : 0 ≤ sumCode code (length - 36) 11 :=
    sumCode_nonneg _ _ _ (fun j hj => by
      have e : length - 36 + (j : Int) = length - 44 + ((j + 8 : Nat) : Int) := by
        push_cast; omega
      rw [e]; rcases hsym (j + 8) (by omega) with h | h <;> omega)
  have n3 : 0 ≤ sumCode code (length - 25) 3 :=
    sumCode_nonneg _ _ _ (fun j hj => by
      have e : length - 25 + (j : Int) = length - 44 + ((j + 19 : Nat) : Int) := by
        push_cast; omega
      rw [e]; rcases hsym (j + 19) (by omega) with h | h <;> omega)
  have n4 : 0 ≤ sumCode code (length - 22) 13 :=
    sumCode_nonneg _ _ _ (fun j hj => by
      have e : length - 22 + (j : Int) = length - 44 + ((j + 22 : Nat) : Int) := by
        push_cast; omega
      rw [e]; rcases hsym (j + 22) (by omega) with h | h <;> omega)
  have s1 : (0 : Int) ≤ (if code (length - 7) = 2 then 1 else 0) := by split_ifs <;> norm_num
  have s2 : (0 : Int) ≤ (if code (length - 6) = 2 then 1 else 0) := by split_ifs <;> norm_num
  have s3 : (0 : Int) ≤ (if code (length - 5) = 2 then 1 else 0) := by split_ifs <;> norm_num
  have s4 : (0 : Int) ≤ (if code (length - 4) = 2 then 1 else 0) := by split_ifs <;> norm_num
  have e0 : length - 7 + 0 = length - 7 := by omega
  have e1 : length - 7 + (0 + 1) = length - 6 := by omega
  have e2 : length - 7 + (0 + 1 + 1) = length - 5 := by omega
  have e3 : length - 7 + (0 + 1 + 1 + 1) = length - 4 := by omega
  simp only [parityMSF, Nat.cast_ofNat, sub_add_lit, Int.reduceSub, e0, e1, e2, e3,
    Int.tmod_eq_emod (add_nonneg s1 n1) (by norm_num : (0 : Int) ≤ 2),
    Int.tmod_eq_emod (add_nonneg s2 n2) (by norm_num : (0 : Int) ≤ 2),
    Int.tmod_eq_emod (add_nonneg s3 n3) (by norm_num : (0 : Int) ≤ 2),
    Int.tmod_eq_emod (add_nonneg s4 n4) (by norm_num : (0 : Int) ≤ 2), hp1, hp2, hp3, hp4]
  simp

/-- C4 (amended): for every buffer and length that meet the premises of the
MSF claim (`MSFFrame`: `44 ≤ length ≤ 128`, 35 symbols 0 or 1, four odd
parities seeded by `code[length-7+i] == 2`, a calendar-valid date in
2000..2099, weekday at most 6) and whose decoded instant lies below
`2 ^ bits`, `DecodeMSF` returns the epoch second of the civil date-time read as
UTC, minus 3600 when `code[length-3] == 2` and unchanged otherwise. -/
theorem DecodeMSF_correct (bits : Nat) (code : Int → Int) (length Y Mo D wd h mi : Int)
    (hf : MSFFrame code length Y Mo D wd h mi)
    (hr : epochSeconds Y Mo D h mi 0 < 2 ^ bits) :
    DecodeMSF bits code length =
      epochSeconds Y Mo D h mi 0 - (if code (length - 3) = 2 then 3600 else 0) := by
  obtain ⟨hl0, hl1, hsym, hp1, hp2, hp3, hp4, hY, hMo, hD, hwd, hh, hmi, hv, hy0, hy1, hw⟩ := hf
  have hpar := parityMSF_of_odd code length hsym hp1 hp2 hp3 hp4
  have hb := civilValid_bounds Y Mo D h mi 0 hv
  have htm : ({ tm_sec := 0
                tm_min := segMsb 1 code (length - 16) 3 * 10 + segMsb 1 code (length - 13) 4
                tm_hour := segMsb 1 code (length - 22) 2 * 10 + segMsb 1 code (length - 20) 4
                tm_mday := segMsb 1 code (length - 31) 2 * 10 + segMsb 1 code (length - 29) 4
                tm_mon := segMsb 1 code (length - 36) 1 * 10 + segMsb 1 code (length - 35) 4 - 1
                tm_year :=
                  100 + segMsb 1 code (length - 44) 4 * 10 + segMsb 1 code (length - 40) 4 }
              : Tm) = civilTm Y Mo D h mi 0 := by
    simp only [civilTm, Tm.mk.injEq, true_and]; omega
  unfold DecodeMSF
  rw [segments_MSF]
  simp only [hpar, List.getD_cons_succ, List.getD_cons_zero, htm]
  rw [if_neg (by simp), if_neg (by omega)]
  rw [UTCtime_eq_of_lt bits _ hv (by show (70 : Int) ≤ Y - 1900; omega) hr]
  rfl

/-- Witness of C4: the frame of 2002-03-31 02:00 BST with the summer-time
symbol set decodes to 1017536400 (2002-03-31 01:00:00 UTC). -/
theorem DecodeMSF_correct_witness :
    DecodeMSF 31 (bufferOf frameMSF_2002) 44 = 1017536400 :=
  (DecodeMSF_correct 31 (bufferOf frameMSF_2002) 44 2002 3 31 0 2 0
    (by decide) (by decide)).trans (by decide)

/-- Counterexample to C4 as stated: the frame of 2040-03-31 02:00 BST meets
every premise of the claim, yet with a 32-bit `time_t` `DecodeMSF` returns
`-3601`, not the epoch second 2216768400. -/
theorem DecodeMSF_fails_32bit :
    MSFFrame (bufferOf frameMSF_2040) 44 2040 3 31 6 2 0 ∧
    DecodeMSF 31 (bufferOf frameMSF_2040) 44 = -3601 ∧
    epochSeconds 2040 3 31 2 0 0
      - (if bufferOf frameMSF_2040 (44 - 3) = 2 then 3600 else 0) = 2216768400 := by
  decide

/-! ## C5: WWVB decoding in a common year -/

theorem segments_WWVB (seg : Int → Nat → Int) (length : Int) :
    segments seg (length - 60) [3, 1, 4, 3, 2, 1, 4, 3, 2, 1, 4, 1, 4, 11, 4, 1, 4] =
      [seg (length - 60) 3, seg (length - 57) 1, seg (length - 56) 4, seg (length - 52) 3,
       seg (length - 49) 2, seg (length - 47) 1, seg (length - 46) 4, seg (length - 42) 3,
       seg (length - 39) 2, seg (length - 37) 1, seg (length - 36) 4, seg (length - 32) 1,
       seg (length - 31) 4, seg (length - 27) 11, seg (length - 16) 4, seg (length - 12) 1,
       seg (length - 11) 4] := by
  simp only [segments, Nat.cast_ofNat, Nat.cast_one, sub_add_lit, Int.reduceSub]

theorem framingWWVB_of_rule (code : Int → Int) (length : Int)
    (hfr : ∀ n : Nat, n < 58 →
      (((n : Int) + 1) % 10 = 0 → code (length - n - 3) = 5) ∧
      (((n : Int) + 1) % 10 ≠ 0 → code (length - n - 3) = 1 ∨ code (length - n - 3) = 4)) :
    framingWWVB code length = true := by
  unfold framingWWVB
  rw [List.all_eq_true]
  intro n hn
  have hn' : n < 58 := List.mem_range.mp hn
  obtain ⟨h1, h2⟩ := hfr n hn'
  have e1 : length - ((n : Int) + 2) - 1 = length - n - 3 := by omega
  have e2 : ((n : Int) + 2 - 1) % 10 = ((n : Int) + 1) % 10 := by
    congr 1; omega
  simp only [e1, e2]
  by_cases hk : ((n : Int) + 1) % 10 = 0
  · simp [hk, h1 hk]
  · rcases h2 hk with h | h <;> simp [hk, h]

/-- The month loop on a day of a common year: it finds the month whose range
of the cumulative table holds `yd`, and the day within it. -/
theorem monthLoop_spec (yd : Int) (h0 : 0 ≤ yd) (h1 : yd < 365) :
    ∃ m : Int, monthLoop yd 12 = some (m, 1 + yd - daysBeforeMonth false m) ∧
      0 ≤ m ∧ m ≤ 11 ∧ daysBeforeMonth false m ≤ yd ∧ yd < daysBeforeMonth false (m + 1) := by
  have m0 : months.getD 0 0 = 0 := rfl
  have m1 : months.getD 1 0 = 31 := rfl
  have m2 : months.getD 2 0 = 59 := rfl
  have m3 : months.getD 3 0 = 90 := rfl
  have m4 : months.getD 4 0 = 120 := rfl
  have m5 : months.getD 5 0 = 151 := rfl
  have m6 : months.getD 6 0 = 181 := rfl
  have m7 : months.getD 7 0 = 212 := rfl
  have m8 : months.getD 8 0 = 243 := rfl
  have m9 : months.getD 9 0 = 273 := rfl
  have m10 : months.getD 10 0 = 304 := rfl
  have m11 : months.getD 11 0 = 334 := rfl
  simp only [monthLoop, m0, m1, m2, m3, m4, m5, m6, m7, m8, m9, m10, m11, Nat.cast_ofNat,
    Nat.cast_one, Nat.cast_zero]
  by_cases c11 : (334 : Int) ≤ yd
  · rw [if_pos c11]; refine ⟨11, ?_, ?_, ?_, ?_, ?_⟩ <;> simp [daysBeforeMonth] <;> omega
  rw [if_neg c11]
  by_cases c10 : (304 : Int) ≤ yd
  · rw [if_pos c10]; refine ⟨10, ?_, ?_, ?_, ?_, ?_⟩ <;> simp [daysBeforeMonth] <;> omega
  rw [if_neg c10]
  by_cases c9 : (273 : Int) ≤ yd
  · rw [if_pos c9]; refine ⟨9, ?_, ?_, ?_, ?_, ?_⟩ <;> simp [daysBeforeMonth] <;> omega
  rw [if_neg c9]
  by_cases c8 : (243 : Int) ≤ yd
  · rw [if_pos c8]; refine ⟨8, ?_, ?_, ?_, ?_, ?_⟩ <;> simp [daysBeforeMonth] <;> omega
  rw [if_neg c8]
  by_cases c7 : (212 : Int) ≤ yd
  · rw [if_pos c7]; refine ⟨7, ?_, ?_, ?_, ?_, ?_⟩ <;> simp [daysBeforeMonth] <;> omega
  rw [if_neg c7]
  by_cases c6 : (181 : Int) ≤ yd
  · rw [if_pos c6]; refine ⟨6, ?_, ?_, ?_, ?_, ?_⟩ <;> simp [daysBeforeMonth] <;> omega
  rw [if_neg c6]
  by_cases c5 : (151 : Int) ≤ yd
  · rw [if_pos c5]; refine ⟨5, ?_, ?_, ?_, ?_, ?_⟩ <;> simp [daysBeforeMonth] <;> omega
  rw [if_neg c5]
  by_cases c4 : (120 : Int) ≤ yd
  · rw [if_pos c4]; refine ⟨4, ?_, ?_, ?_, ?_, ?_⟩ <;> simp [daysBeforeMonth] <;> omega
  rw [if_neg c4]
  by_cases c3 : (90 : Int) ≤ yd
  · rw [if_pos c3]; refine ⟨3, ?_, ?_, ?_, ?_, ?_⟩ <;> simp [daysBeforeMonth] <;> omega
  rw [if_neg c3]
  by_cases c2 : (59 : Int) ≤ yd
  · rw [if_pos c2]; refine ⟨2, ?_, ?_, ?_, ?_, ?_⟩ <;> simp [daysBeforeMonth] <;> omega
  rw [if_neg c2]
  by_cases c1 : (31 : Int) ≤ yd
  · rw [if_pos c1]; refine ⟨1, ?_, ?_, ?_, ?_, ?_⟩ <;> simp [daysBeforeMonth] <;> omega
  rw [if_neg c1, if_pos h0]
  refine ⟨0, ?_, ?_, ?_, ?_, ?_⟩ <;> simp [daysBeforeMonth] <;> omega
theorem segMsb_nonneg (one : Int) (code : Int → Int) (k : Int) (n : Nat) :
    0 ≤ segMsb one code k n := by
  unfold segMsb
  apply List.sum_nonneg
  intro x hx
  rw [List.mem_map] at hx
  obtain ⟨j, _, rfl⟩ := hx
  have hp : (0 : Int) < 2 ^ (n - j - 1) := by positivity
  split_ifs <;> omega

/-- `UTCtime` on the `N`-th day of a year, given as month `m` and the day
within it by a cumulative table that fits the year. -/
theorem UTCtime_yearDay (bits : Nat) (Y N h mi m : Int)
    (hY : 1970 ≤ Y) (hh0 : 0 ≤ h) (hh1 : h ≤ 23) (hmi0 : 0 ≤ mi) (hmi1 : mi ≤ 59)
    (hm0 : 0 ≤ m) (hm1 : m ≤ 11)
    (hlo : daysBeforeMonth (isLeap Y) m ≤ N - 1)
    (hhi : N - 1 < daysBeforeMonth (isLeap Y) (m + 1))
    (hr : epochOfYearDay Y N h mi < 2 ^ bits) :
    UTCtime bits
        { tm_sec := 0, tm_min := mi, tm_hour := h,
          tm_mday := 1 + (N - 1) - daysBeforeMonth (isLeap Y) m, tm_mon := m,
          tm_year := Y - 1900 } = epochOfYearDay Y N h mi := by
  have e : Y - 1900 + 1900 = Y := by omega
  have hv : tmValid (Tm.mk 0 mi h (1 + (N - 1) - daysBeforeMonth (isLeap Y) m) m (Y - 1900)) := by
    unfold tmValid daysInMonth
    simp only [e]
    refine ⟨hm0, hm1, ?_, ?_, hh0, hh1, hmi0, hmi1, le_refl 0, by norm_num⟩ <;> omega
  have hs : tmSeconds (Tm.mk 0 mi h (1 + (N - 1) - daysBeforeMonth (isLeap Y) m) m (Y - 1900))
      = epochOfYearDay Y N h mi := by
    unfold tmSeconds epochOfYearDay
    simp only [e]
    omega
  rw [UTCtime_eq_of_lt bits _ hv (by show (70 : Int) ≤ Y - 1900; omega) (by rw [hs]; exact hr)]
  exact hs

/-- C5 (amended): for every buffer and length that pass the framing check and
encode a year in 2000..2099, hour and minute in range (`WWVBFrame`), with the
leap-year symbol `code[length-6]` not 4, a common year, a day of the year
`1 ≤ N ≤ 365`, and the value to return, the decoded instant plus 60, below
`2 ^ bits`, `DecodeWWVB` returns the epoch second of the `N`-th day of the
year at `h:mi:00` UTC, plus 60. -/
theorem DecodeWWVB_common_year (bits : Nat) (code : Int → Int) (length Y N h mi : Int)
    (hf : WWVBFrame code length Y N h mi) (hflag : code (length - 6) ≠ 4)
    (hcommon : isLeap Y = false) (hN0 : 1 ≤ N) (hN1 : N ≤ 365)
    (hr60 : epochOfYearDay Y N h mi + 60 < 2 ^ bits) :
    DecodeWWVB bits code length = epochOfYearDay Y N h mi + 60 := by
  have hr : epochOfYearDay Y N h mi < 2 ^ bits := by omega
  obtain ⟨hl0, hl1, hfr, hY, hN, hh, hmi, hy0, hy1, hh1, hmi1⟩ := hf
  have hframe := framingWWVB_of_rule code length hfr
  have hh0 : 0 ≤ h := by
    have := segMsb_nonneg 4 code (length - 46) 4
    have := segMsb_nonneg 4 code (length - 49) 2
    omega
  have hmi0 : 0 ≤ mi := by
    have := segMsb_nonneg 4 code (length - 56) 4
    have := segMsb_nonneg 4 code (length - 60) 3
    omega
  obtain ⟨m, hloop, hm0, hm1, hlo, hhi⟩ := monthLoop_spec (N - 1) (by omega) (by omega)
  have hU := UTCtime_yearDay bits Y N h mi m (by omega) hh0 hh1 hmi0 hmi1 hm0 hm1
    (by rw [hcommon]; exact hlo) (by rw [hcommon]; exact hhi) hr
  rw [hcommon] at hU
  have e1 : segMsb 4 code (length - 31) 4 + segMsb 4 code (length - 36) 4 * 10
      + segMsb 4 code (length - 39) 2 * 100 - 1 = N - 1 := by omega
  have e2 : 100 + segMsb 4 code (length - 11) 4 + segMsb 4 code (length - 16) 4 * 10
      = Y - 1900 := by omega
  have e3 : segMsb 4 code (length - 46) 4 + segMsb 4 code (length - 49) 2 * 10 = h := by omega
  have e4 : segMsb 4 code (length - 56) 4 + segMsb 4 code (length - 60) 3 * 10 = mi := by omega
  unfold DecodeWWVB
  rw [segments_WWVB]
  simp only [hframe, List.getD_cons_succ, List.getD_cons_zero, e1, e2, e3, e4, hloop,
    Option.getD_some, if_neg hflag]
  rw [if_neg (by simp), if_neg (by omega), if_neg (by omega), hU]

/-- Witness of C5: 12:34 on day 91 of 2001 decodes to 12:35:00 on 1 April 2001. -/
theorem DecodeWWVB_common_year_witness :
    DecodeWWVB 31 (bufferOf frameWWVB_2001_091) 61 = 986128500 :=
  (DecodeWWVB_common_year 31 (bufferOf frameWWVB_2001_091) 61 2001 91 12 34
    (by decide) (by decide) (by decide) (by decide) (by decide) (by decide)).trans (by decide)

/-- Counterexample to C5 as stated: day 91 of the common year 2041 meets every
premise of the claim, yet with a 32-bit `time_t` `DecodeWWVB` returns 59, not
the epoch second 2248432440 plus 60. -/
theorem DecodeWWVB_common_year_fails_32bit :
    WWVBFrame (bufferOf frameWWVB_2041_091) 61 2041 91 12 34 ∧
    bufferOf frameWWVB_2041_091 (61 - 6) ≠ 4 ∧ isLeap 2041 = false ∧
    DecodeWWVB 31 (bufferOf frameWWVB_2041_091) 61 = 59 ∧
    epochOfYearDay 2041 91 12 34 + 60 = 2248432500 := by
  decide

/-! ## C6: WWVB decoding in a leap year -/

/-- C6, at the failing input: day 91 of the leap year 2000 with the leap-year
symbol set is 31 March, but the month loop puts it in April, the leap-year
adjustment makes it day 0 of April, `UTCtime` finds no such instant and
`DecodeWWVB` returns `-1 + 60 = 59`, for a 32-bit and for a 64-bit `time_t`;
the claim asks for 2000-03-31 12:34:00 UTC plus 60, which is 954506100. -/
theorem DecodeWWVB_leap_year_day91 :
    WWVBFrame (bufferOf frameWWVB_2000_091) 61 2000 91 12 34 ∧
    bufferOf frameWWVB_2000_091 (61 - 6) = 4 ∧ isLeap 2000 = true ∧
    DecodeWWVB 31 (bufferOf frameWWVB_2000_091) 61 = 59 ∧
    DecodeWWVB 63 (bufferOf frameWWVB_2000_091) 61 = 59 ∧
    epochOfYearDay 2000 91 12 34 = epochSeconds 2000 3 31 12 34 0 ∧
    epochSeconds 2000 3 31 12 34 0 + 60 = 954506100 := by
  decide

/-- The scenario of day 60: with the leap-year symbol set, day 60 of 2000
decodes to 29 February 2000, 12:34, plus 60 seconds. -/
theorem DecodeWWVB_leap_year_day60 :
    DecodeWWVB 31 (bufferOf frameWWVB_2000_060) 61 = epochSeconds 2000 2 29 12 34 0 + 60 := by
  decide

/-! ## C7: the sort of `CalculatePPSAverage` -/

theorem take_drop_eq_map_getD (l : List Int) (a n : Nat) (h : a + n ≤ l.length) :
    (l.drop a).take n = (List.range n).map (fun i => l.getD (i + a) 0) := by
  apply List.ext_getElem
  · simp; omega
  · intro i h1 h2
    simp at h1 h2
    simp [List.getD_eq_getElem?_getD]
    rw [List.getElem?_eq_getElem (by omega)]
    simp [Nat.add_comm]

theorem pulseErr_eq_sampleOffset (c : ClockInfo) (i : Nat) : pulseErr c i = sampleOffset c i := by
  unfold pulseErr sampleOffset
  have e : c.count - (i : Int) - 1 = c.count - 1 - i := by omega
  simp only [e, gt_iff_lt]

theorem TimeCompare_le (a b : List Int) : TimeCompare a b ≤ 0 ↔ a.headD 0 ≤ b.headD 0 := by
  unfold TimeCompare
  split_ifs <;> omega

/-- Elements of one `int`: each value of the array is an element. -/
theorem elements_one (n : Nat) :
    ∀ mem : List Int, n ≤ mem.length → elements 1 n mem = (mem.take n).map (fun x => [x]) := by
  induction n with
  | zero => intro mem _; simp [elements]
  | succ n ih =>
    intro mem h
    cases mem with
    | nil => simp at h
    | cons a rest =>
      simp only [List.length_cons] at h
      simp [elements, ih rest (by omega)]

theorem orderedInsert_singletons (a : Int) (l : List Int) :
    List.orderedInsert (fun a b => TimeCompare a b ≤ 0) [a] (l.map fun x => [x])
      = (List.orderedInsert (· ≤ ·) a l).map fun x => [x] := by
  induction l with
  | nil => rfl
  | cons b l ih =>
    simp only [List.map_cons, List.orderedInsert]
    by_cases h : a ≤ b
    · rw [if_pos ((TimeCompare_le [a] [b]).mpr h), if_pos h]
      simp
    · rw [if_neg (fun h2 => h ((TimeCompare_le [a] [b]).mp h2)), if_neg h, ih]
      simp

theorem insertionSort_singletons (l : List Int) :
    (l.map fun x => [x]).insertionSort (fun a b => TimeCompare a b ≤ 0)
      = (l.insertionSort (· ≤ ·)).map fun x => [x] := by
  induction l with
  | nil => rfl
  | cons a l ih =>
    simp only [List.map_cons, List.insertionSort, ih, orderedInsert_singletons]

theorem flatten_singletons (l : List Int) : (l.map fun x => [x]).flatten = l := by
  induction l with
  | nil => rfl
  | cons a l ih => simp [ih]

/-- Where `long` and `int` have the same size the call sorts the 59 values of
the array and touches nothing behind it. -/
theorem qsort_one (l behind : List Int) (h : l.length = 59) :
    qsort 1 (l ++ behind) = l.insertionSort (· ≤ ·) ++ behind := by
  unfold qsort
  have e1 : (l ++ behind).take 59 = l := by
    rw [List.take_append_of_le_length (by omega), List.take_of_length_le (by omega)]
  have e2 : (l ++ behind).drop (59 * 1) = behind := by
    rw [Nat.mul_one, ← h, List.drop_left]
  rw [elements_one 59 _ (by simp; omega), e1, e2, insertionSort_singletons, flatten_singletons]

theorem qsort_eq_of_sorted_perm (l s behind : List Int) (hl : l.length = 59) (hp : s.Perm l)
    (hs : s.Sorted (· ≤ ·)) : qsort 1 (l ++ behind) = s ++ behind := by
  rw [qsort_one l behind hl]
  congr 1
  exact List.eq_of_perm_of_sorted ((List.perm_insertionSort _ l).trans hp.symm)
    (List.sorted_insertionSort _ l) hs

theorem sum_range_bounds (f : Nat → Int) (M : Int) (h : ∀ i, -M ≤ f i ∧ f i ≤ M) (n : Nat) :
    -(n * M) ≤ ((List.range n).map f).sum ∧ ((List.range n).map f).sum ≤ n * M := by
  induction n with
  | zero => simp
  | succ n ih =>
    rw [List.sum_range_succ]
    have := h n
    push_cast
    constructor <;> nlinarith [ih.1, ih.2]

theorem tdiv_thirty_bounds (s : Int) (h1 : -3840000 ≤ s) (h2 : s ≤ 3840000) :
    -128000 ≤ s.tdiv 30 ∧ s.tdiv 30 ≤ 128000 := by
  rcases le_or_lt 0 s with h | h
  · rw [Int.tdiv_eq_ediv h (by norm_num)]; omega
  · have : s = -(-s) := by omega
    rw [this, Int.neg_tdiv, Int.tdiv_eq_ediv (by omega) (by norm_num)]; omega

theorem toInt32_of_small (x : Int) (h1 : -2147483648 ≤ x) (h2 : x < 2147483648) :
    toInt32 x = x := by
  unfold toInt32
  omega

/-- The sum of the elements 15 .. 44 of a list whose elements lie within
128000 fits an `int`. -/
theorem middle_sum_bounds (l : List Int) (h : ∀ x ∈ l, |x| ≤ 128000) :
    -3840000 ≤ ((List.range 30).map fun i => l.getD (i + 15) 0).sum ∧
    ((List.range 30).map fun i => l.getD (i + 15) 0).sum ≤ 3840000 := by
  have hget : ∀ i : Nat, -128000 ≤ l.getD (i + 15) 0 ∧ l.getD (i + 15) 0 ≤ 128000 := by
    intro i
    rw [List.getD_eq_getElem?_getD]
    cases hq : l[i + 15]? with
    | none => simp
    | some x =>
      have hx := h x (List.mem_iff_getElem?.mpr ⟨_, hq⟩)
      rw [abs_le] at hx
      simpa using hx
  have hs := sum_range_bounds _ 128000 hget 30
  push_cast at hs
  constructor <;> omega

/-- The sort leaves the elements 15 .. 44 of the array alone when what is
sorted is the array itself: they are those of the sorted values. -/
theorem middle_of_append (s behind : List Int) (h : s.length = 59) :
    ((List.range 30).map fun i => (s ++ behind).getD (i + 15) 0)
      = (List.range 30).map fun i => s.getD (i + 15) 0 := by
  apply List.map_congr_left
  intro i hi
  have hi' : i < 30 := List.mem_range.mp hi
  rw [List.getD_eq_getElem?_getD, List.getD_eq_getElem?_getD,
    List.getElem?_append_left (by omega)]

/-- On every host `CalculatePPSAverage` fails when `count < 59` and when one
of the 59 values `sampleOffset` exceeds 128000 in absolute value.  Where
`long` and `int` have the same size (`w = 1`) it otherwise succeeds with the
sum of the elements at indices 15 .. 44 of the 59 values sorted ascending,
divided by 30 with the division of C, whatever lies behind the array. -/
theorem CalculatePPSAverage_same_size (w : Nat) (behind : List Int) (c : ClockInfo) :
    (c.count < 59 → CalculatePPSAverage w behind c = none) ∧
    (59 ≤ c.count → (∃ i : Nat, i < 59 ∧ 128000 < |sampleOffset c i|) →
      CalculatePPSAverage w behind c = none) ∧
    (59 ≤ c.count → (∀ i : Nat, i < 59 → |sampleOffset c i| ≤ 128000) →
      ∀ sorted : List Int, sorted.Perm ((List.range 59).map (sampleOffset c)) →
        sorted.Sorted (· ≤ ·) →
        CalculatePPSAverage 1 behind c = some (((sorted.drop 15).take 30).sum.tdiv 30)) := by
  have hfun : pulseErr c = sampleOffset c := funext (pulseErr_eq_sampleOffset c)
  refine ⟨fun h => ?_, fun h hex => ?_, fun h hall sorted hp hs => ?_⟩
  · unfold CalculatePPSAverage
    rw [if_pos h]
  · unfold CalculatePPSAverage
    rw [if_neg (by omega), hfun]
    obtain ⟨i, hi, hbig⟩ := hex
    have hany : ((List.range 59).map (sampleOffset c)).any
        (fun err => decide (|err| > 128000)) = true := by
      rw [List.any_eq_true]
      exact ⟨sampleOffset c i, List.mem_map.mpr ⟨i, List.mem_range.mpr hi, rfl⟩, by simpa using hbig⟩
    simp only [hany, if_true]
  · unfold CalculatePPSAverage
    rw [if_neg (by omega), hfun]
    have hany : ((List.range 59).map (sampleOffset c)).any
        (fun err => decide (|err| > 128000)) = false := by
      rw [List.any_eq_false]
      intro x hx
      obtain ⟨i, hi, rfl⟩ := List.mem_map.mp hx
      have := hall i (List.mem_range.mp hi)
      simp only [gt_iff_lt, decide_eq_true_eq, not_lt]
      exact this
    have hlen : sorted.length = 59 := by
      rw [hp.length_eq]; simp
    have hmem : ∀ x ∈ sorted, |x| ≤ 128000 := by
      intro x hx
      obtain ⟨i, hi, rfl⟩ := List.mem_map.mp (hp.mem_iff.mp hx)
      exact hall i (List.mem_range.mp hi)
    have hb := middle_sum_bounds sorted hmem
    simp only [hany, Bool.false_eq_true, if_false,
      qsort_eq_of_sorted_perm _ sorted behind (by simp) hp hs, middle_of_append sorted behind hlen]
    rw [toInt32_of_small _ (by omega) (by omega), take_drop_eq_map_getD sorted 15 30 (by omega)]

/-- The three parts on `ppsClock`, where `long` and `int` have the same size:
the middle 30 of its 59 samples have the mean 362. -/
theorem CalculatePPSAverage_same_size_example :
    CalculatePPSAverage 1 [] { ppsClock with count := 58 } = none ∧
    CalculatePPSAverage 1 []
      { ppsClock with pulses := fun i => if i = 30 then ⟨30, 200000⟩ else ppsClock.pulses i }
        = none ∧
    CalculatePPSAverage 1 [] ppsClock = some 362 :=
  ⟨(CalculatePPSAverage_same_size 1 [] _).1 (by decide),
   (CalculatePPSAverage_same_size 1 [] _).2.1 (by decide) ⟨29, by decide, by decide⟩,
   ((CalculatePPSAverage_same_size 1 [] ppsClock).2.2 (by decide) (by decide) ppsSorted
      (by decide) (by decide)).trans (by decide)⟩

/-- C7, at the failing input: on a host whose `long` has 8 bytes (`w = 2`),
with zeros in the 59 `int`s behind `timediff`, the 59 samples of `ppsClock`
all lie within 128000 and the mean of the middle 30 of them, sorted ascending,
is 362, which is what the call returns where `long` has the size of `int`;
but `qsort`, called with the element size `sizeof(long)`, sorts 59 pairs of
`int`s that reach 59 `int`s beyond the array, the pairs of zeros come to the
front, and `CalculatePPSAverage` returns the average 0.  With 1500000000 in
the memory behind the array it returns 295. -/
theorem CalculatePPSAverage_long_sort :
    59 ≤ ppsClock.count ∧
    (∀ i : Nat, i < 59 → |sampleOffset ppsClock i| ≤ 128000) ∧
    ppsSorted.Perm ((List.range 59).map (sampleOffset ppsClock)) ∧
    ppsSorted.Sorted (· ≤ ·) ∧
    ((ppsSorted.drop 15).take 30).sum.tdiv 30 = 362 ∧
    CalculatePPSAverage 1 (List.replicate 59 0) ppsClock = some 362 ∧
    CalculatePPSAverage 2 (List.replicate 59 0) ppsClock = some 0 ∧
    CalculatePPSAverage 2 (List.replicate 59 1500000000) ppsClock = some 295 := by
  decide

/-! ## C8: a single flipped bit -/

theorem update_same {α : Type} (a : Int → α) (i : Int) (v : α) : update a i v i = v := by
  simp [update]

theorem update_other {α : Type} (a : Int → α) (i j : Int) (v : α) (h : j ≠ i) :
    update a i v j = a j := by
  simp [update, h]

theorem sumCode_update (code : Int → Int) (j v k : Int) (n : Nat) :
    sumCode (update code j v) k n =
      sumCode code k n + (if k ≤ j ∧ j < k + n then v - code j else 0) := by
  induction n with
  | zero =>
    have : ¬ (k ≤ j ∧ j < k) := by omega
    simp [sumCode, this]
  | succ n ih =>
    rw [sumCode_succ, sumCode_succ, ih]
    by_cases hj : k + (n : Int) = j
    · have e1 : update code j v (k + (n : Int)) = v := by rw [hj]; exact update_same _ _ _
      have e2 : code (k + (n : Int)) = code j := by rw [hj]
      rw [e1, e2]
      have h1 : ¬ (k ≤ j ∧ j < k + (n : Int)) := by omega
      have h2 : k ≤ j ∧ j < k + ((n + 1 : Nat) : Int) := by push_cast; omega
      rw [if_neg h1, if_pos h2]; omega
    · rw [update_other _ _ _ _ hj]
      by_cases h1 : k ≤ j ∧ j < k + (n : Int)
      · have h2 : k ≤ j ∧ j < k + ((n + 1 : Nat) : Int) := by push_cast; omega
        rw [if_pos h1, if_pos h2]; omega
      · have h2 : ¬ (k ≤ j ∧ j < k + ((n + 1 : Nat) : Int)) := by push_cast; omega
        rw [if_neg h1, if_neg h2]; omega

theorem tmod_two_eq_zero_iff (x : Int) : x.tmod 2 = 0 ↔ x % 2 = 0 :=
  ⟨fun h => Int.emod_eq_zero_of_dvd (Int.dvd_of_tmod_eq_zero h),
   fun h => Int.tmod_eq_zero_of_dvd (Int.dvd_of_emod_eq_zero h)⟩

theorem parityDCF77_iff (code : Int → Int) (length : Int) :
    parityDCF77 code (length - 38) [8, 7, 23] = true ↔
      sumCode code (length - 38) 8 % 2 = 0 ∧ sumCode code (length - 30) 7 % 2 = 0 ∧
        sumCode code (length - 23) 23 % 2 = 0 := by
  simp only [parityDCF77, Nat.cast_ofNat, sub_add_lit, Int.reduceSub, ne_eq,
    tmod_two_eq_zero_iff]
  by_cases h1 : sumCode code (length - 38) 8 % 2 = 0 <;>
    by_cases h2 : sumCode code (length - 30) 7 % 2 = 0 <;>
      by_cases h3 : sumCode code (length - 23) 23 % 2 = 0 <;> simp [h1, h2, h3]

theorem DecodeDCF77_parity (bits : Nat) (code : Int → Int) (length : Int)
    (h : parityDCF77 code (length - 38) [8, 7, 23] = false) :
    DecodeDCF77 bits code length = -1 := by
  unfold DecodeDCF77
  rw [if_pos h]

/-- C8: for every buffer and length that `DecodeDCF77` accepts (does not
answer with `-1`), changing one of the 38 symbols at `length-38 .. length-1`
from 0 to 1 or from 1 to 0 makes `DecodeDCF77` return `-1`. -/
theorem DecodeDCF77_single_flip (bits : Nat) (code : Int → Int) (length j v : Int)
    (hacc : DecodeDCF77 bits code length ≠ -1)
    (hj0 : length - 38 ≤ j) (hj1 : j ≤ length - 1)
    (hflip : (code j = 0 ∧ v = 1) ∨ (code j = 1 ∧ v = 0)) :
    DecodeDCF77 bits (update code j v) length = -1 := by
  have hpar : parityDCF77 code (length - 38) [8, 7, 23] = true := by
    by_contra hc
    exact hacc (DecodeDCF77_parity bits code length (by simpa using hc))
  obtain ⟨h1, h2, h3⟩ := (parityDCF77_iff code length).mp hpar
  apply DecodeDCF77_parity
  by_contra hc
  have hpar2 : parityDCF77 (update code j v) (length - 38) [8, 7, 23] = true := by
    simpa using hc
  obtain ⟨g1, g2, g3⟩ := (parityDCF77_iff _ length).mp hpar2
  rw [sumCode_update] at g1 g2 g3
  push_cast at g1 g2 g3
  split_ifs at g1 g2 g3 <;> omega

/-- Witness of C8: in the frame of 2002-03-31 01:59 CET, accepted with the
value 1017536340, the symbol at index 10 is 1; set to 0, the frame is
rejected. -/
theorem DecodeDCF77_single_flip_witness :
    DecodeDCF77 31 (bufferOf frameDCF77_2002) 42 ≠ -1 ∧
    bufferOf frameDCF77_2002 10 = 1 ∧
    DecodeDCF77 31 (update (bufferOf frameDCF77_2002) 10 0) 42 = -1 :=
  ⟨by decide, by decide,
   DecodeDCF77_single_flip 31 (bufferOf frameDCF77_2002) 42 10 0 (by decide) (by decide)
     (by decide) (by decide)⟩

/-! ## C9 and C10: the gate before publication -/

/-- In daemon mode a decoded value, failure or not, that the 1000 s test
rejects is not published: the channel is reset and nothing else changes. -/
theorem ProcessTimeCode_rejected (bits w : Nat) (behind : List Int) (attach : Option ShmTime)
    (c : ClockInfo) (radio decoded : Int) (hd : decodeRadio bits c radio = some decoded)
    (hg : 1000 < abs32 (c.start.tv_sec - decoded)) :
    ProcessTimeCode 0 bits w behind attach c radio = resetClock c := by
  unfold ProcessTimeCode
  rw [hd]
  simp only [if_true, gt_iff_lt, if_pos hg]

/-- Where `long` and `int` have the same size, the average that
`CalculatePPSAverage` returns lies within the 128 ms that it allows for each
sample. -/
theorem CalculatePPSAverage_bounds (behind : List Int) (c : ClockInfo) (a : Int)
    (h : CalculatePPSAverage 1 behind c = some a) : -128000 ≤ a ∧ a ≤ 128000 := by
  unfold CalculatePPSAverage at h
  by_cases h1 : c.count < 59
  · rw [if_pos h1] at h; cases h
  rw [if_neg h1] at h
  by_cases h2 : ((List.range 59).map (pulseErr c)).any (fun err => decide (|err| > 128000)) = true
  · simp only [h2, if_true] at h; cases h
  simp only [h2, Bool.false_eq_true, if_false, Option.some.injEq] at h
  rw [← h]
  have hall : ∀ x ∈ (List.range 59).map (pulseErr c), |x| ≤ 128000 := by
    intro x hx
    by_contra hgt
    apply h2
    rw [List.any_eq_true]
    exact ⟨x, hx, by simpa using hgt⟩
  have hsorted : ∀ x ∈ ((List.range 59).map (pulseErr c)).insertionSort (· ≤ ·),
      |x| ≤ 128000 := by
    intro x hx
    exact hall x ((List.perm_insertionSort _ _).mem_iff.mp hx)
  have hb := middle_sum_bounds _ hsorted
  rw [qsort_one _ behind (by simp),
    middle_of_append _ behind (by rw [List.length_insertionSort]; simp),
    toInt32_of_small _ (by omega) (by omega)]
  exact tdiv_thirty_bounds _ hb.1 hb.2

/-- On every host, whenever `ProcessTimeCode` publishes (daemon mode, decoded
second `d` that passes the 1000 s test, segment `shm` at hand), `last` is `d`,
the clock stamp is `(d, 0)` with `leap = 0` and `precision = -10`, and the
receive stamp is the raw `c->start` when `CalculatePPSAverage` fails, `(d, a)`
for an average `a >= 0` and `(d - 1, a + 1000000)` for `a < 0`.  Where `long`
and `int` have the same size (`w = 1`) and `0 <= c->start.tv_usec < 1000000`,
the receive microseconds lie in `0 .. 999999`. -/
theorem ProcessTimeCode_published (bits w : Nat) (behind : List Int) (attach : Option ShmTime)
    (c : ClockInfo) (radio d : Int) (shm : ShmTime)
    (hd : decodeRadio bits c radio = some d)
    (hg : abs32 (c.start.tv_sec - d) ≤ 1000)
    (hs : (if c.stamp = none then attach else c.stamp) = some shm) :
    (ProcessTimeCode 0 bits w behind attach c radio).last = d ∧
    ∃ pub : ShmTime, (ProcessTimeCode 0 bits w behind attach c radio).stamp = some pub ∧
      pub.clockTimeStampSec = d ∧ pub.clockTimeStampUSec = 0 ∧
      pub.leap = 0 ∧ pub.precision = -10 ∧ pub.valid = 1 ∧ pub.count = shm.count + 1 ∧
      (CalculatePPSAverage w behind c = none →
        pub.receiveTimeStampSec = c.start.tv_sec ∧ pub.receiveTimeStampUSec = c.start.tv_usec) ∧
      (∀ a : Int, CalculatePPSAverage w behind c = some a → 0 ≤ a →
        pub.receiveTimeStampSec = d ∧ pub.receiveTimeStampUSec = a) ∧
      (∀ a : Int, CalculatePPSAverage w behind c = some a → a < 0 →
        pub.receiveTimeStampSec = d - 1 ∧ pub.receiveTimeStampUSec = a + 1000000) ∧
      (w = 1 → 0 ≤ c.start.tv_usec → c.start.tv_usec < 1000000 →
        0 ≤ pub.receiveTimeStampUSec ∧ pub.receiveTimeStampUSec ≤ 999999) := by
  unfold ProcessTimeCode
  rw [hd]
  simp only [if_true, gt_iff_lt, if_neg (not_lt.mpr hg), hs]
  refine ⟨trivial, _, rfl, rfl, rfl, rfl, rfl, rfl, rfl, ?_, ?_, ?_, ?_⟩
  · intro hn
    rw [hn]
    exact ⟨rfl, rfl⟩
  · intro a ha h0
    rw [ha]
    simp only [if_neg (not_lt.mpr h0)]
    exact ⟨rfl, rfl⟩
  · intro a ha h0
    rw [ha]
    simp only [if_pos h0]
    exact ⟨rfl, rfl⟩
  · intro hw h0 h1
    subst hw
    cases ha : CalculatePPSAverage 1 behind c with
    | none => exact ⟨h0, by show c.start.tv_usec ≤ 999999; omega⟩
    | some a =>
      have hb := CalculatePPSAverage_bounds behind c a ha
      by_cases hneg : a < 0
      · simp only [if_pos hneg]
        exact ⟨by show 0 ≤ a + 1000000; omega, by show a + 1000000 ≤ 999999; omega⟩
      · simp only [if_neg hneg]
        exact ⟨by show 0 ≤ a; omega, by show a ≤ 999999; omega⟩

/-- C9, at the failing input: in daemon mode, with the last falling edge
stamped 500 s after the epoch, a frame whose parity fails makes `DecodeDCF77`
return `-1`; `abs(500 - (-1)) = 501` passes the 1000 s test and the failure is
published as the time `-1` (`valid = 1`, `count` incremented), with
`c->last = -1`. -/
theorem ProcessTimeCode_publishes_failed_decode :
    DecodeDCF77 31 failedFrameClock.code failedFrameClock.count = -1 ∧
    (ProcessTimeCode 0 31 1 [] none failedFrameClock DCF77).stamp =
      some { shmZero with
        mode := 1, count := 1, clockTimeStampSec := -1, receiveTimeStampSec := -1
        precision := -10, valid := 1 } ∧
    (ProcessTimeCode 0 31 1 [] none failedFrameClock DCF77).last = -1 ∧
    failedFrameClock.stamp = some shmZero ∧ failedFrameClock.last = -1 := by
  decide

/-- C10, at the failing input: in daemon mode on a host with a 64-bit `time_t`
whose clock reads 5312503636, the frame of 2002-03-31 01:59 CET decodes to
1017536340; the two seconds differ by `2 ^ 32`, which `abs` receives as the
`int` 0, so the test passes and the sample is published: with the clock stamp
1017536340 and `valid = 1` whatever the size of `long` and the memory behind
`timediff`, and with the receive stamp `(1017536340, 0)` where `long` has the
size of `int`. -/
theorem ProcessTimeCode_publishes_skewed_time :
    DecodeDCF77 63 skewedClock.code skewedClock.count = 1017536340 ∧
    1000 < |skewedClock.start.tv_sec - 1017536340| ∧
    abs32 (skewedClock.start.tv_sec - 1017536340) = 0 ∧
    (ProcessTimeCode 0 63 1 [] none skewedClock DCF77).stamp =
      some { shmZero with
        mode := 1, count := 1, clockTimeStampSec := 1017536340
        receiveTimeStampSec := 1017536340, precision := -10, valid := 1 } ∧
    (ProcessTimeCode 0 63 1 [] none skewedClock DCF77).last = 1017536340 ∧
    (∀ (w : Nat) (behind : List Int),
      (ProcessTimeCode 0 63 w behind none skewedClock DCF77).last = 1017536340 ∧
      ∃ pub : ShmTime,
        (ProcessTimeCode 0 63 w behind none skewedClock DCF77).stamp = some pub ∧
        pub.clockTimeStampSec = 1017536340 ∧ pub.valid = 1 ∧ pub.count = 1) := by
  refine ⟨by decide, by decide, by decide, by decide, by decide, fun w behind => ?_⟩
  obtain ⟨hl, pub, h1, h2, _, _, _, h6, h7, _⟩ :=
    ProcessTimeCode_published 63 w behind none skewedClock DCF77 1017536340 shmZero
      (by decide) (by decide) (by decide)
  exact ⟨hl, pub, h1, h2, h6, h7⟩

/-! ## C11 and C12: `PutTimeStamp` -/

/-- C11: after `PutTimeStamp(local, radio, shm, leap)` the segment holds
`mode = 1`, `valid = 1`, `count` one more than before, the `leap` argument,
`precision = -10`, the clock stamp of `radio` and the receive stamp of `local`;
`nsamples` and the reserved words are as before. -/
theorem PutTimeStamp_segment (loc radio : Timeval) (shm : ShmTime) (leap : Int) :
    PutTimeStamp loc radio shm leap =
      { mode := 1
        count := shm.count + 1
        clockTimeStampSec := radio.tv_sec
        clockTimeStampUSec := radio.tv_usec
        receiveTimeStampSec := loc.tv_sec
        receiveTimeStampUSec := loc.tv_usec
        leap := leap
        precision := -10
        nsamples := shm.nsamples
        valid := 1
        dummy := shm.dummy } := by
  rfl

/-- C12: in the stores of `PutTimeStamp`, taken in program order, every store
of a payload field comes after the store `valid = 0` and before the increment
of `count` and the store `valid = 1`, and all six payload fields are stored;
in terms of the segment: after `k` stores `valid` is 0 for `2 ≤ k < 10`, no
payload field has changed while `k ≤ 2`, the payload is complete from `k = 8`
on, `count` is unchanged up to `k = 8` and one more from `k = 9` on, and only
the last store makes `valid = 1`, so `count` grows from one publication to the
next. -/
theorem PutTimeStamp_order (loc radio : Timeval) (shm : ShmTime) (leap : Int) :
    (∀ i : Nat, ∀ s : ShmStore,
      (PutTimeStampStores loc radio leap)[i]? = some s → s.isPayload = true →
        (∃ j : Nat, j < i ∧ (PutTimeStampStores loc radio leap)[j]? = some (.valid 0)) ∧
        (∀ j : Nat, j ≤ i → (PutTimeStampStores loc radio leap)[j]? ≠ some .countIncr ∧
          (PutTimeStampStores loc radio leap)[j]? ≠ some (.valid 1))) ∧
    (∀ k : Nat, 2 ≤ k → k < 10 → (segmentAfter loc radio shm leap k).valid = 0) ∧
    (∀ k : Nat, k ≤ 2 →
      (segmentAfter loc radio shm leap k).leap = shm.leap ∧
      (segmentAfter loc radio shm leap k).precision = shm.precision ∧
      (segmentAfter loc radio shm leap k).clockTimeStampSec = shm.clockTimeStampSec ∧
      (segmentAfter loc radio shm leap k).clockTimeStampUSec = shm.clockTimeStampUSec ∧
      (segmentAfter loc radio shm leap k).receiveTimeStampSec = shm.receiveTimeStampSec ∧
      (segmentAfter loc radio shm leap k).receiveTimeStampUSec = shm.receiveTimeStampUSec) ∧
    (∀ k : Nat, 8 ≤ k →
      (segmentAfter loc radio shm leap k).leap = leap ∧
      (segmentAfter loc radio shm leap k).precision = -10 ∧
      (segmentAfter loc radio shm leap k).clockTimeStampSec = radio.tv_sec ∧
      (segmentAfter loc radio shm leap k).clockTimeStampUSec = radio.tv_usec ∧
      (segmentAfter loc radio shm leap k).receiveTimeStampSec = loc.tv_sec ∧
      (segmentAfter loc radio shm leap k).receiveTimeStampUSec = loc.tv_usec) ∧
    (∀ k : Nat, k ≤ 8 → (segmentAfter loc radio shm leap k).count = shm.count) ∧
    (∀ k : Nat, 9 ≤ k → (segmentAfter loc radio shm leap k).count = shm.count + 1) ∧
    (∀ k : Nat, 10 ≤ k →
      segmentAfter loc radio shm leap k = PutTimeStamp loc radio shm leap ∧
      (segmentAfter loc radio shm leap k).valid = 1) ∧
    shm.count < (PutTimeStamp loc radio shm leap).count ∧
    (PutTimeStamp loc radio shm leap).count
      < (PutTimeStamp loc radio (PutTimeStamp loc radio shm leap) leap).count := by
  refine ⟨?_, ?_, ?_, ?_, ?_, ?_, ?_, ?_, ?_⟩
  · intro i s hs hp
    by_cases hi : i < 10
    · interval_cases i <;> simp [PutTimeStampStores] at hs <;> subst hs <;>
        simp [ShmStore.isPayload] at hp <;>
        refine ⟨⟨1, by norm_num, by simp [PutTimeStampStores]⟩, fun j hj => ?_⟩ <;>
        interval_cases j <;> simp [PutTimeStampStores]
    · have : (PutTimeStampStores loc radio leap)[i]? = none := by
        apply List.getElem?_eq_none; simp [PutTimeStampStores]; omega
      rw [this] at hs; cases hs
  · intro k h2 h10
    interval_cases k <;> rfl
  · intro k hk
    interval_cases k <;> exact ⟨rfl, rfl, rfl, rfl, rfl, rfl⟩
  · intro k hk
    have e : segmentAfter loc radio shm leap k = PutTimeStamp loc radio shm leap ∨ k = 8 ∨ k = 9 := by
      by_cases h : 10 ≤ k
      · left
        unfold segmentAfter PutTimeStamp
        rw [List.take_of_length_le (by simp [PutTimeStampStores]; omega)]
      · omega
    rcases e with e | e | e
    · rw [e]; exact ⟨rfl, rfl, rfl, rfl, rfl, rfl⟩
    · subst e; exact ⟨rfl, rfl, rfl, rfl, rfl, rfl⟩
    · subst e; exact ⟨rfl, rfl, rfl, rfl, rfl, rfl⟩
  · intro k hk
    interval_cases k <;> rfl
  · intro k hk
    by_cases h : 10 ≤ k
    · unfold segmentAfter
      rw [List.take_of_length_le (by simp [PutTimeStampStores]; omega)]
      rfl
    · have : k = 9 := by omega
      subst this; rfl
  · intro k hk
    have e : segmentAfter loc radio shm leap k = PutTimeStamp loc radio shm leap := by
      unfold segmentAfter PutTimeStamp
      rw [List.take_of_length_le (by simp [PutTimeStampStores]; omega)]
    rw [e]; exact ⟨rfl, rfl⟩
  · show shm.count < shm.count + 1
    omega
  · show shm.count + 1 < shm.count + 1 + 1
    omega

/-! ## C13: the published time stamps -/

/-- The lemma `ProcessTimeCode_published` on the channel with the frame of
2002-03-31 01:59 CET, the local clock at the decoded second and a fresh
segment from `AttachSharedMemory`. -/
theorem ProcessTimeCode_published_example :
    ∃ pub : ShmTime,
      (ProcessTimeCode 0 31 1 [] (some shmZero) unboundClock DCF77).stamp = some pub ∧
      pub.clockTimeStampSec = 1017536340 ∧ pub.clockTimeStampUSec = 0 ∧
      pub.leap = 0 ∧ pub.precision = -10 ∧ pub.valid = 1 ∧ pub.count = 1 := by
  obtain ⟨_, pub, h1, h2, h3, h4, h5, h6, h7, _⟩ :=
    ProcessTimeCode_published 31 1 [] (some shmZero) unboundClock DCF77 1017536340 shmZero
      (by decide) (by decide) (by decide)
  exact ⟨pub, h1, h2, h3, h4, h5, h6, h7⟩

/-- C13, at the failing input: on a host whose `long` has 8 bytes (`w = 2`),
with the `int` 1500000000 in the memory behind `timediff`, the channel
`longSortClock` (the frame of 2002-03-31 01:59 CET, the clock at the decoded
second, `start.tv_usec = 0`, 59 samples between 1000 and 1570 microseconds)
publishes the clock stamp `(1017536340, 0)` and the receive stamp
`(1017536340, 50001239)`: `qsort`, called with the element size
`sizeof(long)`, has brought the `int` behind the array to `timediff[23]`, and
the microseconds leave `0 .. 999999`.  The same happens on
`failedLongSortClock`, where the decoder fails on parity and `UTCtime` is not
reached.  Where `long` has the size of `int` the receive stamp is
`(1017536340, 1287)`. -/
theorem ProcessTimeCode_publishes_stray_microseconds :
    longSortClock.start = ⟨1017536340, 0⟩ ∧ 59 ≤ longSortClock.count ∧
    (∀ i : Nat, i < 59 → |sampleOffset longSortClock i| ≤ 128000) ∧
    CalculatePPSAverage 2 (List.replicate 59 1500000000) longSortClock = some 50001239 ∧
    (ProcessTimeCode 0 63 2 (List.replicate 59 1500000000) (some shmZero) longSortClock
        DCF77).stamp =
      some { shmZero with
        mode := 1, count := 1, clockTimeStampSec := 1017536340
        receiveTimeStampSec := 1017536340, receiveTimeStampUSec := 50001239
        precision := -10, valid := 1 } ∧
    (999999 : Int) < 50001239 ∧
    (ProcessTimeCode 0 63 2 (List.replicate 59 1500000000) none failedLongSortClock
        DCF77).stamp =
      some { shmZero with
        mode := 1, count := 1, clockTimeStampSec := -1
        receiveTimeStampSec := -1, receiveTimeStampUSec := 50001239
        precision := -10, valid := 1 } ∧
    (ProcessTimeCode 0 63 1 (List.replicate 59 1500000000) (some shmZero) longSortClock
        DCF77).stamp =
      some { shmZero with
        mode := 1, count := 1, clockTimeStampSec := 1017536340
        receiveTimeStampSec := 1017536340, receiveTimeStampUSec := 1287
        precision := -10, valid := 1 } := by
  decide

/-! ## C14: a failed attach -/

/-- In daemon mode, when the decoded second passes the 1000 s test, no segment
is attached and `AttachSharedMemory` fails, `ProcessTimeCode` returns the
channel as it was: nothing is published and nothing is reset. -/
theorem ProcessTimeCode_attach_failed (bits w : Nat) (behind : List Int) (c : ClockInfo)
    (radio d : Int)
    (hd : decodeRadio bits c radio = some d) (hg : abs32 (c.start.tv_sec - d) ≤ 1000)
    (hs : c.stamp = none) : ProcessTimeCode 0 bits w behind none c radio = c := by
  unfold ProcessTimeCode
  rw [hd]
  simp only [if_true, gt_iff_lt, if_neg (not_lt.mpr hg), hs]

/-- C14, at the failing input: the channel holds the frame of 2002-03-31 01:59
CET (decoded second 1017536340, equal to the local second) with `count = 60`
and no segment; the attach fails, and `ProcessTimeCode` leaves `count = 60`
(and `marker`, `frame`, `correct`, `last`, `error` as they were) where the
claim asks for `count = 1`. -/
theorem ProcessTimeCode_no_reset_on_attach_failure :
    decodeRadio 31 unboundClock DCF77 = some 1017536340 ∧
    abs32 (unboundClock.start.tv_sec - 1017536340) ≤ 1000 ∧
    unboundClock.stamp = none ∧
    (ProcessTimeCode 0 31 1 [] none unboundClock DCF77).stamp = none ∧
    (ProcessTimeCode 0 31 1 [] none unboundClock DCF77).count = 60 ∧
    (ProcessTimeCode 0 31 1 [] none unboundClock DCF77).last = -1 ∧
    (ProcessTimeCode 0 31 1 [] (some shmZero) unboundClock DCF77).count = 1 := by
  decide

/-! ## C15: the no-signal warning -/

theorem noSignalRun_latched (c : ClockInfo) (h : c.error ≠ 0 ∨ c.last ≤ -1) (nows : List Int) :
    noSignalRun c nows = (c, List.replicate nows.length false) := by
  induction nows with
  | nil => rfl
  | cons now rest ih =>
    have e : LogNoSignalWarning c now = (c, false) := by
      unfold LogNoSignalWarning
      rw [if_neg (by omega)]
    simp only [noSignalRun, e, ih, List.length_cons, List.replicate_succ]

theorem noSignalRun_quiet (c : ClockInfo) (nows : List Int)
    (h : ∀ now ∈ nows, now - c.last ≤ 300) :
    noSignalRun c nows = (c, List.replicate nows.length false) := by
  induction nows with
  | nil => rfl
  | cons now rest ih =>
    have e : LogNoSignalWarning c now = (c, false) := by
      unfold LogNoSignalWarning
      have := h now (List.mem_cons_self _ _)
      rw [if_neg (by omega)]
    have ih' := ih (fun n hn => h n (List.mem_cons_of_mem _ hn))
    simp only [noSignalRun, e, ih', List.length_cons, List.replicate_succ]

/-- C15 (amended): for every channel that has decoded before (`last > -1`) and
has no warning latched, over any sequence of `LogNoSignalWarning` calls with
no decode in between, the warning is written on the first call at which
`now - last > 300` and on no other call, and that call sets the latch
(`error = 1`). -/
theorem LogNoSignalWarning_once (c : ClockInfo) (hl : c.last > -1) (he : c.error = 0)
    (pre post : List Int) (now : Int)
    (hpre : ∀ n ∈ pre, n - c.last ≤ 300) (hnow : now - c.last > 300) :
    (noSignalRun c (pre ++ now :: post)).2 =
      List.replicate pre.length false ++ true :: List.replicate post.length false ∧
    (noSignalRun c (pre ++ now :: post)).1.error = 1 ∧
    (noSignalRun c (pre ++ now :: post)).1.last = c.last := by
  induction pre with
  | nil =>
    have e : LogNoSignalWarning c now = ({ c with error := c.error + 1 }, true) := by
      unfold LogNoSignalWarning
      rw [if_pos ⟨hnow, hl, he⟩]
    have hlatch := noSignalRun_latched { c with error := c.error + 1 }
      (Or.inl (by show c.error + 1 ≠ 0; omega)) post
    simp only [List.nil_append, noSignalRun, e, hlatch, List.length_nil, List.replicate_zero,
      true_and]
    exact ⟨by omega, trivial⟩
  | cons n rest ih =>
    have e : LogNoSignalWarning c n = (c, false) := by
      unfold LogNoSignalWarning
      have := hpre n (List.mem_cons_self _ _)
      rw [if_neg (by omega)]
    have ih' := ih (fun m hm => hpre m (List.mem_cons_of_mem _ hm))
    have hrun : noSignalRun c (n :: rest ++ now :: post) =
        ((noSignalRun c (rest ++ now :: post)).1,
          false :: (noSignalRun c (rest ++ now :: post)).2) := by
      show noSignalRun c (n :: (rest ++ now :: post)) = _
      simp only [noSignalRun, e]
    rw [hrun]
    refine ⟨?_, ih'.2.1, ih'.2.2⟩
    show false :: (noSignalRun c (rest ++ now :: post)).2 = _
    rw [ih'.1]
    rfl

/-- Witness of C15: a channel that decoded at second 1000, polled every ten
seconds for 310 s, is warned once, at second 1310. -/
theorem LogNoSignalWarning_once_witness :
    (noSignalRun decodedClock
        ((List.range 30).map (fun (k : Nat) => (1010 + 10 * k : Int)) ++ 1310 :: [1320, 1330])).2 =
      List.replicate 30 false ++ true :: List.replicate 2 false :=
  (LogNoSignalWarning_once decodedClock (by decide) (by decide)
    ((List.range 30).map (fun (k : Nat) => (1010 + 10 * k : Int))) [1320, 1330] 1310
    (by decide) (by decide)).1

/-- Counterexample to C15 as stated: a channel that has never decoded
(`last = -1`, as `main` initialises it), polled every ten seconds from second
10 to second 400, is never warned, although more than 300 s pass without a
decode and the latch is clear. -/
theorem LogNoSignalWarning_never_decoded :
    (initClock 0 "DCD").last = -1 ∧ (initClock 0 "DCD").error = 0 ∧
    (noSignalRun (initClock 0 "DCD")
        ((List.range 40).map (fun (k : Nat) => (10 + 10 * k : Int)))).2 =
      List.replicate 40 false ∧
    (noSignalRun (initClock 0 "DCD")
        ((List.range 40).map (fun (k : Nat) => (10 + 10 * k : Int)))).1.error = 0 := by
  decide

/-! ## C16: civil fields out of range in DCF77 and MSF -/

/-- C16, at the failing input: the parity-valid DCF77 and MSF frames that read
30 February 2002 pass the range tests of the decoders (`tm_mday <= 31`);
`UTCtime` then finds no such instant and returns `-1`, from which the decoders
still subtract the zone offset: both return `-3601` where their comment and the
claim say `-1`. -/
theorem Decode_february_30 :
    parityDCF77 (bufferOf frameDCF77_feb30) (42 - 38) [8, 7, 23] = true ∧
    ¬ civilValid 2002 2 30 1 59 0 ∧
    DecodeDCF77 31 (bufferOf frameDCF77_feb30) 42 = -3601 ∧
    DecodeDCF77 63 (bufferOf frameDCF77_feb30) 42 = -3601 ∧
    parityMSF (bufferOf frameMSF_feb30) 44 (44 - 44) 0 [8, 11, 3, 13] = true ∧
    DecodeMSF 31 (bufferOf frameMSF_feb30) 44 = -3601 ∧
    DecodeMSF 63 (bufferOf frameMSF_feb30) 44 = -3601 := by
  decide

/-! ## C17: the range tests of WWVB -/

/-- What the search of `UTCtime` returns is `-1` or the second of a probe that
matched, plus the saved seconds. -/
theorem UTCloop_result (tm : Tm) (secs : Int) (k : Nat) :
    ∀ timep : Int, UTCloop tm secs k timep = -1 ∨
      ∃ t : Int, direction (gmtime t) tm = 0 ∧ UTCloop tm secs k timep = t + secs := by
  induction k with
  | zero =>
    intro timep
    unfold UTCloop
    by_cases h : direction (gmtime timep) tm = 0
    · rw [if_pos h]; exact Or.inr ⟨timep, h, rfl⟩
    · rw [if_neg h]; exact Or.inl rfl
  | succ k ih =>
    intro timep
    unfold UTCloop
    by_cases h : direction (gmtime timep) tm = 0
    · rw [if_pos h]; exact Or.inr ⟨timep, h, rfl⟩
    · rw [if_neg h]
      split_ifs
      · exact ih _
      · exact ih _
      · exact ih _

theorem UTCtime_result (bits : Nat) (tm : Tm) :
    UTCtime bits tm = -1 ∨
      ∃ t : Int, gmtime t = { tm with tm_sec := 0 } ∧ UTCtime bits tm = t + tm.tm_sec := by
  unfold UTCtime
  rcases UTCloop_result { tm with tm_sec := 0 } tm.tm_sec (bits + 1) 0 with h | ⟨t, h1, h2⟩
  · exact Or.inl h
  · exact Or.inr ⟨t, direction_zero _ _ h1, h2⟩

theorem months_getD_nonneg (i : Nat) : 0 ≤ months.getD i 0 := by
  by_cases h : i < 12
  · interval_cases i <;> decide
  · rw [List.getD_eq_default _ _ (by simp [months]; omega)]

theorem monthLoop_none_of_neg (yd : Int) (h : yd < 0) (n : Nat) : monthLoop yd n = none := by
  induction n with
  | zero => rfl
  | succ n ih =>
    unfold monthLoop
    have := months_getD_nonneg n
    rw [if_neg (by omega), ih]

theorem monthLoop_some_of_nonneg (yd : Int) (h : 0 ≤ yd) (n : Nat) :
    ∃ m d : Int, monthLoop yd (n + 1) = some (m, d) ∧ 0 ≤ m := by
  induction n with
  | zero =>
    refine ⟨0, 1 + yd - 0, ?_, le_refl 0⟩
    have m0 : months.getD 0 0 = 0 := rfl
    simp only [monthLoop, m0, if_pos h, Nat.cast_zero]
  | succ n ih =>
    obtain ⟨m, d, hm, h0⟩ := ih
    by_cases hc : months.getD (n + 1) 0 ≤ yd
    · refine ⟨((n + 1 : Nat) : Int), 1 + yd - months.getD (n + 1) 0, ?_, by positivity⟩
      rw [monthLoop, if_pos hc]
    · refine ⟨m, d, ?_, h0⟩
      rw [monthLoop, if_neg hc, hm]

theorem monthLoop_none_iff (yd : Int) : monthLoop yd 12 = none ↔ yd < 0 := by
  constructor
  · intro h
    by_contra hn
    obtain ⟨m, d, hm, _⟩ := monthLoop_some_of_nonneg yd (by omega) 11
    rw [h] at hm
    cases hm
  · intro h
    exact monthLoop_none_of_neg yd h 12

/-- C17 (amended): for every frame that passes the WWVB framing check,
`DecodeWWVB` returns `-1` exactly when the decoded minute is above 59, the
hour above 23, `day_of_year` above 365, the year above 2099, or no month is
resolved (which is when `day_of_year` is negative). -/
theorem DecodeWWVB_reject_iff (bits : Nat) (code : Int → Int) (length : Int)
    (hf : framingWWVB code length = true) :
    (DecodeWWVB bits code length = -1 ↔
      (wwvbMinute code length > 59 ∨ wwvbHour code length > 23 ∨ wwvbYday code length > 365 ∨
        wwvbYear code length > 2099 ∨ monthLoop (wwvbYday code length) 12 = none)) ∧
    (monthLoop (wwvbYday code length) 12 = none ↔ wwvbYday code length < 0) := by
  refine ⟨?_, monthLoop_none_iff _⟩
  have e1 : segMsb 4 code (length - 31) 4 + segMsb 4 code (length - 36) 4 * 10
      + segMsb 4 code (length - 39) 2 * 100 - 1 = wwvbYday code length := by
    unfold wwvbYday; omega
  have e2 : 100 + segMsb 4 code (length - 11) 4 + segMsb 4 code (length - 16) 4 * 10
      = wwvbYear code length - 1900 := by
    unfold wwvbYear; omega
  have e3 : segMsb 4 code (length - 46) 4 + segMsb 4 code (length - 49) 2 * 10
      = wwvbHour code length := by
    unfold wwvbHour; omega
  have e4 : segMsb 4 code (length - 56) 4 + segMsb 4 code (length - 60) 3 * 10
      = wwvbMinute code length := by
    unfold wwvbMinute; omega
  have hyear : 2000 ≤ wwvbYear code length := by
    have := segMsb_nonneg 4 code (length - 11) 4
    have := segMsb_nonneg 4 code (length - 16) 4
    unfold wwvbYear; omega
  unfold DecodeWWVB
  rw [segments_WWVB]
  simp only [hf, List.getD_cons_succ, List.getD_cons_zero, e1, e2, e3, e4]
  rw [if_neg (by simp)]
  generalize wwvbMinute code length = mi at *
  generalize wwvbHour code length = h at *
  generalize wwvbYday code length = yd at *
  generalize wwvbYear code length = y at *
  by_cases hs : mi > 59 ∨ h > 23 ∨ yd > 365 ∨ y - 1900 > 199
  · rw [if_pos hs]
    constructor
    · intro _
      rcases hs with hs | hs | hs | hs
      · exact Or.inl hs
      · exact Or.inr (Or.inl hs)
      · exact Or.inr (Or.inr (Or.inl hs))
      · exact Or.inr (Or.inr (Or.inr (Or.inl (by omega))))
    · intro _; rfl
  · rw [if_neg hs]
    by_cases hyd : yd < 0
    · have hnone := monthLoop_none_of_neg yd hyd 12
      simp only [hnone, Option.getD_none]
      have h1 : ¬ yd > 59 := by omega
      have h2 : ¬ yd = 59 := by omega
      simp only [h1, h2, if_false, ite_self, if_true]
      exact ⟨fun _ => Or.inr (Or.inr (Or.inr (Or.inr trivial))), fun _ => trivial⟩
    · obtain ⟨m, d, hm, hm0⟩ := monthLoop_some_of_nonneg yd (by omega) 11
      simp only [hm, Option.getD_some]
      have hne : ¬ ((if code (length - 6) = 4 then
          if yd > 59 then (m, d - 1) else if yd = 59 then ((1 : Int), (29 : Int)) else (m, d)
          else (m, d)).1 = -1) := by
        split_ifs <;> simp <;> omega
      rw [if_neg hne]
      constructor
      · intro hU
        exfalso
        rcases UTCtime_result bits _ with hr | ⟨t, ht, hr⟩
        · rw [hr] at hU; omega
        · rw [hr] at hU
          have ht61 : t = -61 := by simp only at hU; omega
          rw [ht61] at ht
          have hy69 : (gmtime (-61)).tm_year = 69 := by decide
          rw [ht] at hy69
          simp only at hy69
          omega
      · intro hc
        exfalso
        rcases hc with hc | hc | hc | hc | hc
        · exact hs (Or.inl hc)
        · exact hs (Or.inr (Or.inl hc))
        · exact hs (Or.inr (Or.inr (Or.inl hc)))
        · exact hs (Or.inr (Or.inr (Or.inr (by omega))))
        · cases hc

/-- Witness of C17: the well-framed buffer of day 91 of 2001 is not rejected,
and none of the five conditions holds for it. -/
theorem DecodeWWVB_reject_iff_witness :
    DecodeWWVB 31 (bufferOf frameWWVB_2001_091) 61 ≠ -1 ∧
    ¬ (wwvbMinute (bufferOf frameWWVB_2001_091) 61 > 59 ∨
        wwvbHour (bufferOf frameWWVB_2001_091) 61 > 23 ∨
        wwvbYday (bufferOf frameWWVB_2001_091) 61 > 365 ∨
        wwvbYear (bufferOf frameWWVB_2001_091) 61 > 2099 ∨
        monthLoop (wwvbYday (bufferOf frameWWVB_2001_091) 61) 12 = none) :=
  ⟨by decide,
   fun h => absurd
     ((DecodeWWVB_reject_iff 31 (bufferOf frameWWVB_2001_091) 61 (by decide)).1.mpr h)
     (by decide)⟩

/-- Counterexample to C17 as stated: the well-framed buffer with the year
digits 10 and 0 encodes minute 34, hour 12, `day_of_year` 90 and the year 2100,
which is not above 2199, and a month is resolved; yet `DecodeWWVB` returns
`-1`. -/
theorem DecodeWWVB_rejects_2100 :
    framingWWVB (bufferOf frameWWVB_2100_091) 61 = true ∧
    wwvbMinute (bufferOf frameWWVB_2100_091) 61 = 34 ∧
    wwvbHour (bufferOf frameWWVB_2100_091) 61 = 12 ∧
    wwvbYday (bufferOf frameWWVB_2100_091) 61 = 90 ∧
    wwvbYear (bufferOf frameWWVB_2100_091) 61 = 2100 ∧
    monthLoop (wwvbYday (bufferOf frameWWVB_2100_091) 61) 12 ≠ none ∧
    DecodeWWVB 31 (bufferOf frameWWVB_2100_091) 61 = -1 ∧
    DecodeWWVB 63 (bufferOf frameWWVB_2100_091) 61 = -1 := by
  decide

/-! ## C18, C19 and C20: the edges -/

/-- On well-formed timevals `timersub` is the difference in microseconds,
split into seconds and a microsecond part in `0 .. 999999`. -/
theorem timersub_micros (a b : Timeval) (ha : a.wf) (hb : b.wf) :
    (timersub a b).tv_usec = (micros a - micros b) % 1000000 ∧
    (timersub a b).tv_sec = (micros a - micros b) / 1000000 := by
  unfold Timeval.wf at ha hb
  unfold timersub micros
  split_ifs <;> simp only <;> omega

theorem ProcessStatusChange_falling (test : Int) (bits w : Nat) (behind : List Int)
    (attach : Option ShmTime)
    (c : ClockInfo) (arg : Int) (tv : Timeval) (h : arg = 0 ∧ c.status = 1) :
    ProcessStatusChange test bits w behind attach c arg tv =
      if (timersub tv c.end_).tv_sec = 1 ∧ (timersub tv c.end_).tv_usec ≥ 760000 ∧
          (timersub tv c.end_).tv_usec ≤ 950000 ∧ c.count > 44 then
        ProcessTimeCode test bits w behind attach
          { fallState c tv with pulses := update c.pulses c.count tv } DCF77
      else if (timersub tv c.end_).tv_usec ≥ 60000 ∧ (timersub tv c.end_).tv_usec ≤ 150000 then
        missingMarker { fallState c tv with code := update c.code (c.count - 1) 3, correct := 1 }
      else missingMarker (fallState c tv) := by
  unfold ProcessStatusChange
  rw [if_pos h]
  rfl

theorem ProcessStatusChange_rising (test : Int) (bits w : Nat) (behind : List Int)
    (attach : Option ShmTime)
    (c : ClockInfo) (arg : Int) (tv : Timeval) (h : arg ≠ 0 ∧ c.status = 0) :
    ProcessStatusChange test bits w behind attach c arg tv =
      if c.correct = 1 then { riseState c tv with correct := 0 }
      else if (timersub tv c.start).tv_usec ≥ 60000 ∧ (timersub tv c.start).tv_usec < 150000 then
        missingMarker
          { storePulse (riseState c tv) 0 with frame := 0, marker := (c.marker <<< 1) % 256 }
      else if (timersub tv c.start).tv_usec ≥ 160000 ∧ (timersub tv c.start).tv_usec < 250000 then
        missingMarker
          { storePulse (riseState c tv) 1 with frame := 0, marker := (c.marker <<< 1 ||| 1) % 256 }
      else if (timersub tv c.start).tv_usec ≥ 260000 ∧ (timersub tv c.start).tv_usec < 350000 then
        missingMarker
          { storePulse (riseState c tv) 2 with frame := 0, marker := (c.marker <<< 1 ||| 1) % 256 }
      else if (timersub tv c.start).tv_usec ≥ 460000 ∧ (timersub tv c.start).tv_usec < 550000 then
        if c.marker = 0x7e ∧ c.count + 1 > 42 then
          ProcessTimeCode test bits w behind attach { storePulse (riseState c tv) 4 with frame := 0 } MSF
        else missingMarker { storePulse (riseState c tv) 4 with frame := 0 }
      else if (timersub tv c.start).tv_usec ≥ 760000 ∧ (timersub tv c.start).tv_usec < 850000 then
        if c.frame + 1 = 2 ∧ c.count + 1 > 60 then
          ProcessTimeCode test bits w behind attach
            { storePulse (riseState c tv) 5 with frame := c.frame + 1 } WWVB
        else missingMarker { storePulse (riseState c tv) 5 with frame := c.frame + 1 }
      else missingMarker (resetClock (riseState c tv)) := by
  unfold ProcessStatusChange
  rw [if_neg (by omega), if_pos h]
  rfl

theorem ProcessStatusChange_idle (test : Int) (bits w : Nat) (behind : List Int)
    (attach : Option ShmTime)
    (c : ClockInfo) (arg : Int) (tv : Timeval) (h1 : ¬ (arg = 0 ∧ c.status = 1))
    (h2 : ¬ (arg ≠ 0 ∧ c.status = 0)) :
    ProcessStatusChange test bits w behind attach c arg tv = missingMarker c := by
  unfold ProcessStatusChange
  rw [if_neg h1, if_neg h2]

theorem decoderCall_falling (c : ClockInfo) (arg : Int) (tv : Timeval)
    (h : arg = 0 ∧ c.status = 1) :
    decoderCall c arg tv =
      if (timersub tv c.end_).tv_sec = 1 ∧ (timersub tv c.end_).tv_usec ≥ 760000 ∧
          (timersub tv c.end_).tv_usec ≤ 950000 ∧ c.count > 44 then
        some ({ fallState c tv with pulses := update c.pulses c.count tv }, DCF77)
      else none := by
  unfold decoderCall
  rw [if_pos h]
  rfl

theorem decoderCall_rising (c : ClockInfo) (arg : Int) (tv : Timeval)
    (h : arg ≠ 0 ∧ c.status = 0) :
    decoderCall c arg tv =
      if c.correct = 1 then none
      else if (timersub tv c.start).tv_usec ≥ 60000 ∧ (timersub tv c.start).tv_usec < 150000 then
        none
      else if (timersub tv c.start).tv_usec ≥ 160000 ∧ (timersub tv c.start).tv_usec < 250000 then
        none
      else if (timersub tv c.start).tv_usec ≥ 260000 ∧ (timersub tv c.start).tv_usec < 350000 then
        none
      else if (timersub tv c.start).tv_usec ≥ 460000 ∧ (timersub tv c.start).tv_usec < 550000 then
        if c.marker = 0x7e ∧ c.count + 1 > 42 then
          some ({ storePulse (riseState c tv) 4 with frame := 0 }, MSF)
        else none
      else if (timersub tv c.start).tv_usec ≥ 760000 ∧ (timersub tv c.start).tv_usec < 850000 then
        if c.frame + 1 = 2 ∧ c.count + 1 > 60 then
          some ({ storePulse (riseState c tv) 5 with frame := c.frame + 1 }, WWVB)
        else none
      else none := by
  unfold decoderCall
  rw [if_neg (by omega), if_pos h]
  rfl

theorem decoderCall_idle (c : ClockInfo) (arg : Int) (tv : Timeval)
    (h1 : ¬ (arg = 0 ∧ c.status = 1)) (h2 : ¬ (arg ≠ 0 ∧ c.status = 0)) :
    decoderCall c arg tv = none := by
  unfold decoderCall
  rw [if_neg h1, if_neg h2]

theorem ProcessStatusChange_no_call (test test2 : Int) (bits bits2 w w2 : Nat)
    (behind behind2 : List Int) (attach attach2 : Option ShmTime) (c : ClockInfo) (arg : Int) (tv : Timeval)
    (h : decoderCall c arg tv = none) :
    ProcessStatusChange test bits w behind attach c arg tv
      = ProcessStatusChange test2 bits2 w2 behind2 attach2 c arg tv := by
  by_cases h1 : arg = 0 ∧ c.status = 1
  · rw [decoderCall_falling c arg tv h1] at h
    rw [ProcessStatusChange_falling test bits w behind attach c arg tv h1,
      ProcessStatusChange_falling test2 bits2 w2 behind2 attach2 c arg tv h1]
    by_cases hd : (timersub tv c.end_).tv_sec = 1 ∧ (timersub tv c.end_).tv_usec ≥ 760000 ∧
        (timersub tv c.end_).tv_usec ≤ 950000 ∧ c.count > 44
    · rw [if_pos hd] at h
      cases h
    · rw [if_neg hd, if_neg hd]
  by_cases h2 : arg ≠ 0 ∧ c.status = 0
  · rw [decoderCall_rising c arg tv h2] at h
    rw [ProcessStatusChange_rising test bits w behind attach c arg tv h2,
      ProcessStatusChange_rising test2 bits2 w2 behind2 attach2 c arg tv h2]
    by_cases hc : c.correct = 1
    · rw [if_pos hc, if_pos hc]
    rw [if_neg hc] at h
    rw [if_neg hc, if_neg hc]
    by_cases b0 : (timersub tv c.start).tv_usec ≥ 60000 ∧ (timersub tv c.start).tv_usec < 150000
    · rw [if_pos b0, if_pos b0]
    rw [if_neg b0] at h
    rw [if_neg b0, if_neg b0]
    by_cases b1 : (timersub tv c.start).tv_usec ≥ 160000 ∧ (timersub tv c.start).tv_usec < 250000
    · rw [if_pos b1, if_pos b1]
    rw [if_neg b1] at h
    rw [if_neg b1, if_neg b1]
    by_cases b2 : (timersub tv c.start).tv_usec ≥ 260000 ∧ (timersub tv c.start).tv_usec < 350000
    · rw [if_pos b2, if_pos b2]
    rw [if_neg b2] at h
    rw [if_neg b2, if_neg b2]
    by_cases b4 : (timersub tv c.start).tv_usec ≥ 460000 ∧ (timersub tv c.start).tv_usec < 550000
    · rw [if_pos b4] at h
      rw [if_pos b4, if_pos b4]
      by_cases t : c.marker = 0x7e ∧ c.count + 1 > 42
      · rw [if_pos t] at h
        cases h
      · rw [if_neg t, if_neg t]
    rw [if_neg b4] at h
    rw [if_neg b4, if_neg b4]
    by_cases b5 : (timersub tv c.start).tv_usec ≥ 760000 ∧ (timersub tv c.start).tv_usec < 850000
    · rw [if_pos b5] at h
      rw [if_pos b5, if_pos b5]
      by_cases t : c.frame + 1 = 2 ∧ c.count + 1 > 60
      · rw [if_pos t] at h
        cases h
      · rw [if_neg t, if_neg t]
    rw [if_neg b5, if_neg b5]
  rw [ProcessStatusChange_idle test bits w behind attach c arg tv h1 h2,
    ProcessStatusChange_idle test2 bits2 w2 behind2 attach2 c arg tv h1 h2]

theorem classify_four (u : Int) :
    classify u = some 4 ↔ (u ≥ 460000 ∧ u < 550000) := by
  unfold classify
  split_ifs <;> simp <;> omega

theorem classify_five (u : Int) :
    classify u = some 5 ↔ (u ≥ 760000 ∧ u < 850000) := by
  unfold classify
  split_ifs <;> simp <;> omega

theorem decoderCall_none (c : ClockInfo) (arg : Int) (tv : Timeval)
    (hD : ¬ (arg = 0 ∧ c.status = 1 ∧ (timersub tv c.end_).tv_sec = 1 ∧
      (timersub tv c.end_).tv_usec ≥ 760000 ∧ (timersub tv c.end_).tv_usec ≤ 950000 ∧
      c.count > 44))
    (hM : ¬ (arg ≠ 0 ∧ c.status = 0 ∧ c.correct ≠ 1 ∧
      classify (timersub tv c.start).tv_usec = some 4 ∧ c.marker = 0x7e ∧ c.count + 1 > 42))
    (hW : ¬ (arg ≠ 0 ∧ c.status = 0 ∧ c.correct ≠ 1 ∧
      classify (timersub tv c.start).tv_usec = some 5 ∧ c.frame + 1 = 2 ∧ c.count + 1 > 60)) :
    decoderCall c arg tv = none := by
  by_cases h1 : arg = 0 ∧ c.status = 1
  · rw [decoderCall_falling c arg tv h1, if_neg (fun h => hD ⟨h1.1, h1.2, h⟩)]
  by_cases h2 : arg ≠ 0 ∧ c.status = 0
  · rw [decoderCall_rising c arg tv h2]
    rw [classify_four] at hM
    rw [classify_five] at hW
    generalize (timersub tv c.start).tv_usec = u at hM hW ⊢
    by_cases hc : c.correct = 1
    · rw [if_pos hc]
    rw [if_neg hc]
    by_cases b0 : u ≥ 60000 ∧ u < 150000
    · rw [if_pos b0]
    rw [if_neg b0]
    by_cases b1 : u ≥ 160000 ∧ u < 250000
    · rw [if_pos b1]
    rw [if_neg b1]
    by_cases b2 : u ≥ 260000 ∧ u < 350000
    · rw [if_pos b2]
    rw [if_neg b2]
    by_cases b4 : u ≥ 460000 ∧ u < 550000
    · rw [if_pos b4, if_neg (fun t => hM ⟨h2.1, h2.2, hc, b4, t⟩)]
    rw [if_neg b4]
    by_cases b5 : u ≥ 760000 ∧ u < 850000
    · rw [if_pos b5, if_neg (fun t => hW ⟨h2.1, h2.2, hc, b5, t⟩)]
    rw [if_neg b5]
  exact decoderCall_idle c arg tv h1 h2

/-- C20: `ProcessStatusChange` calls `ProcessTimeCode` in three cases and in no
other.  DCF77: a falling edge on a high channel whose high duration lies in
1.760 s .. 1.950 s with `count > 44`, after `pulses[count]` is set to the time
of the edge.  MSF: a rising edge classified as symbol 4 with the marker
register at 0x7E and the count after the append above 42.  WWVB: a rising edge
classified as symbol 5 that brings `frame` to 2 with the count after the
append above 60.  For MSF and WWVB the channel passed holds the new symbol at
`count - 1`.  In every other case no call is made and the outcome does not
depend on the decoders or the segment. -/
theorem ProcessStatusChange_triggers (test : Int) (bits w : Nat) (behind : List Int)
    (attach : Option ShmTime)
    (c : ClockInfo) (arg : Int) (tv : Timeval) (htv : tv.wf) (hend : c.end_.wf) :
    (arg = 0 ∧ c.status = 1 ∧ 1760000 ≤ micros tv - micros c.end_ ∧
        micros tv - micros c.end_ ≤ 1950000 ∧ c.count > 44 →
      ∃ s : ClockInfo, decoderCall c arg tv = some (s, DCF77) ∧
        ProcessStatusChange test bits w behind attach c arg tv = ProcessTimeCode test bits w behind attach s DCF77 ∧
        s.count = c.count ∧ s.code = c.code ∧ s.pulses = update c.pulses c.count tv) ∧
    (arg ≠ 0 ∧ c.status = 0 ∧ c.correct ≠ 1 ∧
        classify (timersub tv c.start).tv_usec = some 4 ∧ c.marker = 0x7e ∧ c.count + 1 > 42 →
      ∃ s : ClockInfo, decoderCall c arg tv = some (s, MSF) ∧
        ProcessStatusChange test bits w behind attach c arg tv = ProcessTimeCode test bits w behind attach s MSF ∧
        s.count = c.count + 1 ∧ s.code = update c.code c.count 4 ∧ s.code (s.count - 1) = 4) ∧
    (arg ≠ 0 ∧ c.status = 0 ∧ c.correct ≠ 1 ∧
        classify (timersub tv c.start).tv_usec = some 5 ∧ c.frame + 1 = 2 ∧ c.count + 1 > 60 →
      ∃ s : ClockInfo, decoderCall c arg tv = some (s, WWVB) ∧
        ProcessStatusChange test bits w behind attach c arg tv = ProcessTimeCode test bits w behind attach s WWVB ∧
        s.count = c.count + 1 ∧ s.code = update c.code c.count 5 ∧ s.code (s.count - 1) = 5 ∧
        s.frame = 2) ∧
    (¬ (arg = 0 ∧ c.status = 1 ∧ 1760000 ≤ micros tv - micros c.end_ ∧
          micros tv - micros c.end_ ≤ 1950000 ∧ c.count > 44) ∧
      ¬ (arg ≠ 0 ∧ c.status = 0 ∧ c.correct ≠ 1 ∧
          classify (timersub tv c.start).tv_usec = some 4 ∧ c.marker = 0x7e ∧ c.count + 1 > 42) ∧
      ¬ (arg ≠ 0 ∧ c.status = 0 ∧ c.correct ≠ 1 ∧
          classify (timersub tv c.start).tv_usec = some 5 ∧ c.frame + 1 = 2 ∧ c.count + 1 > 60) →
      decoderCall c arg tv = none ∧
      ∀ (test2 : Int) (bits2 w2 : Nat) (behind2 : List Int) (attach2 : Option ShmTime),
        ProcessStatusChange test bits w behind attach c arg tv
          = ProcessStatusChange test2 bits2 w2 behind2 attach2 c arg tv) := by
  obtain ⟨hu, hs⟩ := timersub_micros tv c.end_ htv hend
  refine ⟨fun h => ?_, fun h => ?_, fun h => ?_, fun h => ?_⟩
  · obtain ⟨h1, h2, h3, h4, h5⟩ := h
    have hd : (timersub tv c.end_).tv_sec = 1 ∧ (timersub tv c.end_).tv_usec ≥ 760000 ∧
        (timersub tv c.end_).tv_usec ≤ 950000 ∧ c.count > 44 := by
      rw [hu, hs]
      omega
    refine ⟨{ fallState c tv with pulses := update c.pulses c.count tv }, ?_, ?_, rfl, rfl, rfl⟩
    · rw [decoderCall_falling c arg tv ⟨h1, h2⟩, if_pos hd]
    · rw [ProcessStatusChange_falling test bits w behind attach c arg tv ⟨h1, h2⟩, if_pos hd]
  · obtain ⟨h1, h2, h3, h4, h5⟩ := h
    have b4 := (classify_four _).1 h4
    have nb : ∀ lo hi : Int, hi ≤ 460000 →
        ¬ ((timersub tv c.start).tv_usec ≥ lo ∧ (timersub tv c.start).tv_usec < hi) :=
      fun lo hi hh hb => by omega
    refine ⟨{ storePulse (riseState c tv) 4 with frame := 0 }, ?_, ?_, rfl, rfl, ?_⟩
    · rw [decoderCall_rising c arg tv ⟨h1, h2⟩, if_neg h3, if_neg (nb _ _ (by decide)),
        if_neg (nb _ _ (by decide)), if_neg (nb _ _ (by decide)), if_pos b4, if_pos h5]
    · rw [ProcessStatusChange_rising test bits w behind attach c arg tv ⟨h1, h2⟩, if_neg h3,
        if_neg (nb _ _ (by decide)), if_neg (nb _ _ (by decide)), if_neg (nb _ _ (by decide)),
        if_pos b4, if_pos h5]
    · show update c.code c.count 4 (c.count + 1 - 1) = 4
      unfold update
      rw [if_pos (by omega)]
  · obtain ⟨h1, h2, h3, h4, h5⟩ := h
    have b5 := (classify_five _).1 h4
    have nb : ∀ lo hi : Int, hi ≤ 760000 →
        ¬ ((timersub tv c.start).tv_usec ≥ lo ∧ (timersub tv c.start).tv_usec < hi) :=
      fun lo hi hh hb => by omega
    refine ⟨{ storePulse (riseState c tv) 5 with frame := c.frame + 1 }, ?_, ?_, rfl, rfl, ?_,
      h5.1⟩
    · rw [decoderCall_rising c arg tv ⟨h1, h2⟩, if_neg h3, if_neg (nb _ _ (by decide)),
        if_neg (nb _ _ (by decide)), if_neg (nb _ _ (by decide)), if_neg (nb _ _ (by decide)),
        if_pos b5, if_pos h5]
    · rw [ProcessStatusChange_rising test bits w behind attach c arg tv ⟨h1, h2⟩, if_neg h3,
        if_neg (nb _ _ (by decide)), if_neg (nb _ _ (by decide)), if_neg (nb _ _ (by decide)),
        if_neg (nb _ _ (by decide)), if_pos b5, if_pos h5]
    · show update c.code c.count 5 (c.count + 1 - 1) = 5
      unfold update
      rw [if_pos (by omega)]
  · obtain ⟨hD, hM, hW⟩ := h
    have hn : decoderCall c arg tv = none := by
      refine decoderCall_none c arg tv (fun hd => hD ?_) hM hW
      obtain ⟨h1, h2, h3, h4, h5, h6⟩ := hd
      rw [hu] at h4 h5
      rw [hs] at h3
      exact ⟨h1, h2, by omega, by omega, h6⟩
    exact ⟨hn, fun test2 bits2 w2 behind2 attach2 =>
      ProcessStatusChange_no_call test test2 bits bits2 w w2 behind behind2 attach attach2 c arg tv hn⟩

/-- Witness of C20: on the channel with 49 symbols and the rising edge at
10 s, a falling edge at 11.8 s is a DCF77 minute marker; one at 10.1 s calls no
decoder. -/
theorem ProcessStatusChange_triggers_witness :
    (∃ s : ClockInfo, decoderCall highClock 0 ⟨11, 800000⟩ = some (s, DCF77) ∧
      ProcessStatusChange 0 31 1 [] none highClock 0 ⟨11, 800000⟩
        = ProcessTimeCode 0 31 1 [] none s DCF77 ∧ s.count = 50) ∧
    decoderCall highClock 0 ⟨10, 100000⟩ = none := by
  have h := ProcessStatusChange_triggers 0 31 1 [] none highClock 0 ⟨11, 800000⟩ (by decide)
    (by decide)
  have h2 := ProcessStatusChange_triggers 0 31 1 [] none highClock 0 ⟨10, 100000⟩ (by decide)
    (by decide)
  obtain ⟨s, h3, h4, h5, _⟩ := h.1 (by decide)
  exact ⟨⟨s, h3, h4, h5⟩, (h2.2.2.2 (by decide)).1⟩

/-! ## C21, C22 and C23: the parity and framing tests -/

theorem countSymbols_succ (p : Int → Bool) (code : Int → Int) (k : Int) (n : Nat) :
    countSymbols p code k (n + 1)
      = countSymbols p code k n + (if p (code (k + n)) then 1 else 0) := by
  simp [countSymbols, List.range_succ]

/-- A group of symbols 0 and 1 adds up to the number of its ones. -/
theorem sumCode_eq_onesIn (code : Int → Int) (k : Int) (n : Nat)
    (h : ∀ j : Nat, j < n → code (k + j) = 0 ∨ code (k + j) = 1) :
    sumCode code k n = ((onesIn code k n : Nat) : Int) := by
  induction n with
  | zero => simp [sumCode, onesIn, countSymbols]
  | succ n ih =>
    rw [sumCode_succ, ih (fun j hj => h j (by omega))]
    unfold onesIn
    rw [countSymbols_succ]
    rcases h n (by omega) with h1 | h1 <;> simp [h1]

/-- The parity loop of `DecodeMSF` passes exactly when each of the four seeded
sums has remainder 1. -/
theorem parityMSF_iff (code : Int → Int) (length : Int) :
    parityMSF code length (length - 44) 0 [8, 11, 3, 13] = true ↔
      ((if code (length - 7) = 2 then 1 else 0) + sumCode code (length - 44) 8).tmod 2 = 1 ∧
      ((if code (length - 6) = 2 then 1 else 0) + sumCode code (length - 36) 11).tmod 2 = 1 ∧
      ((if code (length - 5) = 2 then 1 else 0) + sumCode code (length - 25) 3).tmod 2 = 1 ∧
      ((if code (length - 4) = 2 then 1 else 0) + sumCode code (length - 22) 13).tmod 2 = 1 := by
  have e0 : length - 7 + 0 = length - 7 := by omega
  have e1 : length - 7 + (0 + 1) = length - 6 := by omega
  have e2 : length - 7 + (0 + 1 + 1) = length - 5 := by omega
  have e3 : length - 7 + (0 + 1 + 1 + 1) = length - 4 := by omega
  simp only [parityMSF, Nat.cast_ofNat, sub_add_lit, Int.reduceSub, e0, e1, e2, e3, ne_eq]
  by_cases h1 :
      ((if code (length - 7) = 2 then 1 else 0) + sumCode code (length - 44) 8).tmod 2 = 1 <;>
    by_cases h2 :
      ((if code (length - 6) = 2 then 1 else 0) + sumCode code (length - 36) 11).tmod 2 = 1 <;>
    by_cases h3 :
      ((if code (length - 5) = 2 then 1 else 0) + sumCode code (length - 25) 3).tmod 2 = 1 <;>
    by_cases h4 :
      ((if code (length - 4) = 2 then 1 else 0) + sumCode code (length - 22) 13).tmod 2 = 1 <;>
    simp [h1, h2, h3, h4]

theorem DecodeMSF_parity (bits : Nat) (code : Int → Int) (length : Int)
    (h : parityMSF code length (length - 44) 0 [8, 11, 3, 13] = false) :
    DecodeMSF bits code length = -1 := by
  unfold DecodeMSF
  rw [if_pos h]

/-- A seeded sum of symbols 0 and 1 fails the test `sum % 2 == 1` exactly when
the seed plus the number of ones is even. -/
theorem seeded_tmod (b : Prop) [Decidable b] (s : Int) (n : Nat) (hs : s = (n : Int)) :
    ¬ ((if b then 1 else 0) + s).tmod 2 = 1 ↔ ((if b then 1 else 0) + n) % 2 = 0 := by
  subst hs
  by_cases hb : b
  · rw [if_pos hb, if_pos hb, Int.tmod_eq_emod (by omega) (by norm_num)]
    omega
  · rw [if_neg hb, if_neg hb, Int.tmod_eq_emod (by omega) (by norm_num)]
    omega

/-- C22: for every symbol buffer whose symbols at `length-44 .. length-10` are
each 0 or 1, the parity test of `DecodeMSF` fails, and `DecodeMSF` returns
`-1`, if and only if for one of the four consecutive groups of widths 8, 11, 3
and 13 from `length-44` the seed (1 if `code[length-7+i] == 2`, else 0) plus
the number of ones in the group is even. -/
theorem DecodeMSF_parity_rule (bits : Nat) (code : Int → Int) (length : Int)
    (hsym : ∀ j : Nat, j < 35 → code (length - 44 + j) = 0 ∨ code (length - 44 + j) = 1) :
    (parityMSF code length (length - 44) 0 [8, 11, 3, 13] = false ↔
      ((if code (length - 7) = 2 then 1 else 0) + onesIn code (length - 44) 8) % 2 = 0 ∨
      ((if code (length - 6) = 2 then 1 else 0) + onesIn code (length - 36) 11) % 2 = 0 ∨
      ((if code (length - 5) = 2 then 1 else 0) + onesIn code (length - 25) 3) % 2 = 0 ∨
      ((if code (length - 4) = 2 then 1 else 0) + onesIn code (length - 22) 13) % 2 = 0) ∧
    (parityMSF code length (length - 44) 0 [8, 11, 3, 13] = false →
      DecodeMSF bits code length = -1) := by
  refine ⟨?_, DecodeMSF_parity bits code length⟩
  have o1 := sumCode_eq_onesIn code (length - 44) 8 (fun j hj => hsym j (by omega))
  have o2 := sumCode_eq_onesIn code (length - 36) 11 (fun j hj => by
    have e : length - 36 + (j : Int) = length - 44 + ((j + 8 : Nat) : Int) := by
      push_cast; omega
    rw [e]; exact hsym (j + 8) (by omega))
  have o3 := sumCode_eq_onesIn code (length - 25) 3 (fun j hj => by
    have e : length - 25 + (j : Int) = length - 44 + ((j + 19 : Nat) : Int) := by
      push_cast; omega
    rw [e]; exact hsym (j + 19) (by omega))
  have o4 := sumCode_eq_onesIn code (length - 22) 13 (fun j hj => by
    have e : length - 22 + (j : Int) = length - 44 + ((j + 22 : Nat) : Int) := by
      push_cast; omega
    rw [e]; exact hsym (j + 22) (by omega))
  rw [← Bool.not_eq_true, parityMSF_iff,
    ← seeded_tmod (code (length - 7) = 2) _ _ o1, ← seeded_tmod (code (length - 6) = 2) _ _ o2,
    ← seeded_tmod (code (length - 5) = 2) _ _ o3, ← seeded_tmod (code (length - 4) = 2) _ _ o4]
  tauto

/-- Witness of C22: the frame of 2002-03-31 02:00 BST passes the parity test,
so in none of its four groups is the seed plus the number of ones even. -/
theorem DecodeMSF_parity_rule_witness :
    ¬ (((if bufferOf frameMSF_2002 (44 - 7) = 2 then 1 else 0)
          + onesIn (bufferOf frameMSF_2002) (44 - 44) 8) % 2 = 0 ∨
       ((if bufferOf frameMSF_2002 (44 - 6) = 2 then 1 else 0)
          + onesIn (bufferOf frameMSF_2002) (44 - 36) 11) % 2 = 0 ∨
       ((if bufferOf frameMSF_2002 (44 - 5) = 2 then 1 else 0)
          + onesIn (bufferOf frameMSF_2002) (44 - 25) 3) % 2 = 0 ∨
       ((if bufferOf frameMSF_2002 (44 - 4) = 2 then 1 else 0)
          + onesIn (bufferOf frameMSF_2002) (44 - 22) 13) % 2 = 0) :=
  fun h => absurd ((DecodeMSF_parity_rule 31 (bufferOf frameMSF_2002) 44 (by decide)).1.mpr h)
    (by decide)

/-- The framing loop of `DecodeWWVB` passes exactly when every index
`i = 2 .. 59` meets the rule. -/
theorem framingWWVB_iff (code : Int → Int) (length : Int) :
    framingWWVB code length = true ↔
      ∀ i : Int, 2 ≤ i → i < 60 →
        ((i - 1) % 10 = 0 → code (length - i - 1) = 5) ∧
        ((i - 1) % 10 ≠ 0 → code (length - i - 1) = 1 ∨ code (length - i - 1) = 4) := by
  unfold framingWWVB
  rw [List.all_eq_true]
  constructor
  · intro h i h2 h60
    have hi := h (i - 2).toNat (List.mem_range.mpr (by omega))
    have e : (((i - 2).toNat : Nat) : Int) + 2 = i := by omega
    simp only [e] at hi
    by_cases hk : (i - 1) % 10 = 0
    · simp [hk] at hi
      exact ⟨fun _ => hi, fun h => absurd hk h⟩
    · simp [hk] at hi
      exact ⟨fun h => absurd h hk, fun _ => hi⟩
  · intro h n hn
    have hn' : n < 58 := List.mem_range.mp hn
    obtain ⟨h1, h2⟩ := h ((n : Int) + 2) (by omega) (by omega)
    by_cases hk : ((n : Int) + 2 - 1) % 10 = 0
    · simp [hk, h1 hk]
    · rcases h2 hk with h | h <;> simp [hk, h]

/-- C23: for every symbol buffer and length, `DecodeWWVB` returns `-1`
whenever some index `i` in `[2, 60)` violates the framing rule (the symbol at
`length-i-1` is 5 when `(i-1) mod 10 == 0` and 1 or 4 otherwise), and the
framing test passes, so that the fields are extracted, only when all 58
positions meet the rule. -/
theorem DecodeWWVB_framing_rule (bits : Nat) (code : Int → Int) (length : Int) :
    (∀ i : Int, 2 ≤ i → i < 60 →
      ¬ (((i - 1) % 10 = 0 → code (length - i - 1) = 5) ∧
        ((i - 1) % 10 ≠ 0 → code (length - i - 1) = 1 ∨ code (length - i - 1) = 4)) →
      framingWWVB code length = false ∧ DecodeWWVB bits code length = -1) ∧
    (framingWWVB code length = true ↔
      ∀ i : Int, 2 ≤ i → i < 60 →
        ((i - 1) % 10 = 0 → code (length - i - 1) = 5) ∧
        ((i - 1) % 10 ≠ 0 → code (length - i - 1) = 1 ∨ code (length - i - 1) = 4)) ∧
    (DecodeWWVB bits code length ≠ -1 →
      ∀ i : Int, 2 ≤ i → i < 60 →
        ((i - 1) % 10 = 0 → code (length - i - 1) = 5) ∧
        ((i - 1) % 10 ≠ 0 → code (length - i - 1) = 1 ∨ code (length - i - 1) = 4)) := by
  have hrej : framingWWVB code length = false → DecodeWWVB bits code length = -1 := fun h => by
    unfold DecodeWWVB
    rw [if_pos h]
  refine ⟨fun i h2 h60 hv => ?_, framingWWVB_iff code length, fun hne => ?_⟩
  · have hf : framingWWVB code length = false := by
      rw [← Bool.not_eq_true, framingWWVB_iff]
      exact fun h => hv (h i h2 h60)
    exact ⟨hf, hrej hf⟩
  · rw [← framingWWVB_iff]
    by_contra hf
    exact hne (hrej (by simpa using hf))

/-- Witness of C23: a buffer of symbols 0 breaks the rule at `i = 2`, and
`DecodeWWVB` returns `-1`. -/
theorem DecodeWWVB_framing_rule_witness :
    framingWWVB (bufferOf []) 61 = false ∧ DecodeWWVB 31 (bufferOf []) 61 = -1 :=
  (DecodeWWVB_framing_rule 31 (bufferOf []) 61).1 2 (by decide) (by decide) (by decide)

/-! ## C24: the search of `UTCtime` ends -/

/-- The search started with `k` passes left makes at least one and at most
`k + 1` calls of `gmtime`. -/
theorem UTCprobes_length (tm : Tm) (k : Nat) :
    ∀ timep : Int, 1 ≤ (UTCprobes tm k timep).length ∧ (UTCprobes tm k timep).length ≤ k + 1 := by
  induction k with
  | zero =>
    intro timep
    unfold UTCprobes
    simp
  | succ k ih =>
    intro timep
    unfold UTCprobes
    by_cases h : direction (gmtime timep) tm = 0
    · rw [if_pos h]
      simp
    · rw [if_neg h]
      by_cases hk : k = 0
      · rw [if_pos hk]
        have := ih (timep - 1)
        simp only [List.length_cons]
        omega
      · rw [if_neg hk]
        by_cases hd : direction (gmtime timep) tm > 0
        · rw [if_pos hd]
          have := ih (timep - 2 ^ (k - 1))
          simp only [List.length_cons]
          omega
        · rw [if_neg hd]
          have := ih (timep + 2 ^ (k - 1))
          simp only [List.length_cons]
          omega

/-- Every instant handed to `gmtime` lies in the range of a signed `time_t`
with `B` magnitude bits, when the search is entered within the margin that the
passes left can still cover. -/
theorem UTCprobes_range (tm : Tm) (B : Nat) (k : Nat) :
    ∀ timep : Int,
      (k = 0 → -(2 : Int) ^ B ≤ timep ∧ timep < 2 ^ B) →
      (∀ j : Nat, k = j + 1 → -((2 : Int) ^ B - 2 ^ j) ≤ timep ∧ timep ≤ 2 ^ B - 2 ^ j) →
      ∀ t ∈ UTCprobes tm k timep, -(2 : Int) ^ B ≤ t ∧ t < 2 ^ B := by
  induction k with
  | zero =>
    intro timep h0 _ t ht
    unfold UTCprobes at ht
    rw [List.mem_singleton] at ht
    rw [ht]
    exact h0 rfl
  | succ k ih =>
    intro timep _ h1 t ht
    have hb := h1 k rfl
    have hp : (0 : Int) < 2 ^ k := by positivity
    have hself : -(2 : Int) ^ B ≤ timep ∧ timep < 2 ^ B := by omega
    unfold UTCprobes at ht
    by_cases h : direction (gmtime timep) tm = 0
    · rw [if_pos h, List.mem_singleton] at ht
      rw [ht]
      exact hself
    · rw [if_neg h] at ht
      by_cases hk : k = 0
      · rw [if_pos hk, List.mem_cons] at ht
        rcases ht with ht | ht
        · rw [ht]; exact hself
        · subst hk
          refine ih (timep - 1) (fun _ => ?_) (fun j hj => by omega) t ht
          simp only [pow_zero] at hb
          omega
      · rw [if_neg hk] at ht
        obtain ⟨i, hi⟩ : ∃ i : Nat, k = i + 1 := ⟨k - 1, by omega⟩
        subst hi
        have e : (2 : Int) ^ (i + 1) = 2 * 2 ^ i := by rw [pow_succ]; ring
        have hpi : (0 : Int) < 2 ^ i := by positivity
        simp only [Nat.add_sub_cancel] at ht
        rw [e] at hb
        by_cases hd : direction (gmtime timep) tm > 0
        · rw [if_pos hd, List.mem_cons] at ht
          rcases ht with ht | ht
          · rw [ht]; exact hself
          · refine ih (timep - 2 ^ i) (fun h0 => by omega) (fun j hj => ?_) t ht
            have : j = i := by omega
            subst this
            omega
        · rw [if_neg hd, List.mem_cons] at ht
          rcases ht with ht | ht
          · rw [ht]; exact hself
          · refine ih (timep + 2 ^ i) (fun h0 => by omega) (fun j hj => ?_) t ht
            have : j = i := by omega
            subst this
            omega

/-- What the search returns is `-1` or the last instant handed to `gmtime`,
which matched, plus the saved seconds. -/
theorem UTCloop_probes (tm : Tm) (secs : Int) (k : Nat) :
    ∀ timep : Int, UTCloop tm secs k timep = -1 ∨
      ∃ t ∈ UTCprobes tm k timep, direction (gmtime t) tm = 0 ∧
        UTCloop tm secs k timep = t + secs := by
  induction k with
  | zero =>
    intro timep
    unfold UTCloop UTCprobes
    by_cases h : direction (gmtime timep) tm = 0
    · rw [if_pos h]; exact Or.inr ⟨timep, List.mem_singleton.mpr rfl, h, rfl⟩
    · rw [if_neg h]; exact Or.inl rfl
  | succ k ih =>
    intro timep
    unfold UTCloop UTCprobes
    by_cases h : direction (gmtime timep) tm = 0
    · rw [if_pos h, if_pos h]; exact Or.inr ⟨timep, List.mem_singleton.mpr rfl, h, rfl⟩
    · rw [if_neg h, if_neg h]
      by_cases hk : k = 0
      · rw [if_pos hk, if_pos hk]
        rcases ih (timep - 1) with h1 | ⟨t, ht, h1, h2⟩
        · exact Or.inl h1
        · exact Or.inr ⟨t, List.mem_cons_of_mem _ ht, h1, h2⟩
      · rw [if_neg hk, if_neg hk]
        by_cases hd : direction (gmtime timep) tm > 0
        · rw [if_pos hd, if_pos hd]
          rcases ih (timep - 2 ^ (k - 1)) with h1 | ⟨t, ht, h1, h2⟩
          · exact Or.inl h1
          · exact Or.inr ⟨t, List.mem_cons_of_mem _ ht, h1, h2⟩
        · rw [if_neg hd, if_neg hd]
          rcases ih (timep + 2 ^ (k - 1)) with h1 | ⟨t, ht, h1, h2⟩
          · exact Or.inl h1
          · exact Or.inr ⟨t, List.mem_cons_of_mem _ ht, h1, h2⟩

/-- C24: `UTCtime` is total, and on every input its search loop calls `gmtime`
at least once and at most `bits + 2` times, each time on an instant of the
range `-2^bits .. 2^bits - 1` of `time_t`; it returns `-1` or an instant it
probed whose civil fields are those of the input, plus the saved seconds; and
for every input whose (year, month, day, hour, minute) is not the civil time of
any instant of that range it returns `-1`. -/
theorem UTCtime_terminates (bits : Nat) (tm : Tm) :
    1 ≤ (UTCprobes { tm with tm_sec := 0 } (bits + 1) 0).length ∧
    (UTCprobes { tm with tm_sec := 0 } (bits + 1) 0).length ≤ bits + 2 ∧
    (∀ t ∈ UTCprobes { tm with tm_sec := 0 } (bits + 1) 0, -(2 : Int) ^ bits ≤ t ∧ t < 2 ^ bits) ∧
    (UTCtime bits tm = -1 ∨
      ∃ t ∈ UTCprobes { tm with tm_sec := 0 } (bits + 1) 0,
        gmtime t = { tm with tm_sec := 0 } ∧ UTCtime bits tm = t + tm.tm_sec) ∧
    ((∀ t : Int, -(2 : Int) ^ bits ≤ t → t < 2 ^ bits →
        ¬ ((gmtime t).tm_year = tm.tm_year ∧ (gmtime t).tm_mon = tm.tm_mon ∧
          (gmtime t).tm_mday = tm.tm_mday ∧ (gmtime t).tm_hour = tm.tm_hour ∧
          (gmtime t).tm_min = tm.tm_min)) →
      UTCtime bits tm = -1) := by
  have hlen := UTCprobes_length { tm with tm_sec := 0 } (bits + 1) 0
  have hrange := UTCprobes_range { tm with tm_sec := 0 } bits (bits + 1) 0
    (fun h => by omega)
    (fun j hj => by
      have : j = bits := by omega
      subst this
      omega)
  have hres : UTCtime bits tm = -1 ∨
      ∃ t ∈ UTCprobes { tm with tm_sec := 0 } (bits + 1) 0,
        gmtime t = { tm with tm_sec := 0 } ∧ UTCtime bits tm = t + tm.tm_sec := by
    unfold UTCtime
    rcases UTCloop_probes { tm with tm_sec := 0 } tm.tm_sec (bits + 1) 0 with h | ⟨t, ht, h1, h2⟩
    · exact Or.inl h
    · exact Or.inr ⟨t, ht, direction_zero _ _ h1, h2⟩
  refine ⟨hlen.1, by omega, hrange, hres, fun hno => ?_⟩
  rcases hres with h | ⟨t, ht, h1, _⟩
  · exact h
  · exfalso
    obtain ⟨hlo, hhi⟩ := hrange t ht
    refine hno t hlo hhi ?_
    rw [h1]
    exact ⟨rfl, rfl, rfl, rfl, rfl⟩

/-- Witness of C24: for 30 February 2002, 01:59, with a 32-bit `time_t`, the
search makes 33 calls of `gmtime` and `UTCtime` returns `-1`. -/
theorem UTCtime_terminates_witness :
    (UTCprobes { tmFeb30 with tm_sec := 0 } (31 + 1) 0).length = 33 ∧
    UTCtime 31 tmFeb30 = -1 :=
  ⟨by decide,
   (UTCtime_terminates 31 tmFeb30).2.2.2.2 (fun t _ _ h => by
     have hv := tmValid_gmtime t
     obtain ⟨_, _, _, h4, _⟩ := hv
     obtain ⟨hy, hm, hd, _, _⟩ := h
     rw [hy, hm, hd] at h4
     exact absurd h4 (by decide))⟩

/-! ## C25: the indices the decoders read -/

/-- The lengths with which the decoders are called from a channel with
`1 ≤ count ≤ 127`: 45 .. 127 for DCF77, 43 .. 128 for MSF and 61 .. 128 for
WWVB. -/
theorem decoderCall_lengths (c : ClockInfo) (arg : Int) (tv : Timeval) (s : ClockInfo)
    (radio : Int) (h1 : 1 ≤ c.count) (h127 : c.count ≤ 127)
    (h : decoderCall c arg tv = some (s, radio)) :
    (radio = DCF77 ∧ 45 ≤ s.count ∧ s.count ≤ 127) ∨
    (radio = MSF ∧ 43 ≤ s.count ∧ s.count ≤ 128) ∨
    (radio = WWVB ∧ 61 ≤ s.count ∧ s.count ≤ 128) := by
  by_cases hf : arg = 0 ∧ c.status = 1
  · rw [decoderCall_falling c arg tv hf] at h
    by_cases hd : (timersub tv c.end_).tv_sec = 1 ∧ (timersub tv c.end_).tv_usec ≥ 760000 ∧
        (timersub tv c.end_).tv_usec ≤ 950000 ∧ c.count > 44
    · rw [if_pos hd] at h
      cases h
      exact Or.inl ⟨rfl, by show 45 ≤ c.count; omega, h127⟩
    · rw [if_neg hd] at h
      cases h
  by_cases hr : arg ≠ 0 ∧ c.status = 0
  · rw [decoderCall_rising c arg tv hr] at h
    by_cases hc : c.correct = 1
    · rw [if_pos hc] at h; cases h
    rw [if_neg hc] at h
    by_cases b0 : (timersub tv c.start).tv_usec ≥ 60000 ∧ (timersub tv c.start).tv_usec < 150000
    · rw [if_pos b0] at h; cases h
    rw [if_neg b0] at h
    by_cases b1 : (timersub tv c.start).tv_usec ≥ 160000 ∧ (timersub tv c.start).tv_usec < 250000
    · rw [if_pos b1] at h; cases h
    rw [if_neg b1] at h
    by_cases b2 : (timersub tv c.start).tv_usec ≥ 260000 ∧ (timersub tv c.start).tv_usec < 350000
    · rw [if_pos b2] at h; cases h
    rw [if_neg b2] at h
    by_cases b4 : (timersub tv c.start).tv_usec ≥ 460000 ∧ (timersub tv c.start).tv_usec < 550000
    · rw [if_pos b4] at h
      by_cases t : c.marker = 0x7e ∧ c.count + 1 > 42
      · rw [if_pos t] at h
        cases h
        exact Or.inr (Or.inl ⟨rfl, by show 43 ≤ c.count + 1; omega,
          by show c.count + 1 ≤ 128; omega⟩)
      · rw [if_neg t] at h; cases h
    rw [if_neg b4] at h
    by_cases b5 : (timersub tv c.start).tv_usec ≥ 760000 ∧ (timersub tv c.start).tv_usec < 850000
    · rw [if_pos b5] at h
      by_cases t : c.frame + 1 = 2 ∧ c.count + 1 > 60
      · rw [if_pos t] at h
        cases h
        exact Or.inr (Or.inr ⟨rfl, by show 61 ≤ c.count + 1; omega,
          by show c.count + 1 ≤ 128; omega⟩)
      · rw [if_neg t] at h; cases h
    rw [if_neg b5] at h
    cases h
  rw [decoderCall_idle c arg tv hf hr] at h
  cases h

/-- C25, at the failing input: the channel as `main` starts it, after 41
pulses of which the last eight leave the marker register at `0x7e`, holds
`count = 42`; a 500 ms pulse then makes `ProcessStatusChange` call
`ProcessTimeCode` for MSF with `count = 43`, and `DecodeMSF` with `length = 43`
starts its parity loop at index `43 - 44 = -1`: its result changes (from `-1`
to `-3601`) when nothing but the value at index `-1` changes. -/
theorem DecodeMSF_reads_before_buffer :
    shortMinuteClock.count = 42 ∧ shortMinuteClock.status = 0 ∧
    shortMinuteClock.correct = 0 ∧ shortMinuteClock.marker = 0x7e ∧
    (decoderCall shortMinuteClock 1 ⟨42, 500000⟩).map (fun p => (p.1.count, p.2))
      = some (43, MSF) ∧
    (43 : Int) - 44 = -1 ∧
    (decoderCall shortMinuteClock 1 ⟨42, 500000⟩).map
      (fun p => DecodeMSF 31 p.1.code p.1.count) = some (-1) ∧
    (decoderCall shortMinuteClock 1 ⟨42, 500000⟩).map
      (fun p => DecodeMSF 31 (update p.1.code (-1) 1) p.1.count) = some (-3601) := by
  decide

end Radioclk
